import Mathlib

/-!
Verification development for the scene-node copy command of a desktop
streaming studio application.

The command under study is CopyNodesCommand (execute and rollback) from the
repository source.  The external collaborator services (scene graph,
dual-output, scene-collections, sources, video-settings) are not part of the
source tree; they are modelled from the specification, with a doc comment
marking each such definition.  Ids are modelled as natural numbers; the world
carries a counter used to generate fresh ids, matching the deterministic
generation of ids with optional hints described in the source comments.
-/

namespace Desktop

/-- The two logical output canvases of dual-output editing mode. -/
inductive TDisplayType where
  | horizontal
  | vertical
deriving DecidableEq, Repr

abbrev NodeId := Nat
abbrev SourceId := Nat
abbrev SceneId := Nat

/-- Association list lookup by key (first match wins, as in a dictionary). -/
def alookup {α β : Type} [DecidableEq α] : List (α × β) → α → Option β
  | [], _ => none
  | (k, v) :: t, a => if k = a then some v else alookup t a

/-- Association list update: overwrite the entry with the given key, or append
a new entry if the key is absent (dictionary assignment semantics). -/
def aset {α β : Type} [DecidableEq α] : List (α × β) → α → β → List (α × β)
  | [], a, b => [(a, b)]
  | (k, v) :: t, a, b => if k = a then (a, b) :: t else (k, v) :: aset t a b

/-- A scene node: an item (references a source) or a folder (pure grouping).
Carries the per-display render settings the command reads and writes:
display tag, transform position, output context and an opaque remainder of
the settings payload. -/
structure SceneNode where
  id : NodeId
  name : String
  parentId : Option NodeId
  isFolder : Bool
  sourceId : SourceId
  display : TDisplayType
  posX : Int
  posY : Int
  output : Nat
  payload : Nat
deriving DecidableEq, Repr

/-- A scene: a pool of nodes plus the authoritative flat node-id order. -/
structure Scene where
  id : SceneId
  nodes : List SceneNode
  order : List NodeId
deriving DecidableEq, Repr

/-- A content-producing source; may be marked non-duplicable. -/
structure Source where
  id : SourceId
  doNotDuplicate : Bool
deriving DecidableEq, Repr

/-- A per-scene node map: a dictionary keyed by the horizontal slot as passed
by the caller.  The command passes possibly-undefined ids, so both slots are
options; an undefined horizontal slot collapses to the single key none,
mirroring dictionary assignment with an undefined key. -/
abbrev NodeMap := List (Option NodeId × Option NodeId)

/-- The world state: all scenes, sources and node maps, the dual-output mode
flag, the single active display, the per-display render contexts, and the
fresh-id counter. -/
structure World where
  scenes : List Scene
  sources : List Source
  nodeMaps : List (SceneId × NodeMap)
  dualOutputMode : Bool
  activeDisplay : TDisplayType
  ctxHorizontal : Nat
  ctxVertical : Nat
  nextId : Nat
deriving DecidableEq, Repr

/-- Modelled from the spec: the Scene Graph service getScene(id). -/
def getScene (w : World) (sid : SceneId) : Option Scene :=
  w.scenes.find? fun s => s.id = sid

/-- Apply a scene transformation to the scene with the given id. -/
def modifyScene (w : World) (sid : SceneId) (f : Scene → Scene) : World :=
  { w with scenes := w.scenes.map fun s => if s.id = sid then f s else s }

/-- Modelled from the spec: scene getNode(id). -/
def getNode (s : Scene) (nid : NodeId) : Option SceneNode :=
  s.nodes.find? fun n => n.id = nid

/-- Node lookup through the world. -/
def getNodeW (w : World) (sid : SceneId) (nid : NodeId) : Option SceneNode :=
  (getScene w sid).bind fun s => getNode s nid

/-- Apply a node transformation to one node of one scene. -/
def modifyNode (w : World) (sid : SceneId) (nid : NodeId) (f : SceneNode → SceneNode) : World :=
  modifyScene w sid fun s =>
    { s with nodes := s.nodes.map fun n => if n.id = nid then f n else n }

/-- Id generation with an optional hint: a given hint is honored, otherwise a
fresh id is drawn from the counter. -/
def chooseId (w : World) (hint : Option Nat) : Nat × World :=
  match hint with
  | some h => (h, w)
  | none => (w.nextId, { w with nextId := w.nextId + 1 })

/-- Add a node to a scene: the pool gains the node and the order gains its id. -/
def sceneAddNode (w : World) (sid : SceneId) (n : SceneNode) : World :=
  modifyScene w sid fun s => { s with nodes := s.nodes ++ [n], order := s.order ++ [n.id] }

/-- Modelled from the spec: node setDisplay(tag). -/
def setDisplay (w : World) (sid : SceneId) (nid : NodeId) (d : TDisplayType) : World :=
  modifyNode w sid nid fun n => { n with display := d }

/-- Modelled from the spec: node setParent(id). -/
def setParent (w : World) (sid : SceneId) (nid : NodeId) (pid : NodeId) : World :=
  modifyNode w sid nid fun n => { n with parentId := some pid }

/-- Modelled from the spec: item setTransform with position reset to the origin. -/
def setTransform00 (w : World) (sid : SceneId) (nid : NodeId) : World :=
  modifyNode w sid nid fun n => { n with posX := 0, posY := 0 }

/-- Modelled from the spec: the Video-Settings service per-display render
context lookup. -/
def ctxOf (w : World) : TDisplayType → Nat
  | .horizontal => w.ctxHorizontal
  | .vertical => w.ctxVertical

/-- Modelled from the spec: item setSettings with the settings of the original
node and an updated output context and display pair.  The original settings
(payload, transform position) are copied, the output and display overridden. -/
def setSettings (w : World) (sid : SceneId) (nid : NodeId) (src : SceneNode)
    (ctx : Nat) (d : TDisplayType) : World :=
  modifyNode w sid nid fun n =>
    { n with payload := src.payload, posX := src.posX, posY := src.posY,
             output := ctx, display := d }

/-- Modelled from the spec: setNodesOrder(ids) applies the given order to the
scene in a single write. -/
def setNodesOrder (w : World) (sid : SceneId) (ids : List NodeId) : World :=
  modifyScene w sid fun s => { s with order := ids }

/-- Modelled from the spec: node remove() deletes the node from the pool and
from the order of its scene. -/
def removeNode (w : World) (sid : SceneId) (nid : NodeId) : World :=
  modifyScene w sid fun s =>
    { s with nodes := s.nodes.filter (fun n => n.id ≠ nid),
             order := s.order.filter (fun i => i ≠ nid) }

/-- The raw node map stored for a scene, if any. -/
def getNodeMap (w : World) (sid : SceneId) : Option NodeMap :=
  alookup w.nodeMaps sid

/-- The node map of a scene, empty when none is stored. -/
def nodeMapOf (w : World) (sid : SceneId) : NodeMap :=
  (getNodeMap w sid).getD []

/-- Modelled from the spec: the Dual-Output service hasNodeMap(sceneId) —
presence of any entry for a scene means that scene has a node map. -/
def hasNodeMapW (w : World) (sid : SceneId) : Bool :=
  match getNodeMap w sid with
  | some m => !m.isEmpty
  | none => false

/-- Modelled from the spec: the Dual-Output service getNodeDisplay(nodeId,
sceneId) — the display the service currently attributes to the node, modelled
as the node display attribute, horizontal when the node is unresolvable. -/
def getNodeDisplay (w : World) (nid : NodeId) (sid : SceneId) : TDisplayType :=
  match getNodeW w sid nid with
  | some n => n.display
  | none => .horizontal

/-- Modelled from the spec: the Dual-Output service getVerticalNodeId(nodeId,
sceneId) — the vertical twin paired with the given node in the node map of
the scene. -/
def getVerticalNodeId (w : World) (nid : NodeId) (sid : SceneId) : Option NodeId :=
  match getNodeMap w sid with
  | some m =>
    match alookup m (some nid) with
    | some v => v
    | none => none
  | none => none

/-- Modelled from the spec: the Scene-Collections service
createNodeMapEntry(sceneId, horizontalId, verticalId) — records a node map
entry for the scene, pairing the two ids exactly as passed by the caller. -/
def createNodeMapEntry (w : World) (sid : SceneId) (h v : Option NodeId) : World :=
  { w with nodeMaps := aset w.nodeMaps sid (aset (nodeMapOf w sid) h v) }

/-- Modelled from the spec: the Scene-Collections service removeNodeMap —
removes the entire node map for the scene. -/
def removeNodeMap (w : World) (sid : SceneId) : World :=
  { w with nodeMaps := w.nodeMaps.filter (fun p => p.1 ≠ sid) }

/-- Source lookup by id. -/
def getSource (w : World) (sid : SourceId) : Option Source :=
  w.sources.find? fun s => s.id = sid

/-- Modelled from the spec: the Source service duplicate(existingIdHint) —
returns null for a source marked non-duplicable, otherwise creates a new
source whose id honors the hint when given. -/
def duplicateSource (w : World) (s : Source) (hint : Option SourceId) :
    Option Source × World :=
  if s.doNotDuplicate then (none, w)
  else
    let p := chooseId w hint
    let d : Source := { id := p.1, doNotDuplicate := false }
    (some d, { p.2 with sources := p.2.sources ++ [d] })

/-- Modelled from the spec: a Selection is an immutable frozen list of node
references plus the originating scene id; attributes of the referenced nodes
are read live at execution time. -/
structure Selection where
  sceneId : SceneId
  nodeIds : List NodeId
deriving DecidableEq, Repr

/-- Modelled from the spec: Selection getNodes() — the selected nodes,
resolved live in the source scene. -/
def selNodes (w : World) (sel : Selection) : List SceneNode :=
  match getScene w sel.sceneId with
  | some s => sel.nodeIds.filterMap (getNode s)
  | none => []

/-- Modelled from the spec: Selection getNodes(isDualOutputMode) — with a true
argument all selected nodes regardless of display, otherwise only selected
nodes belonging to the single active display. -/
def selNodesFor (w : World) (sel : Selection) (includeAll : Bool) : List SceneNode :=
  if includeAll then selNodes w sel
  else (selNodes w sel).filter fun n => getNodeDisplay w n.id sel.sceneId = w.activeDisplay

/-- Modelled from the spec: Selection getSources() — the distinct sources
referenced by the items of the selection. -/
def selSources (w : World) (sel : Selection) : List Source :=
  ((((selNodes w sel).filter fun n => !n.isFolder).map fun n => n.sourceId).dedup).filterMap
    (getSource w)

/-- The command state: the frozen constructor arguments plus the mutable
fields of the class (the two id translation tables and the hasNodeMap flag). -/
structure CopyNodesCommand where
  selection : Selection
  destSceneId : SceneId
  duplicateSources : Bool
  display : Option TDisplayType
  sourceIdsMap : Option (List (SourceId × SourceId))
  nodeIdsMap : List (NodeId × NodeId)
  hasNodeMap : Bool
deriving DecidableEq, Repr

/-- The constructor: freezes the selection and records whether the source
scene already has a node map.  The translation tables start empty. -/
def mkCopyNodesCommand (w : World) (sel : Selection) (destSceneId : SceneId)
    (duplicateSources : Bool) (display : Option TDisplayType) : CopyNodesCommand :=
  { selection := sel, destSceneId := destSceneId,
    duplicateSources := duplicateSources, display := display,
    sourceIdsMap := none, nodeIdsMap := [],
    hasNodeMap := hasNodeMapW w sel.sceneId }

/-- State of the source duplication pass: the map being built, the evolving
world, and the trace of id hints passed to the duplicate calls. -/
structure DupResult where
  map : List (SourceId × SourceId)
  world : World
  hints : List (Option SourceId)
deriving Repr

/-- One step of the source duplication pass: request a duplicate with the hint
found in the map being built, and record the original id when the duplicate
call returns nothing. -/
def dupStep (st : DupResult) (s : Source) : DupResult :=
  let hint := alookup st.map s.id
  let p := duplicateSource st.world s hint
  { map := aset st.map s.id (match p.1 with | some d => d.id | none => s.id),
    world := p.2,
    hints := st.hints ++ [hint] }

/-- The source duplication pass: reset the map and fold over the distinct
sources of the selection. -/
def dupPass (w : World) (sel : Selection) : DupResult :=
  (selSources w sel).foldl dupStep ⟨[], w, []⟩

/-- Resolve the source id for a copied item through the source id table when
present, as the source does with its null check on sourceIdsMap. -/
def resolveSourceId (smap : Option (List (SourceId × SourceId))) (sid : SourceId) :
    Option SourceId :=
  match smap with
  | none => some sid
  | some m => alookup m sid

/-- State of the node creation pass. -/
structure CreateSt where
  world : World
  nim : List (NodeId × NodeId)
  inserted : List NodeId
deriving Repr

/-- One step of the node creation pass, for one selected node: create the
folder or item in the destination with the node id table entry as id hint,
assign display (and settings and output context for an item), and — only in
the migration case with forced display vertical — reset the item position to
the origin and register a node map entry linking the original node id to the
new node id.  Fails only when a duplicated source id cannot be resolved. -/
def createStep (migration : Bool) (dest srcSid : SceneId) (disp : Option TDisplayType)
    (smap : Option (List (SourceId × SourceId))) (st : CreateSt) (n : SceneNode) :
    Option CreateSt :=
  if n.isFolder then
    let hint := alookup st.nim n.id
    let p := chooseId st.world hint
    let fid := p.1
    let w1 := sceneAddNode p.2 dest
      { id := fid, name := n.name, parentId := none, isFolder := true, sourceId := 0,
        display := .horizontal, posX := 0, posY := 0, output := 0, payload := 0 }
    let d := disp.getD (getNodeDisplay w1 n.id srcSid)
    let w2 := setDisplay w1 dest fid d
    let w3 := if migration ∧ disp = some .vertical then
        createNodeMapEntry w2 dest (some n.id) (some fid)
      else w2
    some { world := w3, nim := aset st.nim n.id fid, inserted := st.inserted ++ [fid] }
  else
    match resolveSourceId smap n.sourceId with
    | none => none
    | some sid =>
      let hint := alookup st.nim n.id
      let p := chooseId st.world hint
      let iid := p.1
      let w1 := sceneAddNode p.2 dest
        { id := iid, name := "", parentId := none, isFolder := false, sourceId := sid,
          display := .horizontal, posX := 0, posY := 0, output := 0, payload := 0 }
      let d := disp.getD (getNodeDisplay w1 n.id srcSid)
      let ctx := ctxOf w1 d
      let w2 := setSettings w1 dest iid n ctx d
      let w3 := if migration ∧ disp = some .vertical then
          createNodeMapEntry (setTransform00 w2 dest iid) dest (some n.id) (some iid)
        else w2
      some { world := w3, nim := aset st.nim n.id iid, inserted := st.inserted ++ [iid] }

/-- One step of the relinking pass: if the recorded parent of the node was
itself copied and its copy resolves, attach the copy of the node under the
copy of the parent; a missing copy of the node is then an error. -/
def relinkStep (nim : List (NodeId × NodeId)) (dest : SceneId) (w : World)
    (n : SceneNode) : Option World :=
  match (n.parentId.bind (alookup nim)).bind (getNodeW w dest) with
  | none => some w
  | some par =>
    match (alookup nim n.id).bind (getNodeW w dest) with
    | some m => some (setParent w dest m.id par.id)
    | none => none

/-- The relinking pass over all originally selected nodes. -/
def relinkPass (nim : List (NodeId × NodeId)) (dest : SceneId) (w : World)
    (ns : List SceneNode) : Option World :=
  ns.foldlM (relinkStep nim dest) w

/-- One step of the order reconstruction pass with node map synchronization:
for a source-scene node currently classified horizontal, register a node map
entry in the destination pairing the table translations of the node id and of
its vertical twin id; in all cases collect the table translation of the node
id for the new order. -/
def reorderMapStep (nim : List (NodeId × NodeId)) (dest srcSid : SceneId)
    (acc : World × List (Option NodeId)) (oid : NodeId) : World × List (Option NodeId) :=
  ((if getNodeDisplay acc.1 oid srcSid = .horizontal then
      createNodeMapEntry acc.1 dest (alookup nim oid)
        ((getVerticalNodeId acc.1 oid srcSid).bind (alookup nim))
    else acc.1),
   acc.2 ++ [alookup nim oid])

/-- The order reconstruction pass over the authoritative source scene order,
creating node map entries while walking, then compacting the translated ids. -/
def reorderMapPass (nim : List (NodeId × NodeId)) (dest srcSid : SceneId)
    (w : World) (order : List NodeId) : World × List NodeId :=
  ((order.foldl (reorderMapStep nim dest srcSid) (w, [])).1,
   (order.foldl (reorderMapStep nim dest srcSid) (w, [])).2.reduceOption)

/-- The execute method of CopyNodesCommand, translated from the source:
optional source duplication, the node creation pass (migration case when dual
output mode is active and the command recorded no node map, ordinary case
otherwise), the relinking pass, and order reconstruction with node map
synchronization.  Returns the updated command state, the updated world and
the ids of the inserted nodes in creation order; returns none where the
source would throw. -/
def execute (c : CopyNodesCommand) (w : World) :
    Option (CopyNodesCommand × World × List NodeId) :=
  match getScene w c.destSceneId with
  | none => none
  | some scene =>
    let initialNodeOrder := scene.order
    let isDual := w.dualOutputMode
    let dp := if c.duplicateSources then
        (let r := dupPass w c.selection; (some r.map, r.world))
      else (c.sourceIdsMap, w)
    let smap := dp.1
    let w1 := dp.2
    let migration := isDual && !c.hasNodeMap
    let ns := if migration then selNodes w1 c.selection
      else selNodesFor w1 c.selection isDual
    match ns.foldlM (createStep migration c.destSceneId c.selection.sceneId c.display smap)
        ⟨w1, c.nodeIdsMap, []⟩ with
    | none => none
    | some st =>
      let c1 := { c with
        sourceIdsMap := smap
        nodeIdsMap := st.nim
        hasNodeMap := c.hasNodeMap || migration }
      match relinkPass c1.nodeIdsMap c.destSceneId st.world (selNodes st.world c.selection) with
      | none => none
      | some w2 =>
        match getScene w2 c.selection.sceneId with
        | none => none
        | some srcScene =>
          if c1.hasNodeMap then
            let pr := reorderMapPass c1.nodeIdsMap c.destSceneId c.selection.sceneId
              w2 srcScene.order
            some (c1, setNodesOrder pr.1 c.destSceneId (pr.2 ++ initialNodeOrder), st.inserted)
          else
            some (c1, setNodesOrder w2 c.destSceneId
              (srcScene.order.filterMap (alookup c1.nodeIdsMap) ++ initialNodeOrder),
              st.inserted)

/-- One removal step of rollback: remove the node when it still resolves in
the destination scene, otherwise skip it. -/
def removeStep (dest : SceneId) (w : World) (nid : NodeId) : World :=
  match getNodeW w dest nid with
  | some _ => removeNode w dest nid
  | none => w

/-- The rollback method of CopyNodesCommand, translated from the source:
remove every node recorded in the node id table that still resolves in the
destination scene, then, if the destination scene has a node map, remove the
entire node map for the destination scene. -/
def rollback (c : CopyNodesCommand) (w : World) : Option World :=
  match getScene w c.destSceneId with
  | none => none
  | some _ =>
    some (if hasNodeMapW
        ((c.nodeIdsMap.map fun p => p.2).foldl (removeStep c.destSceneId) w)
        c.destSceneId
      then removeNodeMap
        ((c.nodeIdsMap.map fun p => p.2).foldl (removeStep c.destSceneId) w)
        c.destSceneId
      else (c.nodeIdsMap.map fun p => p.2).foldl (removeStep c.destSceneId) w)

/-- Execute then rollback, as composed effects on the world. -/
def execRoll (c : CopyNodesCommand) (w : World) : Option World :=
  (execute c w).bind fun t => rollback t.1 t.2.1

/-- Execute, rollback, execute again with the same command instance. -/
def execRollExec (c : CopyNodesCommand) (w : World) :
    Option (CopyNodesCommand × World × List NodeId) :=
  (execute c w).bind fun t => (rollback t.1 t.2.1).bind fun w2 => execute t.1 w2

/-- Well-formedness of one scene relative to the world counter: distinct node
ids, a duplicate-free order, and all ids below the counter. -/
def WFscene (w : World) (s : Scene) : Prop :=
  (s.nodes.map fun n => n.id).Nodup ∧ s.order.Nodup ∧
  (∀ n ∈ s.nodes, n.id < w.nextId) ∧ (∀ i ∈ s.order, i < w.nextId) ∧
  (∀ i ∈ s.order, i ∈ s.nodes.map fun n => n.id)

/-- Well-formedness of a stored node map: all mentioned ids below the counter. -/
def WFmap (w : World) (m : NodeMap) : Prop :=
  ∀ p ∈ m, (∀ x, p.1 = some x → x < w.nextId) ∧ (∀ x, p.2 = some x → x < w.nextId)

/-- Well-formedness of the world: distinct scene and source ids, well-formed
scenes and node maps, and the counter above every id in use. -/
def WF (w : World) : Prop :=
  (w.scenes.map fun s => s.id).Nodup ∧ (∀ s ∈ w.scenes, WFscene w s) ∧
  (w.sources.map fun s => s.id).Nodup ∧ (∀ s ∈ w.sources, s.id < w.nextId) ∧
  (∀ p ∈ w.nodeMaps, WFmap w p.2)

instance : DecidablePred WF := fun w => by
  unfold WF WFscene WFmap
  infer_instance

/-- Well-formedness of a selection relative to a world: distinct node ids, all
below the counter. -/
def SelWF (w : World) (sel : Selection) : Prop :=
  sel.nodeIds.Nodup ∧ ∀ i ∈ sel.nodeIds, i < w.nextId

instance : ∀ w, DecidablePred (SelWF w) := fun w sel => by
  unfold SelWF
  infer_instance

/-- Every selected item references a source resolvable in the world. -/
def SelSourcesOk (w : World) (sel : Selection) : Prop :=
  ∀ n ∈ selNodes w sel, n.isFolder = false → (getSource w n.sourceId).isSome

instance : ∀ w, DecidablePred (SelSourcesOk w) := fun w sel => by
  unfold SelSourcesOk
  infer_instance

/-- The ids a fresh run of the creation pass assigns, starting at the counter. -/
def newIds (k len : Nat) : List NodeId :=
  List.range' k len

/-- The flag fields of the world, bundled for preservation statements. -/
def flagsOf (w : World) : Bool × TDisplayType × Nat × Nat :=
  (w.dualOutputMode, w.activeDisplay, w.ctxHorizontal, w.ctxVertical)

/-- A node with its parent reference erased, used to state that the relinking
pass changes nothing but parent references. -/
def eraseParent (n : SceneNode) : SceneNode :=
  { n with parentId := none }

/-- The node the creation pass leaves in the destination for a source node n
copied with id i, described against the world at the start of the pass. -/
def copyOf (migration : Bool) (srcSid : SceneId) (disp : Option TDisplayType)
    (smap : Option (List (SourceId × SourceId))) (w0 : World) (n : SceneNode)
    (i : NodeId) : SceneNode :=
  let d := disp.getD (getNodeDisplay w0 n.id srcSid)
  if n.isFolder then
    { id := i, name := n.name, parentId := none, isFolder := true, sourceId := 0,
      display := d, posX := 0, posY := 0, output := 0, payload := 0 }
  else
    { id := i, name := "", parentId := none, isFolder := false,
      sourceId := (resolveSourceId smap n.sourceId).getD 0,
      display := d,
      posX := if migration ∧ disp = some .vertical then 0 else n.posX,
      posY := if migration ∧ disp = some .vertical then 0 else n.posY,
      output := ctxOf w0 d, payload := n.payload }

/-- The node map table updates performed by the migration creation pass. -/
def migMaps (dest : SceneId) : List (SceneId × NodeMap) → List (SceneNode × NodeId) →
    List (SceneId × NodeMap)
  | A, [] => A
  | A, (n, i) :: t => migMaps dest (aset A dest (aset ((alookup A dest).getD []) (some n.id) (some i))) t

/-- Whether a run of execute on this command takes the migration branch. -/
def migOf (c : CopyNodesCommand) (w : World) : Bool :=
  w.dualOutputMode && !c.hasNodeMap

/-- The source id table execute works with. -/
def smapOf (c : CopyNodesCommand) (w : World) : Option (List (SourceId × SourceId)) :=
  if c.duplicateSources then some (dupPass w c.selection).map else c.sourceIdsMap

/-- The world after the optional source duplication pass. -/
def baseWorldOf (c : CopyNodesCommand) (w : World) : World :=
  if c.duplicateSources then (dupPass w c.selection).world else w

/-- The list of nodes the creation pass copies. -/
def nsOf (c : CopyNodesCommand) (w : World) : List SceneNode :=
  if migOf c w then selNodes (baseWorldOf c w) c.selection
  else selNodesFor (baseWorldOf c w) c.selection w.dualOutputMode

/-- The order of a scene of the world, empty when the scene is missing. -/
def sceneOrderOf (w : World) (sid : SceneId) : List NodeId :=
  ((getScene w sid).map fun s => s.order).getD []

/-- The node pool ids of a scene of the world, empty when the scene is missing. -/
def scenePoolIds (w : World) (sid : SceneId) : List NodeId :=
  ((getScene w sid).map fun s => s.nodes.map fun n => n.id).getD []

/-- The node pool of a scene of the world, empty when the scene is missing. -/
def scenePoolOf (w : World) (sid : SceneId) : List SceneNode :=
  ((getScene w sid).map fun s => s.nodes).getD []

/-- What the relinking pass preserves of the world: everything except parent
references of destination scene nodes. -/
def RelinkPres (dest : SceneId) (w w' : World) : Prop :=
  w'.nodeMaps = w.nodeMaps ∧ w'.sources = w.sources ∧ w'.nextId = w.nextId ∧
  flagsOf w' = flagsOf w ∧
  (∀ sid, sid ≠ dest → getScene w' sid = getScene w sid) ∧
  (∀ sid, sceneOrderOf w' sid = sceneOrderOf w sid) ∧
  (∀ sid, scenePoolIds w' sid = scenePoolIds w sid) ∧
  (∀ sid x, (getNodeW w' sid x).map eraseParent = (getNodeW w sid x).map eraseParent) ∧
  (∀ sid, (getScene w' sid).isSome = (getScene w sid).isSome)

/-- The ids a fresh run of execute assigns to the copies, in creation order. -/
def idsOf (c : CopyNodesCommand) (w : World) : List NodeId :=
  newIds (baseWorldOf c w).nextId (nsOf c w).length

/-- The node id table a fresh run of execute builds. -/
def nimOf (c : CopyNodesCommand) (w : World) : List (NodeId × NodeId) :=
  ((nsOf c w).zip (idsOf c w)).map fun p => (p.1.id, p.2)

/-- The source scene order as the reorder pass reads it, live after the
creation pass: in a self copy the fresh ids have been appended. -/
def liveOrderOf (c : CopyNodesCommand) (w : World) (ssOrder : List NodeId) :
    List NodeId :=
  ssOrder ++ (if c.destSceneId = c.selection.sceneId then idsOf c w else [])

/-- The relink safety condition: a selected node whose recorded parent was
copied must itself have been copied, otherwise execute throws. -/
def RelinkSafe (c : CopyNodesCommand) (w : World) : Prop :=
  ∀ n ∈ selNodes w c.selection,
    (n.parentId.bind (alookup (nimOf c w))).isSome →
    (alookup (nimOf c w) n.id).isSome

instance : ∀ c w, Decidable (RelinkSafe c w) := fun c w => by
  unfold RelinkSafe
  infer_instance

/-! ### Association list lemmas -/

section AssocLemmas

variable {α β : Type} [DecidableEq α]

@[simp]
theorem alookup_nil (a : α) : alookup ([] : List (α × β)) a = none := rfl

@[simp]
theorem alookup_cons (k : α) (v : β) (t : List (α × β)) (a : α) :
    alookup ((k, v) :: t) a = if k = a then some v else alookup t a := rfl

@[simp]
theorem aset_nil (a : α) (b : β) : aset ([] : List (α × β)) a b = [(a, b)] := rfl

@[simp]
theorem aset_cons (k : α) (v : β) (t : List (α × β)) (a : α) (b : β) :
    aset ((k, v) :: t) a b = if k = a then (a, b) :: t else (k, v) :: aset t a b := rfl

theorem alookup_aset_self (l : List (α × β)) (a : α) (b : β) :
    alookup (aset l a b) a = some b := by
  induction l with
  | nil => simp
  | cons p t ih =>
    obtain ⟨k, v⟩ := p
    by_cases h : k = a <;> simp [h, ih]

theorem alookup_aset_ne (l : List (α × β)) (a a' : α) (b : β) (h : a ≠ a') :
    alookup (aset l a b) a' = alookup l a' := by
  induction l with
  | nil => simp [h]
  | cons p t ih =>
    obtain ⟨k, v⟩ := p
    by_cases hk : k = a
    · subst hk
      simp [h]
    · simp only [aset_cons, if_neg hk, alookup_cons, ih]

theorem aset_of_lookup_eq (l : List (α × β)) (a : α) (b : β)
    (h : alookup l a = some b) : aset l a b = l := by
  induction l with
  | nil => simp at h
  | cons p t ih =>
    obtain ⟨k, v⟩ := p
    by_cases hk : k = a
    · subst hk
      simp at h
      simp [h]
    · simp only [alookup_cons, if_neg hk] at h
      simp [hk, ih h]

theorem aset_of_lookup_none (l : List (α × β)) (a : α) (b : β)
    (h : alookup l a = none) : aset l a b = l ++ [(a, b)] := by
  induction l with
  | nil => simp
  | cons p t ih =>
    obtain ⟨k, v⟩ := p
    by_cases hk : k = a
    · simp [hk] at h
    · simp only [alookup_cons, if_neg hk] at h
      simp [hk, ih h]

theorem mem_of_mem_aset {l : List (α × β)} {a : α} {b : β} {p : α × β}
    (h : p ∈ aset l a b) : p = (a, b) ∨ p ∈ l := by
  induction l with
  | nil => simpa using h
  | cons q t ih =>
    obtain ⟨k, v⟩ := q
    by_cases hk : k = a
    · simp only [aset_cons, if_pos hk, List.mem_cons] at h
      rcases h with h | h
      · exact Or.inl h
      · exact Or.inr (List.mem_cons_of_mem _ h)
    · simp only [aset_cons, if_neg hk, List.mem_cons] at h
      rcases h with h | h
      · exact Or.inr (by simp [h])
      · rcases ih h with h' | h'
        · exact Or.inl h'
        · exact Or.inr (List.mem_cons_of_mem _ h')

theorem alookup_append_left (l₁ l₂ : List (α × β)) (a : α)
    (h : (alookup l₁ a).isSome) :
    alookup (l₁ ++ l₂) a = alookup l₁ a := by
  induction l₁ with
  | nil => simp at h
  | cons p t ih =>
    obtain ⟨k, v⟩ := p
    by_cases hk : k = a
    · simp [hk]
    · simp only [alookup_cons, if_neg hk] at h
      simp [hk, ih h]

theorem alookup_append_right (l₁ l₂ : List (α × β)) (a : α)
    (h : alookup l₁ a = none) :
    alookup (l₁ ++ l₂) a = alookup l₂ a := by
  induction l₁ with
  | nil => simp
  | cons p t ih =>
    obtain ⟨k, v⟩ := p
    by_cases hk : k = a
    · simp [hk] at h
    · simp only [alookup_cons, if_neg hk] at h
      simp [hk, ih h]

theorem alookup_eq_none_of_not_mem {l : List (α × β)} {a : α}
    (h : a ∉ l.map Prod.fst) : alookup l a = none := by
  induction l with
  | nil => simp
  | cons p t ih =>
    obtain ⟨k, v⟩ := p
    simp only [List.map_cons, List.mem_cons] at h
    push_neg at h
    simp [Ne.symm h.1, ih h.2]

theorem mem_map_fst_of_lookup {l : List (α × β)} {a : α} {b : β}
    (h : alookup l a = some b) : a ∈ l.map Prod.fst := by
  induction l with
  | nil => simp at h
  | cons p t ih =>
    obtain ⟨k, v⟩ := p
    by_cases hk : k = a
    · simp [hk]
    · simp only [alookup_cons, if_neg hk] at h
      simp [ih h]

theorem mem_of_lookup {l : List (α × β)} {a : α} {b : β}
    (h : alookup l a = some b) : (a, b) ∈ l := by
  induction l with
  | nil => simp at h
  | cons p t ih =>
    obtain ⟨k, v⟩ := p
    by_cases hk : k = a
    · subst hk
      simp at h
      simp [h]
    · simp only [alookup_cons, if_neg hk] at h
      exact List.mem_cons_of_mem _ (ih h)

theorem alookup_zip_map {γ : Type} (ns : List γ) (ids : List α) (g : γ → α) (f : γ → α → β)
    (hlen : ns.length = ids.length) :
    ∀ a, alookup ((ns.zip ids).map fun p => (g p.1, f p.1 p.2)) a =
      ((ns.zip ids).find? (fun p => g p.1 = a)).map fun p => f p.1 p.2 := by
  intro a
  induction ns generalizing ids with
  | nil => simp
  | cons n t ih =>
    cases ids with
    | nil => simp at hlen
    | cons i it =>
      simp only [List.zip_cons_cons, List.map_cons, alookup_cons]
      rw [List.find?_cons]
      by_cases hg : g n = a
      · simp [hg]
      · simp only [if_neg hg]
        rw [ih it (by simpa using hlen)]
        simp [hg]

end AssocLemmas

/-! ### Generic list search lemmas -/

theorem find_ite_update {γ : Type} (idOf : γ → Nat) (f : γ → γ)
    (hf : ∀ x, idOf (f x) = idOf x) (l : List γ) (i j : Nat) :
    (l.map fun x => if idOf x = i then f x else x).find? (fun x => idOf x = j) =
    (if j = i then (l.find? fun x => idOf x = j).map f
     else l.find? fun x => idOf x = j) := by
  induction l with
  | nil => simp
  | cons x t ih =>
    by_cases hx : idOf x = j
    · by_cases hj : j = i
      · subst hj
        simp [hx, List.find?_cons, hf]
      · have hxi : ¬idOf x = i := fun h => hj (hx ▸ h.symm ▸ rfl)
        simp [List.find?_cons, hx, hxi, hj]
    · by_cases hxi : idOf x = i
      · have : ¬idOf (f x) = j := by rw [hf]; exact hx
        simp only [List.map_cons, if_pos hxi, List.find?_cons, this, hx]
        rw [ih]
        by_cases hj : j = i <;> simp [hj, List.find?_cons, hx]
      · simp only [List.map_cons, if_neg hxi, List.find?_cons, hx]
        rw [ih]
        by_cases hj : j = i <;> simp [hj, List.find?_cons, hx]

theorem find_append_single {γ : Type} (l : List γ) (p : γ → Bool) (x : γ) :
    (l ++ [x]).find? p =
    ((l.find? p).orElse fun _ => if p x then some x else none) := by
  induction l with
  | nil =>
    cases hp : p x with
    | true => simp [List.find?_cons, hp]
    | false => simp [List.find?_cons, hp]
  | cons y t ih =>
    cases hy : p y with
    | true => simp [List.find?_cons, hy]
    | false => simp [List.find?_cons, hy, ih]

theorem find_filter_ne {γ : Type} (idOf : γ → Nat) (l : List γ) (i j : Nat)
    (h : j ≠ i) :
    (l.filter fun x => idOf x ≠ i).find? (fun x => idOf x = j) =
    l.find? (fun x => idOf x = j) := by
  induction l with
  | nil => simp
  | cons x t ih =>
    by_cases hx : idOf x = i
    · have hxj : ¬idOf x = j := fun hj => h (by rw [← hj, hx])
      rw [List.filter_cons_of_neg (by simpa using hx),
        List.find?_cons_of_neg _ (by simpa using hxj), ih]
    · by_cases hxj : idOf x = j
      · rw [List.filter_cons_of_pos (by simpa using hx),
          List.find?_cons_of_pos _ (by simpa using hxj),
          List.find?_cons_of_pos _ (by simpa using hxj)]
      · rw [List.filter_cons_of_pos (by simpa using hx),
          List.find?_cons_of_neg _ (by simpa using hxj),
          List.find?_cons_of_neg _ (by simpa using hxj), ih]

/-! ### World operation lemmas -/

section WorldOps

@[simp]
theorem modifyScene_sources (w : World) (sid : SceneId) (f : Scene → Scene) :
    (modifyScene w sid f).sources = w.sources := rfl

@[simp]
theorem modifyScene_nodeMaps (w : World) (sid : SceneId) (f : Scene → Scene) :
    (modifyScene w sid f).nodeMaps = w.nodeMaps := rfl

@[simp]
theorem modifyScene_nextId (w : World) (sid : SceneId) (f : Scene → Scene) :
    (modifyScene w sid f).nextId = w.nextId := rfl

@[simp]
theorem flagsOf_modifyScene (w : World) (sid : SceneId) (f : Scene → Scene) :
    flagsOf (modifyScene w sid f) = flagsOf w := rfl

@[simp]
theorem createNodeMapEntry_scenes (w : World) (sid : SceneId) (h v : Option NodeId) :
    (createNodeMapEntry w sid h v).scenes = w.scenes := rfl

@[simp]
theorem createNodeMapEntry_sources (w : World) (sid : SceneId) (h v : Option NodeId) :
    (createNodeMapEntry w sid h v).sources = w.sources := rfl

@[simp]
theorem createNodeMapEntry_nextId (w : World) (sid : SceneId) (h v : Option NodeId) :
    (createNodeMapEntry w sid h v).nextId = w.nextId := rfl

@[simp]
theorem flagsOf_createNodeMapEntry (w : World) (sid : SceneId) (h v : Option NodeId) :
    flagsOf (createNodeMapEntry w sid h v) = flagsOf w := rfl

@[simp]
theorem getScene_createNodeMapEntry (w : World) (sid : SceneId) (h v : Option NodeId)
    (sid' : SceneId) :
    getScene (createNodeMapEntry w sid h v) sid' = getScene w sid' := rfl

@[simp]
theorem getNodeW_createNodeMapEntry (w : World) (sid : SceneId) (h v : Option NodeId)
    (sid' : SceneId) (nid : NodeId) :
    getNodeW (createNodeMapEntry w sid h v) sid' nid = getNodeW w sid' nid := rfl

@[simp]
theorem getScene_removeNodeMap (w : World) (sid sid' : SceneId) :
    getScene (removeNodeMap w sid) sid' = getScene w sid' := rfl

theorem getScene_modifyScene (w : World) (sid : SceneId) (f : Scene → Scene)
    (hf : ∀ s, (f s).id = s.id) (sid' : SceneId) :
    getScene (modifyScene w sid f) sid' =
    (if sid' = sid then (getScene w sid').map f else getScene w sid') := by
  unfold getScene modifyScene
  exact find_ite_update Scene.id f hf w.scenes sid sid'

theorem getScene_modifyScene_ne (w : World) (sid : SceneId) (f : Scene → Scene)
    (hf : ∀ s, (f s).id = s.id) (sid' : SceneId) (h : sid' ≠ sid) :
    getScene (modifyScene w sid f) sid' = getScene w sid' := by
  rw [getScene_modifyScene w sid f hf sid', if_neg h]

theorem getScene_modifyScene_self (w : World) (sid : SceneId) (f : Scene → Scene)
    (hf : ∀ s, (f s).id = s.id) :
    getScene (modifyScene w sid f) sid = (getScene w sid).map f := by
  rw [getScene_modifyScene w sid f hf sid, if_pos rfl]

theorem getScene_modifyNode (w : World) (sid : SceneId) (nid : NodeId)
    (f : SceneNode → SceneNode) (sid' : SceneId) :
    getScene (modifyNode w sid nid f) sid' =
    (if sid' = sid then
      (getScene w sid').map fun s =>
        { s with nodes := s.nodes.map fun n => if n.id = nid then f n else n }
     else getScene w sid') := by
  unfold modifyNode
  apply getScene_modifyScene
  intro s
  rfl

theorem getNodeW_modifyNode (w : World) (sid : SceneId) (nid : NodeId)
    (f : SceneNode → SceneNode) (hf : ∀ x, (f x).id = x.id) (sid' : SceneId)
    (nid' : NodeId) :
    getNodeW (modifyNode w sid nid f) sid' nid' =
    (if sid' = sid ∧ nid' = nid then (getNodeW w sid' nid').map f
     else getNodeW w sid' nid') := by
  unfold getNodeW
  rw [getScene_modifyNode]
  by_cases hs : sid' = sid
  · simp only [if_pos hs]
    cases hsc : getScene w sid' with
    | none => simp
    | some s =>
      simp only [Option.map_some', Option.some_bind]
      unfold getNode
      rw [find_ite_update SceneNode.id f hf s.nodes nid nid']
      by_cases hn : nid' = nid <;> simp [hs, hn]
  · simp [hs]

theorem getNodeW_modifyNode_ne (w : World) (sid : SceneId) (nid : NodeId)
    (f : SceneNode → SceneNode) (hf : ∀ x, (f x).id = x.id) (sid' : SceneId)
    (nid' : NodeId) (h : ¬(sid' = sid ∧ nid' = nid)) :
    getNodeW (modifyNode w sid nid f) sid' nid' = getNodeW w sid' nid' := by
  rw [getNodeW_modifyNode w sid nid f hf sid' nid', if_neg h]

theorem getNodeW_modifyNode_self (w : World) (sid : SceneId) (nid : NodeId)
    (f : SceneNode → SceneNode) (hf : ∀ x, (f x).id = x.id) :
    getNodeW (modifyNode w sid nid f) sid nid = (getNodeW w sid nid).map f := by
  rw [getNodeW_modifyNode w sid nid f hf sid nid, if_pos ⟨rfl, rfl⟩]

theorem sceneOrderOf_modifyNode (w : World) (sid : SceneId) (nid : NodeId)
    (f : SceneNode → SceneNode) (sid' : SceneId) :
    sceneOrderOf (modifyNode w sid nid f) sid' = sceneOrderOf w sid' := by
  unfold sceneOrderOf
  rw [getScene_modifyNode]
  by_cases hs : sid' = sid
  · simp only [if_pos hs]
    cases getScene w sid' <;> simp
  · simp [hs]

theorem scenePoolIds_modifyNode (w : World) (sid : SceneId) (nid : NodeId)
    (f : SceneNode → SceneNode) (hf : ∀ x, (f x).id = x.id) (sid' : SceneId) :
    scenePoolIds (modifyNode w sid nid f) sid' = scenePoolIds w sid' := by
  unfold scenePoolIds
  rw [getScene_modifyNode]
  by_cases hs : sid' = sid
  · simp only [if_pos hs]
    cases getScene w sid' with
    | none => simp
    | some s =>
      simp only [Option.map_some', Option.getD_some]
      rw [List.map_map]
      congr 1
      funext x
      by_cases hx : x.id = nid <;> simp [hx, hf]
  · simp [hs]

theorem getNodeW_id {w : World} {sid : SceneId} {nid : NodeId} {n : SceneNode}
    (h : getNodeW w sid nid = some n) : n.id = nid := by
  unfold getNodeW at h
  cases hs : getScene w sid with
  | none => rw [hs] at h; simp at h
  | some s =>
    rw [hs] at h
    simp only [Option.some_bind] at h
    have := List.find?_some h
    simpa using this

theorem getScene_id {w : World} {sid : SceneId} {s : Scene}
    (h : getScene w sid = some s) : s.id = sid := by
  have := List.find?_some h
  simpa using this

theorem getNode_id {s : Scene} {nid : NodeId} {n : SceneNode}
    (h : getNode s nid = some n) : n.id = nid := by
  have := List.find?_some h
  simpa using this

theorem getScene_sceneAddNode (w : World) (sid : SceneId) (x : SceneNode)
    (sid' : SceneId) :
    getScene (sceneAddNode w sid x) sid' =
    (if sid' = sid then
      (getScene w sid').map fun s =>
        { s with nodes := s.nodes ++ [x], order := s.order ++ [x.id] }
     else getScene w sid') := by
  unfold sceneAddNode
  apply getScene_modifyScene
  intro s
  rfl

theorem getScene_setNodesOrder (w : World) (sid : SceneId) (ids : List NodeId)
    (sid' : SceneId) :
    getScene (setNodesOrder w sid ids) sid' =
    (if sid' = sid then (getScene w sid').map fun s => { s with order := ids }
     else getScene w sid') := by
  unfold setNodesOrder
  apply getScene_modifyScene
  intro s
  rfl

theorem getScene_removeNode (w : World) (sid : SceneId) (nid : NodeId)
    (sid' : SceneId) :
    getScene (removeNode w sid nid) sid' =
    (if sid' = sid then
      (getScene w sid').map fun s =>
        { s with nodes := s.nodes.filter (fun n => n.id ≠ nid),
                 order := s.order.filter (fun i => i ≠ nid) }
     else getScene w sid') := by
  unfold removeNode
  apply getScene_modifyScene
  intro s
  rfl

theorem getNodeW_sceneAddNode_ne (w : World) (sid : SceneId) (x : SceneNode)
    (sid' : SceneId) (nid : NodeId) (h : x.id ≠ nid) :
    getNodeW (sceneAddNode w sid x) sid' nid = getNodeW w sid' nid := by
  unfold getNodeW
  rw [getScene_sceneAddNode]
  by_cases hs : sid' = sid
  · simp only [if_pos hs]
    cases getScene w sid' with
    | none => simp
    | some s =>
      simp only [Option.map_some', Option.some_bind]
      unfold getNode
      rw [find_append_single]
      have : ¬(x.id = nid) := h
      simp [this]
  · simp [hs]

theorem map_ite_append_single (l : List SceneNode) (x : SceneNode)
    (f : SceneNode → SceneNode) (i : NodeId) (hl : ∀ m ∈ l, m.id ≠ i)
    (hx : x.id = i) :
    ((l ++ [x]).map fun n => if n.id = i then f n else n) = l ++ [f x] := by
  induction l with
  | nil => simp [hx]
  | cons y t ih =>
    have hy : y.id ≠ i := hl y (List.mem_cons_self y t)
    simp only [List.cons_append, List.map_cons, if_neg hy, List.cons.injEq, true_and]
    exact ih fun m hm => hl m (List.mem_cons_of_mem _ hm)

theorem nodeMapOf_createNodeMapEntry_self (w : World) (sid : SceneId)
    (h v : Option NodeId) :
    nodeMapOf (createNodeMapEntry w sid h v) sid = aset (nodeMapOf w sid) h v := by
  unfold nodeMapOf getNodeMap createNodeMapEntry
  simp [alookup_aset_self]
  rfl

theorem getNodeMap_createNodeMapEntry_ne (w : World) (sid : SceneId)
    (h v : Option NodeId) (sid' : SceneId) (hne : sid' ≠ sid) :
    getNodeMap (createNodeMapEntry w sid h v) sid' = getNodeMap w sid' := by
  unfold getNodeMap createNodeMapEntry
  exact alookup_aset_ne _ _ _ _ (fun hc => hne hc.symm)

theorem getNodeDisplay_eq_of_getNodeW (w w' : World) (nid : NodeId) (sid : SceneId)
    (h : getNodeW w' sid nid = getNodeW w sid nid) :
    getNodeDisplay w' nid sid = getNodeDisplay w nid sid := by
  unfold getNodeDisplay
  rw [h]

theorem ctxOf_eq_of_flags (w w' : World) (h : flagsOf w' = flagsOf w) (d : TDisplayType) :
    ctxOf w' d = ctxOf w d := by
  unfold flagsOf at h
  have h1 : w'.ctxHorizontal = w.ctxHorizontal := congrArg (fun p => p.2.2.1) h
  have h2 : w'.ctxVertical = w.ctxVertical := congrArg (fun p => p.2.2.2) h
  cases d <;> simp [ctxOf, h1, h2]

end WorldOps

/-! ### Creation pass: single step effect -/

section CreateStep

theorem createStep_eff
    (mig : Bool) (dest srcSid : SceneId) (disp : Option TDisplayType)
    (smap : Option (List (SourceId × SourceId)))
    (w : World) (nim : List (NodeId × NodeId)) (ins : List NodeId)
    (n : SceneNode) (sd : Scene) (i : NodeId) (k : Nat)
    (hdest : getScene w dest = some sd)
    (hch : chooseId w (alookup nim n.id) = (i, { w with nextId := k }))
    (hipool : ∀ m ∈ sd.nodes, m.id ≠ i)
    (hin : i ≠ n.id)
    (hsrc : n.isFolder = true ∨ (resolveSourceId smap n.sourceId).isSome) :
    ∃ st',
      createStep mig dest srcSid disp smap ⟨w, nim, ins⟩ n = some st' ∧
      st'.nim = aset nim n.id i ∧
      st'.inserted = ins ++ [i] ∧
      st'.world.nextId = k ∧
      st'.world.sources = w.sources ∧
      flagsOf st'.world = flagsOf w ∧
      (∀ sid, sid ≠ dest → getScene st'.world sid = getScene w sid) ∧
      getScene st'.world dest = some
        { sd with nodes := sd.nodes ++ [copyOf mig srcSid disp smap w n i],
                  order := sd.order ++ [i] } ∧
      st'.world.nodeMaps = (if mig ∧ disp = some .vertical then
          aset w.nodeMaps dest (aset (nodeMapOf w dest) (some n.id) (some i))
        else w.nodeMaps) ∧
      (∀ sid x, x ≠ i → getNodeW st'.world sid x = getNodeW w sid x) := by
  have hb : getScene { w with nextId := k } dest = some sd := hdest
  cases hf : n.isFolder with
  | true =>
    set raw : SceneNode :=
      { id := i, name := n.name, parentId := none, isFolder := true, sourceId := 0,
        display := .horizontal, posX := 0, posY := 0, output := 0, payload := 0 } with hraw
    set w1 : World := sceneAddNode { w with nextId := k } dest raw with hw1
    have hw1scene : getScene w1 dest =
        some { sd with nodes := sd.nodes ++ [raw], order := sd.order ++ [i] } := by
      rw [hw1, getScene_sceneAddNode, if_pos rfl, hb]
      rfl
    have hw1pres : ∀ sid x, x ≠ i → getNodeW w1 sid x = getNodeW w sid x := by
      intro sid x hx
      rw [hw1, getNodeW_sceneAddNode_ne _ _ _ _ _ (by simpa using fun h => hx h.symm)]
      rfl
    have hdisp1 : getNodeDisplay w1 n.id srcSid = getNodeDisplay w n.id srcSid :=
      getNodeDisplay_eq_of_getNodeW _ _ _ _ (hw1pres _ _ (fun h => hin h.symm))
    set d : TDisplayType := disp.getD (getNodeDisplay w1 n.id srcSid) with hd
    set w2 : World := setDisplay w1 dest i d with hw2
    have hw2scene : getScene w2 dest = some
        { sd with nodes := sd.nodes ++ [{ raw with display := d }],
                  order := sd.order ++ [i] } := by
      rw [hw2, setDisplay, getScene_modifyNode, if_pos rfl, hw1scene]
      simp only [Option.map_some']
      rw [map_ite_append_single _ _ _ _ hipool rfl]
    have hw2pres : ∀ sid x, x ≠ i → getNodeW w2 sid x = getNodeW w sid x := by
      intro sid x hx
      rw [hw2, setDisplay]
      rw [getNodeW_modifyNode_ne]
      · exact hw1pres sid x hx
      · intro m
        rfl
      · exact fun hc => hx hc.2
    set w3 : World := if mig ∧ disp = some .vertical then
        createNodeMapEntry w2 dest (some n.id) (some i) else w2 with hw3
    refine ⟨⟨w3, aset nim n.id i, ins ++ [i]⟩, ?_, rfl, rfl, ?_, ?_, ?_, ?_, ?_, ?_, ?_⟩
    · simp only [createStep, hf, if_true, hch]
    · show w3.nextId = k
      rw [hw3]
      split <;> simp [hw2, setDisplay, modifyNode, hw1, sceneAddNode, createNodeMapEntry]
    · show w3.sources = w.sources
      rw [hw3]
      split <;> simp [hw2, setDisplay, modifyNode, hw1, sceneAddNode, createNodeMapEntry]
    · show flagsOf w3 = flagsOf w
      rw [hw3]
      split <;>
        simp [hw2, setDisplay, modifyNode, hw1, sceneAddNode, createNodeMapEntry,
          flagsOf, modifyScene]
    · intro sid hsid
      show getScene w3 sid = getScene w sid
      have h2 : getScene w2 sid = getScene w sid := by
        rw [hw2, setDisplay, getScene_modifyNode, if_neg hsid, hw1,
          getScene_sceneAddNode, if_neg hsid]
        rfl
      rw [hw3]
      split
      · rw [getScene_createNodeMapEntry]
        exact h2
      · exact h2
    · show getScene w3 dest = _
      have hcopy : { raw with display := d } = copyOf mig srcSid disp smap w n i := by
        rw [copyOf]
        simp only [hf, if_true, hraw, hd, hdisp1]
      rw [hw3]
      split
      · rw [getScene_createNodeMapEntry, hw2scene, hcopy]
      · rw [hw2scene, hcopy]
    · show w3.nodeMaps = _
      have hm2 : w2.nodeMaps = w.nodeMaps := by
        rw [hw2, setDisplay, modifyNode, modifyScene_nodeMaps, hw1, sceneAddNode,
          modifyScene_nodeMaps]
      have hmap2 : nodeMapOf w2 dest = nodeMapOf w dest := by
        unfold nodeMapOf getNodeMap
        rw [hm2]
      rw [hw3]
      split
      · rw [createNodeMapEntry, hmap2, hm2]
      · rw [hm2]
    · intro sid x hx
      show getNodeW w3 sid x = getNodeW w sid x
      rw [hw3]
      split
      · rw [getNodeW_createNodeMapEntry]
        exact hw2pres sid x hx
      · exact hw2pres sid x hx
  | false =>
    rcases hsrc with hc | hc
    · rw [hf] at hc; cases hc
    rcases Option.isSome_iff_exists.mp hc with ⟨sidr, hsid⟩
    set raw : SceneNode :=
      { id := i, name := "", parentId := none, isFolder := false, sourceId := sidr,
        display := .horizontal, posX := 0, posY := 0, output := 0, payload := 0 } with hraw
    set w1 : World := sceneAddNode { w with nextId := k } dest raw with hw1
    have hw1scene : getScene w1 dest =
        some { sd with nodes := sd.nodes ++ [raw], order := sd.order ++ [i] } := by
      rw [hw1, getScene_sceneAddNode, if_pos rfl, hb]
      rfl
    have hw1pres : ∀ sid x, x ≠ i → getNodeW w1 sid x = getNodeW w sid x := by
      intro sid x hx
      rw [hw1, getNodeW_sceneAddNode_ne _ _ _ _ _ (by simpa using fun h => hx h.symm)]
      rfl
    have hdisp1 : getNodeDisplay w1 n.id srcSid = getNodeDisplay w n.id srcSid :=
      getNodeDisplay_eq_of_getNodeW _ _ _ _ (hw1pres _ _ (fun h => hin h.symm))
    have hflags1 : flagsOf w1 = flagsOf w := by
      rw [hw1, sceneAddNode]
      rfl
    set d : TDisplayType := disp.getD (getNodeDisplay w1 n.id srcSid) with hd
    set ctx : Nat := ctxOf w1 d with hctx
    have hctxw : ctx = ctxOf w d := by
      rw [hctx]
      exact ctxOf_eq_of_flags _ _ hflags1 d
    set w2 : World := setSettings w1 dest i n ctx d with hw2
    have hw2scene : getScene w2 dest = some
        { sd with
          nodes := sd.nodes ++
            [{ raw with
                payload := n.payload
                posX := n.posX
                posY := n.posY
                output := ctx
                display := d }]
          order := sd.order ++ [i] } := by
      rw [hw2, setSettings, getScene_modifyNode, if_pos rfl, hw1scene]
      simp only [Option.map_some']
      rw [map_ite_append_single _ _ _ _ hipool rfl]
    have hw2pres : ∀ sid x, x ≠ i → getNodeW w2 sid x = getNodeW w sid x := by
      intro sid x hx
      rw [hw2, setSettings]
      rw [getNodeW_modifyNode_ne]
      · exact hw1pres sid x hx
      · intro m
        rfl
      · exact fun hcc => hx hcc.2
    set w3 : World := if mig ∧ disp = some .vertical then
        createNodeMapEntry (setTransform00 w2 dest i) dest (some n.id) (some i)
      else w2 with hw3
    refine ⟨⟨w3, aset nim n.id i, ins ++ [i]⟩, ?_, rfl, rfl, ?_, ?_, ?_, ?_, ?_, ?_, ?_⟩
    · simp only [createStep, hf, Bool.false_eq_true, if_false, resolveSourceId] at *
      simp only [createStep, hf, hsid, hch]
    · show w3.nextId = k
      rw [hw3]
      split <;>
        simp [hw2, setSettings, setTransform00, modifyNode, hw1, sceneAddNode,
          createNodeMapEntry]
    · show w3.sources = w.sources
      rw [hw3]
      split <;>
        simp [hw2, setSettings, setTransform00, modifyNode, hw1, sceneAddNode,
          createNodeMapEntry]
    · show flagsOf w3 = flagsOf w
      rw [hw3]
      split <;>
        simp [hw2, setSettings, setTransform00, modifyNode, hw1, sceneAddNode,
          createNodeMapEntry, flagsOf, modifyScene]
    · intro sid hsid2
      show getScene w3 sid = getScene w sid
      have h2 : getScene w2 sid = getScene w sid := by
        rw [hw2, setSettings, getScene_modifyNode, if_neg hsid2, hw1,
          getScene_sceneAddNode, if_neg hsid2]
        rfl
      rw [hw3]
      split
      · rw [getScene_createNodeMapEntry, setTransform00, getScene_modifyNode,
          if_neg hsid2]
        exact h2
      · exact h2
    · show getScene w3 dest = _
      rw [hw3]
      split
      · next hmv =>
        have hcopy : copyOf mig srcSid disp smap w n i =
            { id := i, name := "", parentId := none, isFolder := false,
              sourceId := sidr, display := d, posX := 0, posY := 0,
              output := ctx, payload := n.payload } := by
          rw [copyOf]
          simp only [hf, Bool.false_eq_true, if_false, if_pos hmv, hsid,
            Option.getD_some]
          rw [← hdisp1, ← hd, ← hctxw]
        rw [getScene_createNodeMapEntry, setTransform00, getScene_modifyNode,
          if_pos rfl, hw2scene]
        simp only [Option.map_some']
        rw [map_ite_append_single _ _ _ _ hipool rfl, hcopy]
      · next hmv =>
        have hcopy : copyOf mig srcSid disp smap w n i =
            { id := i, name := "", parentId := none, isFolder := false,
              sourceId := sidr, display := d, posX := n.posX, posY := n.posY,
              output := ctx, payload := n.payload } := by
          rw [copyOf]
          simp only [hf, Bool.false_eq_true, if_false, if_neg hmv, hsid,
            Option.getD_some]
          rw [← hdisp1, ← hd, ← hctxw]
        rw [hw2scene, hcopy]
    · show w3.nodeMaps = _
      have hm2 : w2.nodeMaps = w.nodeMaps := by
        rw [hw2, setSettings, modifyNode, modifyScene_nodeMaps, hw1, sceneAddNode,
          modifyScene_nodeMaps]
      have hmt : (setTransform00 w2 dest i).nodeMaps = w.nodeMaps := by
        rw [setTransform00, modifyNode, modifyScene_nodeMaps, hm2]
      have hmap2 : nodeMapOf (setTransform00 w2 dest i) dest = nodeMapOf w dest := by
        unfold nodeMapOf getNodeMap
        rw [hmt]
      rw [hw3]
      split
      · rw [createNodeMapEntry, hmap2, hmt]
      · rw [hm2]
    · intro sid x hx
      show getNodeW w3 sid x = getNodeW w sid x
      rw [hw3]
      split
      · rw [getNodeW_createNodeMapEntry, setTransform00]
        rw [getNodeW_modifyNode_ne]
        · exact hw2pres sid x hx
        · intro m
          rfl
        · exact fun hcc => hx hcc.2
      · exact hw2pres sid x hx

theorem copyOf_id (mig : Bool) (srcSid : SceneId) (disp : Option TDisplayType)
    (smap : Option (List (SourceId × SourceId))) (w : World) (n : SceneNode)
    (i : NodeId) : (copyOf mig srcSid disp smap w n i).id = i := by
  unfold copyOf
  cases n.isFolder <;> simp

theorem copyOf_stable (mig : Bool) (srcSid : SceneId) (disp : Option TDisplayType)
    (smap : Option (List (SourceId × SourceId))) (w w' : World) (n : SceneNode)
    (i : NodeId)
    (hdispEq : getNodeDisplay w' n.id srcSid = getNodeDisplay w n.id srcSid)
    (hflags : flagsOf w' = flagsOf w) :
    copyOf mig srcSid disp smap w' n i = copyOf mig srcSid disp smap w n i := by
  unfold copyOf
  rw [hdispEq]
  cases n.isFolder <;> simp [ctxOf_eq_of_flags w w' hflags]

theorem createStep_some_src {mig : Bool} {dest srcSid : SceneId}
    {disp : Option TDisplayType} {smap : Option (List (SourceId × SourceId))}
    {st : CreateSt} {n : SceneNode} {st₁ : CreateSt}
    (h : createStep mig dest srcSid disp smap st n = some st₁) :
    n.isFolder = true ∨ (resolveSourceId smap n.sourceId).isSome := by
  by_cases hf : n.isFolder
  · exact Or.inl hf
  · right
    unfold createStep at h
    rw [if_neg hf] at h
    cases hr : resolveSourceId smap n.sourceId with
    | none => rw [hr] at h; cases h
    | some v => simp

theorem newIds_zero (k : Nat) : newIds k 0 = [] := rfl

theorem newIds_succ (k len : Nat) : newIds k (len + 1) = k :: newIds (k + 1) len :=
  List.range'_succ k len 1

theorem newIds_length (k len : Nat) : (newIds k len).length = len := by
  simp [newIds]

theorem mem_newIds {k len x : Nat} (h : x ∈ newIds k len) : k ≤ x ∧ x < k + len := by
  unfold newIds at h
  have := List.mem_range'.mp h
  omega

theorem newIds_nodup (k len : Nat) : (newIds k len).Nodup := by
  induction len generalizing k with
  | zero => exact List.nodup_nil
  | succ m ih =>
    rw [newIds_succ]
    refine List.nodup_cons.mpr ⟨fun hk => ?_, ih (k + 1)⟩
    have := mem_newIds hk
    omega

/-- The creation pass on a fresh command: every node gets a fresh sequential
id, the table and result list extend accordingly, the destination pool and
order gain the copies in order, and — in the migration case with forced
vertical display — the node maps gain one entry per node. -/
theorem createPass_fresh (mig : Bool) (dest srcSid : SceneId)
    (disp : Option TDisplayType) (smap : Option (List (SourceId × SourceId)))
    (ns : List SceneNode) :
    ∀ (w0 : World) (nim0 : List (NodeId × NodeId)) (ins0 : List NodeId) (sd : Scene),
    getScene w0 dest = some sd →
    (ns.map fun n => n.id).Nodup →
    (∀ n ∈ ns, n.id < w0.nextId) →
    (∀ n ∈ ns, alookup nim0 n.id = none) →
    (∀ m ∈ sd.nodes, m.id < w0.nextId) →
    (∀ n ∈ ns, n.isFolder = true ∨ (resolveSourceId smap n.sourceId).isSome) →
    ∃ st, ns.foldlM (createStep mig dest srcSid disp smap) ⟨w0, nim0, ins0⟩ = some st ∧
      st.nim = nim0 ++ (ns.zip (newIds w0.nextId ns.length)).map
        (fun p => (p.1.id, p.2)) ∧
      st.inserted = ins0 ++ newIds w0.nextId ns.length ∧
      st.world.nextId = w0.nextId + ns.length ∧
      st.world.sources = w0.sources ∧
      flagsOf st.world = flagsOf w0 ∧
      (∀ sid, sid ≠ dest → getScene st.world sid = getScene w0 sid) ∧
      getScene st.world dest = some
        { sd with
          nodes := sd.nodes ++ ((ns.zip (newIds w0.nextId ns.length)).map
            fun p => copyOf mig srcSid disp smap w0 p.1 p.2)
          order := sd.order ++ newIds w0.nextId ns.length } ∧
      st.world.nodeMaps = (if mig ∧ disp = some .vertical then
          migMaps dest w0.nodeMaps (ns.zip (newIds w0.nextId ns.length))
        else w0.nodeMaps) ∧
      (∀ sid x, x < w0.nextId → getNodeW st.world sid x = getNodeW w0 sid x) := by
  induction ns with
  | nil =>
    intro w0 nim0 ins0 sd hdest _ _ _ _ _
    refine ⟨⟨w0, nim0, ins0⟩, rfl, ?_, ?_, ?_, rfl, rfl, fun _ _ => rfl, ?_, ?_,
      fun _ _ _ => rfl⟩
    · simp [newIds_zero]
    · simp [newIds_zero]
    · simp
    · simpa [newIds_zero] using hdest
    · simp [newIds_zero, migMaps]
  | cons n0 t ih =>
    intro w0 nim0 ins0 sd hdest hnodup hold hnim hpool hsrc
    have hn0 : n0 ∈ n0 :: t := List.mem_cons_self n0 t
    have hch : chooseId w0 (alookup nim0 n0.id) =
        (w0.nextId, { w0 with nextId := w0.nextId + 1 }) := by
      rw [hnim n0 hn0]
      rfl
    obtain ⟨st₁, hstep, hnim1, hins1, hnext1, hsrcs1, hflags1, hscene_ne1, hscene1,
        hmaps1, hpres1⟩ :=
      createStep_eff mig dest srcSid disp smap w0 nim0 ins0 n0 sd w0.nextId
        (w0.nextId + 1) hdest hch
        (fun m hm => Nat.ne_of_lt (hpool m hm))
        (Nat.ne_of_gt (hold n0 hn0))
        (hsrc n0 hn0)
    have hnodup_t : (t.map fun n => n.id).Nodup := (List.nodup_cons.mp hnodup).2
    have hn0_not_t : n0.id ∉ t.map fun n => n.id := (List.nodup_cons.mp hnodup).1
    obtain ⟨st, hrun, cnim, cins, cnext, csrcs, cflags, cscene_ne, cscene, cmaps,
        cpres⟩ :=
      ih st₁.world st₁.nim st₁.inserted
        { sd with nodes := sd.nodes ++ [copyOf mig srcSid disp smap w0 n0 w0.nextId],
                  order := sd.order ++ [w0.nextId] }
        hscene1
        hnodup_t
        (fun n hn => by rw [hnext1]; exact Nat.lt_succ_of_lt (hold n (List.mem_cons_of_mem _ hn)))
        (fun n hn => by
          rw [hnim1, alookup_aset_ne _ _ _ _
            (fun he => hn0_not_t (by rw [he]; exact List.mem_map_of_mem (fun n => n.id) hn)),
            hnim n (List.mem_cons_of_mem _ hn)])
        (fun m hm => by
          rw [hnext1]
          rcases List.mem_append.mp hm with hm | hm
          · exact Nat.lt_succ_of_lt (hpool m hm)
          · rcases List.mem_singleton.mp hm with rfl
            rw [copyOf_id]
            exact Nat.lt_succ_self _)
        (fun n hn => hsrc n (List.mem_cons_of_mem _ hn))
    have hrun' : (n0 :: t).foldlM (createStep mig dest srcSid disp smap)
        ⟨w0, nim0, ins0⟩ = some st := by
      show (createStep mig dest srcSid disp smap ⟨w0, nim0, ins0⟩ n0 >>= fun b =>
        t.foldlM (createStep mig dest srcSid disp smap) b) = some st
      rw [hstep]
      simpa using hrun
    have hids : newIds w0.nextId (n0 :: t).length =
        w0.nextId :: newIds (w0.nextId + 1) t.length := by
      rw [List.length_cons, newIds_succ]
    have hpres_old : ∀ n, n ∈ t → getNodeDisplay st₁.world n.id srcSid =
        getNodeDisplay w0 n.id srcSid := fun n hn =>
      getNodeDisplay_eq_of_getNodeW _ _ _ _
        (hpres1 srcSid n.id (Nat.ne_of_lt (hold n (List.mem_cons_of_mem _ hn))))
    have hcopies : (t.zip (newIds (w0.nextId + 1) t.length)).map
        (fun p => copyOf mig srcSid disp smap st₁.world p.1 p.2) =
        (t.zip (newIds (w0.nextId + 1) t.length)).map
        (fun p => copyOf mig srcSid disp smap w0 p.1 p.2) := by
      apply List.map_congr_left
      intro p hp
      obtain ⟨a, b⟩ := p
      exact copyOf_stable _ _ _ _ _ _ _ _
        (hpres_old a (List.of_mem_zip hp).1) hflags1
    refine ⟨st, hrun', ?_, ?_, ?_, ?_, ?_, ?_, ?_, ?_, ?_⟩
    · rw [cnim, hnim1, aset_of_lookup_none _ _ _ (hnim n0 hn0), hids]
      simp only [List.zip_cons_cons, List.map_cons, hnext1]
      rw [List.append_assoc]
      rfl
    · rw [cins, hins1, hids, hnext1]
      simp [List.append_assoc]
    · rw [cnext, hnext1, List.length_cons]
      omega
    · rw [csrcs, hsrcs1]
    · rw [cflags, hflags1]
    · intro sid hsid
      rw [cscene_ne sid hsid, hscene_ne1 sid hsid]
    · rw [cscene, hnext1, hcopies, hids]
      simp only [List.zip_cons_cons, List.map_cons]
      rw [List.append_assoc, List.append_assoc]
      rfl
    · rw [cmaps, hmaps1, hnext1, hids]
      by_cases hmv : mig ∧ disp = some .vertical
      · rw [if_pos hmv, if_pos hmv, if_pos hmv]
        simp only [List.zip_cons_cons]
        rfl
      · rw [if_neg hmv, if_neg hmv, if_neg hmv]
    · intro sid x hx
      rw [cpres sid x (by rw [hnext1]; exact Nat.lt_succ_of_lt hx),
        hpres1 sid x (Nat.ne_of_lt hx)]

/-- The creation pass on a command whose node id table already covers every
node (a re-execution after rollback): the recorded ids are passed as hints and
honored, so the same ids are assigned again and the table is unchanged. -/
theorem createPass_hinted (mig : Bool) (dest srcSid : SceneId)
    (disp : Option TDisplayType) (smap : Option (List (SourceId × SourceId)))
    (ns : List SceneNode) :
    ∀ (w0 : World) (nim0 : List (NodeId × NodeId)) (ins0 : List NodeId) (sd : Scene),
    getScene w0 dest = some sd →
    (ns.map fun n => n.id).Nodup →
    (∀ n ∈ ns, (alookup nim0 n.id).isSome) →
    (∀ a b v, alookup nim0 a = some v → alookup nim0 b = some v → a = b) →
    (∀ n ∈ ns, ∀ h, alookup nim0 n.id = some h → ∀ m ∈ sd.nodes, m.id ≠ h) →
    (∀ n ∈ ns, ∀ h, alookup nim0 n.id = some h → ∀ n' ∈ ns, n'.id ≠ h) →
    (∀ n ∈ ns, n.isFolder = true ∨ (resolveSourceId smap n.sourceId).isSome) →
    ∃ st, ns.foldlM (createStep mig dest srcSid disp smap) ⟨w0, nim0, ins0⟩ = some st ∧
      st.nim = nim0 ∧
      st.inserted = ins0 ++ ns.map (fun n => (alookup nim0 n.id).getD 0) ∧
      st.world.nextId = w0.nextId ∧
      st.world.sources = w0.sources ∧
      flagsOf st.world = flagsOf w0 ∧
      (∀ sid, sid ≠ dest → getScene st.world sid = getScene w0 sid) ∧
      getScene st.world dest = some
        { sd with
          nodes := sd.nodes ++
            ((ns.zip (ns.map fun n => (alookup nim0 n.id).getD 0)).map
              fun p => copyOf mig srcSid disp smap w0 p.1 p.2)
          order := sd.order ++ ns.map (fun n => (alookup nim0 n.id).getD 0) } ∧
      (∀ sid x, x ∉ ns.map (fun n => (alookup nim0 n.id).getD 0) →
        getNodeW st.world sid x = getNodeW w0 sid x) := by
  induction ns with
  | nil =>
    intro w0 nim0 ins0 sd hdest _ _ _ _ _ _
    refine ⟨⟨w0, nim0, ins0⟩, rfl, rfl, by simp, rfl, rfl, rfl, fun _ _ => rfl, ?_,
      fun _ _ _ => rfl⟩
    simpa using hdest
  | cons n0 t ih =>
    intro w0 nim0 ins0 sd hdest hnodup hhint hinj hvp hvn hsrc
    have hn0 : n0 ∈ n0 :: t := List.mem_cons_self n0 t
    obtain ⟨h0, hh0⟩ := Option.isSome_iff_exists.mp (hhint n0 hn0)
    have hch : chooseId w0 (alookup nim0 n0.id) = (h0, { w0 with nextId := w0.nextId }) := by
      rw [hh0]
      rfl
    obtain ⟨st₁, hstep, hnim1, hins1, hnext1, hsrcs1, hflags1, hscene_ne1, hscene1,
        hmaps1, hpres1⟩ :=
      createStep_eff mig dest srcSid disp smap w0 nim0 ins0 n0 sd h0 w0.nextId
        hdest hch
        (hvp n0 hn0 h0 hh0)
        (fun he => hvn n0 hn0 h0 hh0 n0 hn0 he.symm)
        (hsrc n0 hn0)
    have hnim1' : st₁.nim = nim0 := by
      rw [hnim1, aset_of_lookup_eq _ _ _ hh0]
    have hnodup_t : (t.map fun n => n.id).Nodup := (List.nodup_cons.mp hnodup).2
    have hn0_not_t : n0.id ∉ t.map fun n => n.id := (List.nodup_cons.mp hnodup).1
    obtain ⟨st, hrun, cnim, cins, cnext, csrcs, cflags, cscene_ne, cscene, cpres⟩ :=
      ih st₁.world st₁.nim st₁.inserted
        { sd with nodes := sd.nodes ++ [copyOf mig srcSid disp smap w0 n0 h0],
                  order := sd.order ++ [h0] }
        hscene1
        hnodup_t
        (fun n hn => by rw [hnim1']; exact hhint n (List.mem_cons_of_mem _ hn))
        (fun a b v ha hb => by
          rw [hnim1'] at ha hb
          exact hinj a b v ha hb)
        (fun n hn h hh m hm => by
          rw [hnim1'] at hh
          rcases List.mem_append.mp hm with hm | hm
          · exact hvp n (List.mem_cons_of_mem _ hn) h hh m hm
          · rcases List.mem_singleton.mp hm with rfl
            rw [copyOf_id]
            intro hcon
            have := hinj n.id n0.id h0 (hcon ▸ hh) hh0
            exact hn0_not_t (this ▸ List.mem_map_of_mem (fun n => n.id) hn))
        (fun n hn h hh n' hn' => by
          rw [hnim1'] at hh
          exact hvn n (List.mem_cons_of_mem _ hn) h hh n' (List.mem_cons_of_mem _ hn'))
        (fun n hn => hsrc n (List.mem_cons_of_mem _ hn))
    have hrun' : (n0 :: t).foldlM (createStep mig dest srcSid disp smap)
        ⟨w0, nim0, ins0⟩ = some st := by
      show (createStep mig dest srcSid disp smap ⟨w0, nim0, ins0⟩ n0 >>= fun b =>
        t.foldlM (createStep mig dest srcSid disp smap) b) = some st
      rw [hstep]
      simpa using hrun
    have hpres_old : ∀ n, n ∈ t → getNodeDisplay st₁.world n.id srcSid =
        getNodeDisplay w0 n.id srcSid := fun n hn =>
      getNodeDisplay_eq_of_getNodeW _ _ _ _
        (hpres1 srcSid n.id
          (fun he => hvn n0 hn0 h0 hh0 n (List.mem_cons_of_mem _ hn) he))
    have htl : ∀ n ∈ t, alookup st₁.nim n.id = alookup nim0 n.id := fun n _ => by
      rw [hnim1']
    have hmapids : t.map (fun n => (alookup st₁.nim n.id).getD 0) =
        t.map (fun n => (alookup nim0 n.id).getD 0) :=
      List.map_congr_left (fun n hn => by rw [htl n hn])
    have hids : (n0 :: t).map (fun n => (alookup nim0 n.id).getD 0) =
        h0 :: t.map (fun n => (alookup nim0 n.id).getD 0) := by
      simp [hh0]
    have hcopies : (t.zip (t.map fun n => (alookup st₁.nim n.id).getD 0)).map
        (fun p => copyOf mig srcSid disp smap st₁.world p.1 p.2) =
        (t.zip (t.map fun n => (alookup nim0 n.id).getD 0)).map
        (fun p => copyOf mig srcSid disp smap w0 p.1 p.2) := by
      rw [hmapids]
      apply List.map_congr_left
      intro p hp
      obtain ⟨a, b⟩ := p
      exact copyOf_stable _ _ _ _ _ _ _ _
        (hpres_old a (List.of_mem_zip hp).1) hflags1
    refine ⟨st, hrun', ?_, ?_, ?_, ?_, ?_, ?_, ?_, ?_⟩
    · rw [cnim, hnim1']
    · rw [cins, hins1, hmapids, hids, List.append_assoc]
      rfl
    · rw [cnext, hnext1]
    · rw [csrcs, hsrcs1]
    · rw [cflags, hflags1]
    · intro sid hsid
      rw [cscene_ne sid hsid, hscene_ne1 sid hsid]
    · rw [cscene, hcopies, hmapids, hids]
      simp only [List.zip_cons_cons, List.map_cons]
      rw [List.append_assoc, List.append_assoc]
      rfl
    · intro sid x hx
      rw [hids] at hx
      have hx0 : x ≠ h0 := fun he => hx (he ▸ List.mem_cons_self _ _)
      have hxt : x ∉ t.map (fun n => (alookup st₁.nim n.id).getD 0) := by
        rw [hmapids]
        exact fun hmem => hx (List.mem_cons_of_mem _ hmem)
      rw [cpres sid x hxt, hpres1 sid x hx0]

end CreateStep

/-! ### Relinking pass -/

section Relink

theorem relinkPresRefl (dest : SceneId) (w : World) : RelinkPres dest w w :=
  ⟨Eq.refl _, Eq.refl _, Eq.refl _, Eq.refl _, fun _ _ => Eq.refl _, fun _ => Eq.refl _,
    fun _ => Eq.refl _, fun _ _ => Eq.refl _, fun _ => Eq.refl _⟩

theorem RelinkPres.trans {dest : SceneId} {w w1 w2 : World}
    (h1 : RelinkPres dest w w1) (h2 : RelinkPres dest w1 w2) :
    RelinkPres dest w w2 := by
  obtain ⟨a1, b1, c1, d1, e1, f1, g1, i1, j1⟩ := h1
  obtain ⟨a2, b2, c2, d2, e2, f2, g2, i2, j2⟩ := h2
  exact ⟨a2.trans a1, b2.trans b1, c2.trans c1, d2.trans d1,
    fun sid hs => (e2 sid hs).trans (e1 sid hs),
    fun sid => (f2 sid).trans (f1 sid),
    fun sid => (g2 sid).trans (g1 sid),
    fun sid x => (i2 sid x).trans (i1 sid x),
    fun sid => (j2 sid).trans (j1 sid)⟩

theorem RelinkPres.isSome {dest : SceneId} {w w' : World}
    (h : RelinkPres dest w w') (sid : SceneId) (x : NodeId) :
    (getNodeW w' sid x).isSome = (getNodeW w sid x).isSome := by
  have := h.2.2.2.2.2.2.2.1 sid x
  cases hx : getNodeW w' sid x <;> cases hy : getNodeW w sid x <;>
    rw [hx, hy] at this <;> simp_all

theorem setParent_relinkPres (w : World) (dest : SceneId) (nid pid : NodeId) :
    RelinkPres dest w (setParent w dest nid pid) := by
  refine ⟨?_, ?_, ?_, ?_, ?_, ?_, ?_, ?_, ?_⟩
  · rw [setParent, modifyNode, modifyScene_nodeMaps]
  · rw [setParent, modifyNode, modifyScene_sources]
  · rw [setParent, modifyNode, modifyScene_nextId]
  · rw [setParent, modifyNode, flagsOf_modifyScene]
  · intro sid hs
    rw [setParent, getScene_modifyNode, if_neg hs]
  · intro sid
    rw [setParent, sceneOrderOf_modifyNode]
  · intro sid
    rw [setParent]
    apply scenePoolIds_modifyNode
    intro x
    rfl
  · intro sid x
    rw [setParent]
    rw [getNodeW_modifyNode]
    · split
      · rw [Option.map_map]
        rfl
      · rfl
    · intro y
      rfl
  · intro sid
    rw [setParent, getScene_modifyNode]
    split
    · cases getScene w sid <;> rfl
    · rfl

/-- Characterization of one relinking step on success. -/
theorem relinkStep_cases {nim : List (NodeId × NodeId)} {dest : SceneId}
    {w : World} {n : SceneNode} {w' : World}
    (h : relinkStep nim dest w n = some w') :
    (w' = w ∧ (n.parentId.bind (alookup nim)).bind (getNodeW w dest) = none) ∨
    (∃ p cn, n.parentId.bind (alookup nim) = some p ∧
      (getNodeW w dest p).isSome ∧ alookup nim n.id = some cn ∧
      (getNodeW w dest cn).isSome ∧ w' = setParent w dest cn p) := by
  unfold relinkStep at h
  cases hmp : (n.parentId.bind (alookup nim)).bind (getNodeW w dest) with
  | none =>
    rw [hmp] at h
    exact Or.inl ⟨(Option.some.inj h).symm, rfl⟩
  | some par =>
    rw [hmp] at h
    rcases Option.bind_eq_some.mp hmp with ⟨p, hp, hpar⟩
    cases hm : (alookup nim n.id).bind (getNodeW w dest) with
    | none =>
      rw [hm] at h
      exact absurd h (by simp)
    | some m =>
      rw [hm] at h
      rcases Option.bind_eq_some.mp hm with ⟨cn, hcn, hmn⟩
      right
      refine ⟨p, cn, hp, by rw [hpar]; rfl, hcn, by rw [hmn]; rfl, ?_⟩
      rw [← Option.some.inj h, getNodeW_id hmn, getNodeW_id hpar]

theorem relinkStep_total {nim : List (NodeId × NodeId)} {dest : SceneId}
    {w : World} {n : SceneNode}
    (hok : ∀ p, n.parentId.bind (alookup nim) = some p →
      (getNodeW w dest p).isSome →
      ((alookup nim n.id).bind (getNodeW w dest)).isSome) :
    (relinkStep nim dest w n).isSome := by
  unfold relinkStep
  cases hmp : (n.parentId.bind (alookup nim)).bind (getNodeW w dest) with
  | none => rfl
  | some par =>
    rcases Option.bind_eq_some.mp hmp with ⟨p, hp, hpar⟩
    have := hok p hp (by rw [hpar]; rfl)
    rcases Option.isSome_iff_exists.mp this with ⟨m, hm⟩
    rw [hm]
    rfl

/-- The relinking pass runs to completion under the safety condition, and
preserves everything but destination parent references. -/
theorem relinkPass_run {nim : List (NodeId × NodeId)} {dest : SceneId}
    (ms : List SceneNode) :
    ∀ w : World,
    (∀ n ∈ ms, ∀ p, n.parentId.bind (alookup nim) = some p →
      (getNodeW w dest p).isSome →
      ((alookup nim n.id).bind (getNodeW w dest)).isSome) →
    ∃ w', relinkPass nim dest w ms = some w' ∧ RelinkPres dest w w' := by
  induction ms with
  | nil =>
    intro w _
    exact ⟨w, rfl, relinkPresRefl dest w⟩
  | cons n0 t ih =>
    intro w hsafe
    have h0 := relinkStep_total (hsafe n0 (List.mem_cons_self n0 t))
    rcases Option.isSome_iff_exists.mp h0 with ⟨w1, hw1⟩
    have hpres1 : RelinkPres dest w w1 := by
      rcases relinkStep_cases hw1 with ⟨rfl, _⟩ | ⟨p, cn, _, _, _, _, rfl⟩
      · exact relinkPresRefl dest _
      · exact setParent_relinkPres _ dest cn p
    have hsafe1 : ∀ n ∈ t, ∀ p, n.parentId.bind (alookup nim) = some p →
        (getNodeW w1 dest p).isSome →
        ((alookup nim n.id).bind (getNodeW w1 dest)).isSome := by
      intro n hn p hp hres
      rw [hpres1.isSome dest p] at hres
      have := hsafe n (List.mem_cons_of_mem _ hn) p hp hres
      cases hcn : alookup nim n.id with
      | none => rw [hcn] at this; simp at this
      | some cn =>
        rw [hcn] at this
        simpa [hpres1.isSome dest cn] using this
    rcases ih w1 hsafe1 with ⟨w', hrun, hpres2⟩
    refine ⟨w', ?_, hpres1.trans hpres2⟩
    show (relinkStep nim dest w n0 >>= fun b => t.foldlM (relinkStep nim dest) b) =
      some w'
    rw [hw1]
    simpa using hrun

/-- Nodes of the destination whose id is not a table image of any relinked
node are untouched by the relinking pass. -/
theorem relinkPass_untouched {nim : List (NodeId × NodeId)} {dest : SceneId}
    (ms : List SceneNode) :
    ∀ w w', relinkPass nim dest w ms = some w' →
    ∀ cn, (∀ n ∈ ms, alookup nim n.id ≠ some cn) →
    getNodeW w' dest cn = getNodeW w dest cn := by
  induction ms with
  | nil =>
    intro w w' hrun cn _
    cases hrun
    rfl
  | cons n0 t ih =>
    intro w w' hrun cn hno
    have hrun' : (relinkStep nim dest w n0 >>= fun b =>
        t.foldlM (relinkStep nim dest) b) = some w' := hrun
    rcases Option.bind_eq_some.mp hrun' with ⟨w1, hw1, hrest⟩
    have h1 : getNodeW w1 dest cn = getNodeW w dest cn := by
      rcases relinkStep_cases hw1 with ⟨rfl, _⟩ | ⟨p, cn0, _, _, hcn0, _, rfl⟩
      · rfl
      · rw [setParent]
        rw [getNodeW_modifyNode_ne]
        · intro y
          rfl
        · intro hc
          exact hno n0 (List.mem_cons_self n0 t) (hc.2 ▸ hcn0)
    rw [ih w1 w' hrest cn (fun n hn => hno n (List.mem_cons_of_mem _ hn)), h1]

/-- The parent reference the relinking pass leaves on the copy of a node
whose recorded parent resolved through the table. -/
theorem relinkPass_parent_set {nim : List (NodeId × NodeId)} {dest : SceneId}
    (ms : List SceneNode)
    (hnd : (ms.map fun n => n.id).Nodup)
    (hinj : ∀ a b v, alookup nim a = some v → alookup nim b = some v → a = b) :
    ∀ w w', relinkPass nim dest w ms = some w' →
    ∀ n ∈ ms, ∀ cn p, alookup nim n.id = some cn →
    n.parentId.bind (alookup nim) = some p →
    (getNodeW w dest p).isSome →
    getNodeW w' dest cn =
      (getNodeW w dest cn).map fun m => { m with parentId := some p } := by
  induction ms with
  | nil =>
    intro w w' _ n hn
    cases hn
  | cons n0 t ih =>
    intro w w' hrun n hn cn p hcn hp hres
    have hrun' : (relinkStep nim dest w n0 >>= fun b =>
        t.foldlM (relinkStep nim dest) b) = some w' := hrun
    rcases Option.bind_eq_some.mp hrun' with ⟨w1, hw1, hrest⟩
    have hnd0 := List.nodup_cons.mp hnd
    rcases List.mem_cons.mp hn with rfl | hnt
    · have hstep : w1 = setParent w dest cn p := by
        rcases relinkStep_cases hw1 with ⟨rfl, hnone⟩ | ⟨p', cn', hp', hres', hcn', _, rfl⟩
        · rw [hp] at hnone
          simp only [Option.some_bind] at hnone
          rw [hnone] at hres
          cases hres
        · rw [hp] at hp'
          rw [hcn] at hcn'
          cases hp'
          cases hcn'
          rfl
      have huntouched : getNodeW w' dest cn = getNodeW w1 dest cn := by
        apply relinkPass_untouched t w1 w' hrest
        intro n' hn' hc
        have heq : n'.id = n.id := hinj n'.id n.id cn hc hcn
        have hmem : n'.id ∈ t.map (fun n => n.id) := List.mem_map_of_mem _ hn'
        rw [heq] at hmem
        exact hnd0.1 hmem
      rw [huntouched, hstep, setParent, getNodeW_modifyNode]
      · rw [if_pos ⟨rfl, rfl⟩]
      · intro y
        rfl
    · have h1 : getNodeW w1 dest cn = getNodeW w dest cn := by
        rcases relinkStep_cases hw1 with ⟨rfl, _⟩ | ⟨p', cn0, _, _, hcn0, _, rfl⟩
        · rfl
        · rw [setParent]
          rw [getNodeW_modifyNode_ne]
          · intro y
            rfl
          · intro hc
            have heq : n0.id = n.id := hinj n0.id n.id cn (hc.2 ▸ hcn0) hcn
            have hmem : n.id ∈ t.map (fun n => n.id) := List.mem_map_of_mem _ hnt
            rw [← heq] at hmem
            exact hnd0.1 hmem
      have hres1 : (getNodeW w1 dest p).isSome := by
        rcases relinkStep_cases hw1 with ⟨rfl, _⟩ | ⟨p', cn0, _, _, _, _, rfl⟩
        · exact hres
        · rw [(setParent_relinkPres w dest cn0 p').isSome dest p]
          exact hres
      rw [ih hnd0.2 w1 w' hrest n hnt cn p hcn hp hres1, h1]

end Relink

/-! ### Order reconstruction pass -/

section Reorder

theorem getScene_eq_of_scenes {w w' : World} (h : w'.scenes = w.scenes)
    (sid : SceneId) : getScene w' sid = getScene w sid := by
  unfold getScene
  rw [h]

theorem getNodeW_eq_of_scenes {w w' : World} (h : w'.scenes = w.scenes)
    (sid : SceneId) (nid : NodeId) : getNodeW w' sid nid = getNodeW w sid nid := by
  unfold getNodeW
  rw [getScene_eq_of_scenes h]

theorem getNodeDisplay_eq_of_scenes {w w' : World} (h : w'.scenes = w.scenes)
    (nid : NodeId) (sid : SceneId) :
    getNodeDisplay w' nid sid = getNodeDisplay w nid sid := by
  unfold getNodeDisplay
  rw [getNodeW_eq_of_scenes h]

theorem getVerticalNodeId_eq_of_map {w w' : World} (sid : SceneId)
    (h : getNodeMap w' sid = getNodeMap w sid) (nid : NodeId) :
    getVerticalNodeId w' nid sid = getVerticalNodeId w nid sid := by
  unfold getVerticalNodeId
  rw [h]

theorem reorderMapStep_eq (nim : List (NodeId × NodeId)) (dest srcSid : SceneId)
    (w : World) (acc0 : List (Option NodeId)) (oid : NodeId) :
    reorderMapStep nim dest srcSid (w, acc0) oid =
    ((if getNodeDisplay w oid srcSid = .horizontal then
        createNodeMapEntry w dest (alookup nim oid)
          ((getVerticalNodeId w oid srcSid).bind (alookup nim))
      else w), acc0 ++ [alookup nim oid]) := rfl

theorem reorderMapPass_world (nim : List (NodeId × NodeId)) (dest srcSid : SceneId)
    (order : List NodeId) :
    ∀ (w : World) (acc0 : List (Option NodeId)),
    (order.foldl (reorderMapStep nim dest srcSid) (w, acc0)).1.scenes = w.scenes ∧
    (order.foldl (reorderMapStep nim dest srcSid) (w, acc0)).1.sources = w.sources ∧
    (order.foldl (reorderMapStep nim dest srcSid) (w, acc0)).1.nextId = w.nextId ∧
    flagsOf (order.foldl (reorderMapStep nim dest srcSid) (w, acc0)).1 = flagsOf w ∧
    (∀ sid, sid ≠ dest →
      getNodeMap (order.foldl (reorderMapStep nim dest srcSid) (w, acc0)).1 sid =
      getNodeMap w sid) := by
  induction order with
  | nil => intro w acc0; exact ⟨rfl, rfl, rfl, rfl, fun _ _ => rfl⟩
  | cons o t ih =>
    intro w acc0
    rw [List.foldl_cons, reorderMapStep_eq]
    split
    · have hih := ih (createNodeMapEntry w dest (alookup nim o)
        ((getVerticalNodeId w o srcSid).bind (alookup nim))) (acc0 ++ [alookup nim o])
      exact ⟨hih.1, hih.2.1, hih.2.2.1, hih.2.2.2.1,
        fun sid hs => (hih.2.2.2.2 sid hs).trans
          (getNodeMap_createNodeMapEntry_ne _ _ _ _ _ hs)⟩
    · exact ih w (acc0 ++ [alookup nim o])

theorem reorderMapPass_collect (nim : List (NodeId × NodeId)) (dest srcSid : SceneId)
    (order : List NodeId) :
    ∀ (w : World) (acc0 : List (Option NodeId)),
    (order.foldl (reorderMapStep nim dest srcSid) (w, acc0)).2 =
      acc0 ++ order.map (alookup nim) := by
  induction order with
  | nil => intro w acc0; simp
  | cons o t ih =>
    intro w acc0
    rw [List.foldl_cons, reorderMapStep_eq]
    split
    · rw [ih, List.map_cons, List.append_assoc]
      rfl
    · rw [ih, List.map_cons, List.append_assoc]
      rfl

/-- The order produced by the reorder pass is the source order filtered
through the table. -/
theorem reorderMapPass_order (nim : List (NodeId × NodeId)) (dest srcSid : SceneId)
    (w : World) (order : List NodeId) :
    (reorderMapPass nim dest srcSid w order).2 = order.filterMap (alookup nim) := by
  unfold reorderMapPass
  rw [reorderMapPass_collect]
  simp only [List.nil_append]
  rw [List.reduceOption, List.filterMap_map]
  rfl

/-- A key never written by the remaining steps keeps its value in the
destination node map. -/
theorem reorderMapPass_keep (nim : List (NodeId × NodeId)) (dest srcSid : SceneId)
    (order : List NodeId) (K : NodeId) :
    ∀ (w : World) (acc0 : List (Option NodeId)),
    (∀ oid ∈ order, alookup nim oid ≠ some K) →
    alookup (nodeMapOf
      (order.foldl (reorderMapStep nim dest srcSid) (w, acc0)).1 dest) (some K) =
    alookup (nodeMapOf w dest) (some K) := by
  induction order with
  | nil => intro w acc0 _; rfl
  | cons o t ih =>
    intro w acc0 hK
    rw [List.foldl_cons, reorderMapStep_eq]
    split
    · rw [ih _ _ (fun oid ho => hK oid (List.mem_cons_of_mem _ ho)),
        nodeMapOf_createNodeMapEntry_self]
      apply alookup_aset_ne
      intro he
      cases hl : alookup nim o with
      | none => rw [hl] at he; cases he
      | some v =>
        rw [hl] at he
        exact hK o (List.mem_cons_self o t) (by rw [hl, ← Option.some.inj he])
    · exact ih _ _ (fun oid ho => hK oid (List.mem_cons_of_mem _ ho))

theorem getNodeMap_createNodeMapEntry_self (w : World) (sid : SceneId)
    (k v : Option NodeId) :
    getNodeMap (createNodeMapEntry w sid k v) sid =
    some (aset (nodeMapOf w sid) k v) := by
  unfold createNodeMapEntry getNodeMap
  exact alookup_aset_self _ _ _

theorem getVerticalNodeId_createNodeMapEntry_ne (w : World) (dest srcSid : SceneId)
    (k v : Option NodeId) (oid : NodeId) (hk : k ≠ some oid) :
    getVerticalNodeId (createNodeMapEntry w dest k v) oid srcSid =
    getVerticalNodeId w oid srcSid := by
  by_cases hsd : srcSid = dest
  · subst hsd
    unfold getVerticalNodeId
    rw [getNodeMap_createNodeMapEntry_self]
    show (match alookup (aset (nodeMapOf w srcSid) k v) (some oid) with
      | some x => x
      | none => none) = _
    rw [alookup_aset_ne _ _ _ _ hk]
    cases hm : getNodeMap w srcSid with
    | none =>
      unfold nodeMapOf
      rw [hm]
      rfl
    | some m =>
      unfold nodeMapOf
      rw [hm]
      rfl
  · unfold getVerticalNodeId
    rw [getNodeMap_createNodeMapEntry_ne _ _ _ _ _ hsd]

/-- The node map entry registered by the reorder pass for a horizontal source
node whose id translates through the table. -/
theorem reorderMapPass_entry (nim : List (NodeId × NodeId)) (dest srcSid : SceneId)
    (order : List NodeId) :
    ∀ (w : World) (acc0 : List (Option NodeId)) (oid K : NodeId),
    order.Nodup →
    oid ∈ order →
    getNodeDisplay w oid srcSid = .horizontal →
    alookup nim oid = some K →
    (∀ x, alookup nim x ≠ some oid) →
    (∀ x, x ≠ oid → alookup nim x ≠ some K) →
    alookup (nodeMapOf
      (order.foldl (reorderMapStep nim dest srcSid) (w, acc0)).1 dest) (some K) =
    some ((getVerticalNodeId w oid srcSid).bind (alookup nim)) := by
  induction order with
  | nil =>
    intro w acc0 oid K _ hmem
    cases hmem
  | cons o t ih =>
    intro w acc0 oid K hnd hmem hdisp hK hno hnoK
    rw [List.foldl_cons, reorderMapStep_eq]
    rcases List.mem_cons.mp hmem with rfl | hmt
    · rw [if_pos hdisp, hK]
      rw [reorderMapPass_keep nim dest srcSid t K _ _
        (fun oid' ho' => hnoK oid'
          (fun he => (List.nodup_cons.mp hnd).1 (he ▸ ho')))]
      rw [nodeMapOf_createNodeMapEntry_self, alookup_aset_self]
    · split
      · set w1 := createNodeMapEntry w dest (alookup nim o)
          ((getVerticalNodeId w o srcSid).bind (alookup nim)) with hw1
        have hscenes : w1.scenes = w.scenes := by rw [hw1]; rfl
        have hvert : getVerticalNodeId w1 oid srcSid =
            getVerticalNodeId w oid srcSid := by
          rw [hw1]
          apply getVerticalNodeId_createNodeMapEntry_ne
          cases hl : alookup nim o with
          | none => simp
          | some v0 =>
            intro he
            exact hno o (by rw [hl, Option.some.inj he])
        rw [ih w1 _ oid K (List.nodup_cons.mp hnd).2 hmt
          (by rw [getNodeDisplay_eq_of_scenes hscenes]; exact hdisp)
          hK hno hnoK, hvert]
      · exact ih w _ oid K (List.nodup_cons.mp hnd).2 hmt hdisp hK hno hnoK

/-- Every entry of the destination node map after the reorder pass is either a
pre-existing entry or keyed by the table translation of some horizontal
source-order node. -/
theorem reorderMapPass_sound (nim : List (NodeId × NodeId)) (dest srcSid : SceneId)
    (order : List NodeId) :
    ∀ (w : World) (acc0 : List (Option NodeId)),
    ∀ pr ∈ nodeMapOf
      (order.foldl (reorderMapStep nim dest srcSid) (w, acc0)).1 dest,
    pr ∈ nodeMapOf w dest ∨
    ∃ oid, oid ∈ order ∧ getNodeDisplay w oid srcSid = .horizontal ∧
      pr.1 = alookup nim oid := by
  induction order with
  | nil =>
    intro w acc0 pr hpr
    exact Or.inl hpr
  | cons o t ih =>
    intro w acc0 pr hpr
    rw [List.foldl_cons, reorderMapStep_eq] at hpr
    by_cases hdispo : getNodeDisplay w o srcSid = .horizontal
    · rw [if_pos hdispo] at hpr
      rcases ih _ _ pr hpr with hbase | ⟨oid, hoid, hdisp2, hkey⟩
      · rw [nodeMapOf_createNodeMapEntry_self] at hbase
        rcases mem_of_mem_aset hbase with rfl | hbase2
        · exact Or.inr ⟨o, List.mem_cons_self o t, hdispo, rfl⟩
        · exact Or.inl hbase2
      · have hscenes : (createNodeMapEntry w dest (alookup nim o)
            ((getVerticalNodeId w o srcSid).bind (alookup nim))).scenes = w.scenes := rfl
        refine Or.inr ⟨oid, List.mem_cons_of_mem _ hoid, ?_, hkey⟩
        rw [← getNodeDisplay_eq_of_scenes hscenes]
        exact hdisp2
    · rw [if_neg hdispo] at hpr
      rcases ih _ _ pr hpr with hbase | ⟨oid, hoid, hdisp2, hkey⟩
      · exact Or.inl hbase
      · exact Or.inr ⟨oid, List.mem_cons_of_mem _ hoid, hdisp2, hkey⟩

end Reorder

/-! ### Rollback -/

section Rollback

theorem map_id_filter_ne (l : List SceneNode) (v : NodeId) :
    ((l.filter fun n => n.id ≠ v).map fun n => n.id) =
    (l.map fun n => n.id).filter (fun i => i ≠ v) := by
  induction l with
  | nil => rfl
  | cons x t ih =>
    by_cases hx : x.id = v
    · rw [List.filter_cons_of_neg (by simpa using hx), List.map_cons,
        List.filter_cons_of_neg (by simpa using hx), ih]
    · rw [List.filter_cons_of_pos (by simpa using hx), List.map_cons, List.map_cons,
        List.filter_cons_of_pos (by simpa using hx), ih]

theorem filter_ne_of_not_mem {γ : Type} (idOf : γ → Nat) (l : List γ) (v : Nat)
    (h : ∀ x ∈ l, idOf x ≠ v) :
    (l.filter fun x => idOf x ≠ v) = l := by
  induction l with
  | nil => rfl
  | cons x t ih =>
    rw [List.filter_cons_of_pos (by simpa using h x (List.mem_cons_self x t)),
      ih (fun x hx => h x (List.mem_cons_of_mem _ hx))]

theorem filter_notMem_cons {γ : Type} (idOf : γ → Nat) (l : List γ) (v : Nat)
    (vs : List Nat) :
    ((l.filter fun x => idOf x ≠ v).filter fun x => idOf x ∉ vs) =
    l.filter (fun x => idOf x ∉ v :: vs) := by
  induction l with
  | nil => rfl
  | cons x t ih =>
    by_cases hxv : idOf x = v
    · rw [List.filter_cons_of_neg (by simpa using hxv),
        List.filter_cons_of_neg (by simp [hxv]), ih]
    · by_cases hxvs : idOf x ∈ vs
      · rw [List.filter_cons_of_pos (by simpa using hxv),
          List.filter_cons_of_neg (by simpa using hxvs),
          List.filter_cons_of_neg (by simp [hxvs]), ih]
      · rw [List.filter_cons_of_pos (by simpa using hxv),
          List.filter_cons_of_pos (by simpa using hxvs),
          List.filter_cons_of_pos (by simp [hxv, hxvs]), ih]

theorem removeStep_some {dest : SceneId} {w : World} {nid : NodeId}
    (h : (getNodeW w dest nid).isSome) :
    removeStep dest w nid = removeNode w dest nid := by
  unfold removeStep
  rcases Option.isSome_iff_exists.mp h with ⟨x, hx⟩
  rw [hx]

theorem removeStep_none {dest : SceneId} {w : World} {nid : NodeId}
    (h : getNodeW w dest nid = none) :
    removeStep dest w nid = w := by
  unfold removeStep
  rw [h]

/-- The removal fold of rollback deletes exactly the recorded ids from the
destination scene, skipping unresolvable ids, and touches nothing else. -/
theorem removeFold_spec (dest : SceneId) (vals : List NodeId) :
    ∀ (w : World) (sd : Scene),
    getScene w dest = some sd →
    (∀ i ∈ sd.order, i ∈ sd.nodes.map fun n => n.id) →
    getScene (vals.foldl (removeStep dest) w) dest = some
      { sd with nodes := sd.nodes.filter (fun n => n.id ∉ vals),
                order := sd.order.filter (fun i => i ∉ vals) } ∧
    (∀ sid, sid ≠ dest →
      getScene (vals.foldl (removeStep dest) w) sid = getScene w sid) ∧
    (vals.foldl (removeStep dest) w).sources = w.sources ∧
    (vals.foldl (removeStep dest) w).nodeMaps = w.nodeMaps ∧
    (vals.foldl (removeStep dest) w).nextId = w.nextId ∧
    flagsOf (vals.foldl (removeStep dest) w) = flagsOf w := by
  induction vals with
  | nil =>
    intro w sd hdest _
    refine ⟨?_, fun _ _ => rfl, rfl, rfl, rfl, rfl⟩
    rw [List.foldl_nil, hdest]
    have h1 : sd.nodes.filter (fun n => n.id ∉ ([] : List NodeId)) = sd.nodes :=
      List.filter_eq_self.mpr (fun a _ => by simp)
    have h2 : sd.order.filter (fun i => i ∉ ([] : List NodeId)) = sd.order :=
      List.filter_eq_self.mpr (fun a _ => by simp)
    rw [h1, h2]
  | cons v vs ih =>
    intro w sd hdest hcover
    rw [List.foldl_cons]
    have key : getScene (removeStep dest w v) dest = some
        { sd with nodes := sd.nodes.filter (fun n => n.id ≠ v),
                  order := sd.order.filter (fun i => i ≠ v) } ∧
        (∀ sid, sid ≠ dest → getScene (removeStep dest w v) sid = getScene w sid) ∧
        (removeStep dest w v).sources = w.sources ∧
        (removeStep dest w v).nodeMaps = w.nodeMaps ∧
        (removeStep dest w v).nextId = w.nextId ∧
        flagsOf (removeStep dest w v) = flagsOf w := by
      cases hres : getNodeW w dest v with
      | some node =>
        rw [removeStep_some (by rw [hres]; rfl)]
        refine ⟨?_, ?_, rfl, rfl, rfl, ?_⟩
        · rw [getScene_removeNode, if_pos rfl, hdest]
          rfl
        · intro sid hs
          rw [getScene_removeNode, if_neg hs]
        · rw [removeNode]
          rfl
      | none =>
        rw [removeStep_none hres]
        have hnone : ∀ m ∈ sd.nodes, m.id ≠ v := by
          intro m hm
          unfold getNodeW at hres
          rw [hdest] at hres
          simp only [Option.some_bind] at hres
          have := List.find?_eq_none.mp hres m hm
          simpa using this
        have hordernone : ∀ i ∈ sd.order, i ≠ v := by
          intro i hi hiv
          rcases List.mem_map.mp (hcover i hi) with ⟨m, hm, hmi⟩
          exact hnone m hm (by rw [hmi, hiv])
        refine ⟨?_, fun _ _ => rfl, rfl, rfl, rfl, rfl⟩
        rw [hdest, filter_ne_of_not_mem (fun n => n.id) sd.nodes v hnone,
          filter_ne_of_not_mem (fun i => i) sd.order v hordernone]
    have hcover1 : ∀ i ∈ sd.order.filter (fun i => i ≠ v),
        i ∈ (sd.nodes.filter (fun n => n.id ≠ v)).map fun n => n.id := by
      intro i hi
      rw [map_id_filter_ne]
      rcases List.mem_filter.mp hi with ⟨hi1, hi2⟩
      exact List.mem_filter.mpr ⟨hcover i hi1, hi2⟩
    obtain ⟨c1, c2, c3, c4, c5, c6⟩ := ih (removeStep dest w v) _ key.1 hcover1
    refine ⟨?_, ?_, c3.trans key.2.2.1, c4.trans key.2.2.2.1,
      c5.trans key.2.2.2.2.1, c6.trans key.2.2.2.2.2⟩
    · rw [c1]
      rw [show ((sd.nodes.filter fun n => n.id ≠ v).filter fun n => n.id ∉ vs) =
        sd.nodes.filter (fun n => n.id ∉ v :: vs) from
        filter_notMem_cons (fun n => n.id) sd.nodes v vs]
      rw [show ((sd.order.filter fun i => i ≠ v).filter fun i => i ∉ vs) =
        sd.order.filter (fun i => i ∉ v :: vs) from ?_]
      have := filter_notMem_cons (fun i : NodeId => i) sd.order v vs
      exact this
    · intro sid hs
      rw [c2 sid hs, key.2.1 sid hs]

/-- Rollback on a world whose destination scene resolves: the recorded ids
are removed from the destination, other scenes are untouched, and the
destination node map is removed exactly when the destination has one. -/
theorem rollback_spec (c : CopyNodesCommand) (w : World) (sd : Scene)
    (hdest : getScene w c.destSceneId = some sd)
    (hcover : ∀ i ∈ sd.order, i ∈ sd.nodes.map fun n => n.id) :
    ∃ w', rollback c w = some w' ∧
      getScene w' c.destSceneId = some
        { sd with
          nodes := sd.nodes.filter
            (fun n => n.id ∉ c.nodeIdsMap.map Prod.snd),
          order := sd.order.filter
            (fun i => i ∉ c.nodeIdsMap.map Prod.snd) } ∧
      (∀ sid, sid ≠ c.destSceneId → getScene w' sid = getScene w sid) ∧
      w'.sources = w.sources ∧ w'.nextId = w.nextId ∧ flagsOf w' = flagsOf w ∧
      w'.nodeMaps = (if hasNodeMapW w c.destSceneId then
          w.nodeMaps.filter (fun p => p.1 ≠ c.destSceneId) else w.nodeMaps) := by
  obtain ⟨c1, c2, c3, c4, c5, c6⟩ :=
    removeFold_spec c.destSceneId (c.nodeIdsMap.map fun p => p.2) w sd hdest hcover
  have hmapseq : hasNodeMapW
      ((c.nodeIdsMap.map fun p => p.2).foldl (removeStep c.destSceneId) w)
      c.destSceneId = hasNodeMapW w c.destSceneId := by
    unfold hasNodeMapW getNodeMap
    rw [c4]
  unfold rollback
  rw [hdest]
  refine ⟨_, rfl, ?_, ?_, ?_, ?_, ?_, ?_⟩
  · rw [hmapseq]
    split
    · rw [getScene_removeNodeMap]
      exact c1
    · exact c1
  · intro sid hs
    rw [hmapseq]
    split
    · rw [getScene_removeNodeMap]
      exact c2 sid hs
    · exact c2 sid hs
  · rw [hmapseq]
    split
    · rw [removeNodeMap]
      exact c3
    · exact c3
  · rw [hmapseq]
    split
    · rw [removeNodeMap]
      exact c5
    · exact c5
  · rw [hmapseq]
    split
    · rw [removeNodeMap]
      exact c6
    · exact c6
  · rw [hmapseq]
    split
    · rw [removeNodeMap]
      exact congrArg (List.filter fun p => p.1 ≠ c.destSceneId) c4
    · exact c4

end Rollback

/-! ### Source duplication pass -/

section DupPass

theorem getSource_id {w : World} {i : SourceId} {s : Source}
    (h : getSource w i = some s) : s.id = i := by
  have := List.find?_some h
  simpa using this

theorem filterMap_getSource_ids (w : World) (l : List SourceId) (hl : l.Nodup) :
    ((l.filterMap (getSource w)).map fun s => s.id).Nodup ∧
    (∀ s ∈ l.filterMap (getSource w), s.id ∈ l ∧ getSource w s.id = some s) := by
  induction l with
  | nil => exact ⟨List.nodup_nil, fun s hs => absurd hs (by simp)⟩
  | cons a t ih =>
    obtain ⟨ihn, ihm⟩ := ih (List.nodup_cons.mp hl).2
    cases hres : getSource w a with
    | none =>
      rw [List.filterMap_cons_none hres]
      exact ⟨ihn, fun s hs => ⟨List.mem_cons_of_mem _ (ihm s hs).1, (ihm s hs).2⟩⟩
    | some src =>
      rw [List.filterMap_cons_some hres]
      have hid : src.id = a := getSource_id hres
      constructor
      · rw [List.map_cons]
        refine List.nodup_cons.mpr ⟨fun hmem => ?_, ihn⟩
        rcases List.mem_map.mp hmem with ⟨s, hs, hsid⟩
        have := (ihm s hs).1
        rw [hsid, hid] at this
        exact (List.nodup_cons.mp hl).1 this
      · intro s hs
        rcases List.mem_cons.mp hs with rfl | hs'
        · exact ⟨by rw [hid]; exact List.mem_cons_self a t, by rw [hid]; exact hres⟩
        · exact ⟨List.mem_cons_of_mem _ (ihm s hs').1, (ihm s hs').2⟩

theorem selSources_nodup (w : World) (sel : Selection) :
    (((selSources w sel).map fun s => s.id).Nodup) ∧
    (∀ s ∈ selSources w sel, getSource w s.id = some s) := by
  unfold selSources
  have hnd : ((((selNodes w sel).filter fun n => !n.isFolder).map
      fun n => n.sourceId).dedup).Nodup := List.nodup_dedup _
  obtain ⟨h1, h2⟩ := filterMap_getSource_ids w _ hnd
  exact ⟨h1, fun s hs => (h2 s hs).2⟩

theorem dupFold_spec (ss : List Source) :
    ∀ (w0 : World) (m0 : List (SourceId × SourceId)) (h0 : List (Option SourceId))
      (N : Nat),
    (ss.map fun s => s.id).Nodup →
    (∀ s ∈ ss, alookup m0 s.id = none) →
    N ≤ w0.nextId →
    ((ss.foldl dupStep ⟨m0, w0, h0⟩).map.map Prod.fst =
      m0.map Prod.fst ++ ss.map fun s => s.id) ∧
    (∀ s ∈ ss, ∃ v, alookup (ss.foldl dupStep ⟨m0, w0, h0⟩).map s.id = some v ∧
      (s.doNotDuplicate = true → v = s.id)) ∧
    (∀ k, (alookup m0 k).isSome →
      alookup (ss.foldl dupStep ⟨m0, w0, h0⟩).map k = alookup m0 k) ∧
    (ss.foldl dupStep ⟨m0, w0, h0⟩).world.scenes = w0.scenes ∧
    (ss.foldl dupStep ⟨m0, w0, h0⟩).world.nodeMaps = w0.nodeMaps ∧
    flagsOf (ss.foldl dupStep ⟨m0, w0, h0⟩).world = flagsOf w0 ∧
    N ≤ (ss.foldl dupStep ⟨m0, w0, h0⟩).world.nextId ∧
    (∀ x, x < N → getSource (ss.foldl dupStep ⟨m0, w0, h0⟩).world x =
      getSource w0 x) ∧
    (ss.foldl dupStep ⟨m0, w0, h0⟩).hints = h0 ++ ss.map (fun _ => none) := by
  induction ss with
  | nil =>
    intro w0 m0 h0 N _ _ hN
    exact ⟨by simp, fun s hs => absurd hs (by simp), fun _ _ => rfl, rfl, rfl, rfl,
      hN, fun _ _ => rfl, by simp⟩
  | cons s0 t ih =>
    intro w0 m0 h0 N hnd hm0 hN
    rw [List.foldl_cons]
    have hhint : alookup m0 s0.id = none := hm0 s0 (List.mem_cons_self s0 t)
    have hstep : dupStep ⟨m0, w0, h0⟩ s0 =
        ⟨aset m0 s0.id (if s0.doNotDuplicate then s0.id else w0.nextId),
         (if s0.doNotDuplicate then w0 else
           { w0 with
             sources := w0.sources ++ [{ id := w0.nextId, doNotDuplicate := false }]
             nextId := w0.nextId + 1 }),
         h0 ++ [none]⟩ := by
      unfold dupStep duplicateSource
      rw [hhint]
      cases hd : s0.doNotDuplicate with
      | true => simp
      | false =>
        simp only [Bool.false_eq_true, if_false, chooseId]
    rw [hstep]
    have hnd0 := List.nodup_cons.mp hnd
    have hm1 : ∀ s ∈ t, alookup (aset m0 s0.id
        (if s0.doNotDuplicate then s0.id else w0.nextId)) s.id = none := by
      intro s hs
      rw [alookup_aset_ne _ _ _ _ (fun he => hnd0.1 (by
        have hmem : s.id ∈ t.map (fun s => s.id) := List.mem_map_of_mem _ hs
        rw [← he] at hmem
        exact hmem))]
      exact hm0 s (List.mem_cons_of_mem _ hs)
    have hN1 : N ≤ (if s0.doNotDuplicate then w0 else
        { w0 with
          sources := w0.sources ++ [{ id := w0.nextId, doNotDuplicate := false }]
          nextId := w0.nextId + 1 }).nextId := by
      split
      · exact hN
      · exact Nat.le_succ_of_le hN
    obtain ⟨d1, d2, d3, d4, d5, d6, d7, d8, d9⟩ :=
      ih _ (aset m0 s0.id (if s0.doNotDuplicate then s0.id else w0.nextId))
        (h0 ++ [none]) N hnd0.2 hm1 hN1
    have haset : aset m0 s0.id (if s0.doNotDuplicate then s0.id else w0.nextId) =
        m0 ++ [(s0.id, if s0.doNotDuplicate then s0.id else w0.nextId)] :=
      aset_of_lookup_none _ _ _ hhint
    refine ⟨?_, ?_, ?_, ?_, ?_, ?_, d7, ?_, ?_⟩
    · rw [d1, haset]
      simp
    · intro s hs
      rcases List.mem_cons.mp hs with rfl | hs'
      · refine ⟨if s.doNotDuplicate then s.id else w0.nextId, ?_, ?_⟩
        · rw [d3 s.id (by rw [alookup_aset_self]; rfl), alookup_aset_self]
        · intro hd
          rw [if_pos hd]
      · exact d2 s hs'
    · intro k hk
      have hkne : s0.id ≠ k := by
        intro he
        rw [← he] at hk
        rw [hhint] at hk
        cases hk
      rw [d3 k (by rw [alookup_aset_ne _ _ _ _ hkne]; exact hk),
        alookup_aset_ne _ _ _ _ hkne]
    · rw [d4]
      split <;> rfl
    · rw [d5]
      split <;> rfl
    · rw [d6]
      split <;> rfl
    · intro x hx
      rw [d8 x hx]
      split
      · rfl
      · unfold getSource
        show List.find? _ (w0.sources ++ [_]) = _
        rw [find_append_single]
        have : ¬((({ id := w0.nextId, doNotDuplicate := false } : Source).id = x)) := by
          show ¬(w0.nextId = x)
          omega
        simp only [this, if_false]
        cases w0.sources.find? fun s => s.id = x <;> rfl
    · rw [d9]
      simp

end DupPass

/-! ### Selection and table lemmas -/

section SelTable

theorem selNodes_eq_filterMap (w : World) (sel : Selection) :
    selNodes w sel = sel.nodeIds.filterMap (getNodeW w sel.sceneId) := by
  unfold selNodes
  cases hs : getScene w sel.sceneId with
  | none =>
    have : ∀ a ∈ sel.nodeIds, getNodeW w sel.sceneId a = none := by
      intro a _
      unfold getNodeW
      rw [hs]
      rfl
    rw [List.filterMap_congr this]
    induction sel.nodeIds with
    | nil => rfl
    | cons a t ih => simpa using ih
  | some s =>
    apply List.filterMap_congr
    intro a _
    unfold getNodeW
    rw [hs]
    rfl

theorem selNodes_mem {w : World} {sel : Selection} {n : SceneNode}
    (h : n ∈ selNodes w sel) :
    n.id ∈ sel.nodeIds ∧ getNodeW w sel.sceneId n.id = some n := by
  rw [selNodes_eq_filterMap] at h
  rcases List.mem_filterMap.mp h with ⟨a, ha, hget⟩
  have := getNodeW_id hget
  rw [← this] at ha hget
  exact ⟨ha, hget⟩

theorem selNodes_ids_sublist (w : World) (sel : Selection) :
    ((selNodes w sel).map fun n => n.id).Sublist sel.nodeIds := by
  rw [selNodes_eq_filterMap]
  induction sel.nodeIds with
  | nil => simp
  | cons a t ih =>
    cases hres : getNodeW w sel.sceneId a with
    | none =>
      rw [List.filterMap_cons_none hres]
      exact ih.cons a
    | some n =>
      rw [List.filterMap_cons_some hres, List.map_cons, getNodeW_id hres]
      exact ih.cons₂ a

theorem selNodes_eq_of_getNodeW {w w' : World} (sel : Selection)
    (h : ∀ x ∈ sel.nodeIds, getNodeW w' sel.sceneId x = getNodeW w sel.sceneId x) :
    selNodes w' sel = selNodes w sel := by
  rw [selNodes_eq_filterMap, selNodes_eq_filterMap]
  exact List.filterMap_congr h

theorem selNodesFor_sublist (w : World) (sel : Selection) (b : Bool) :
    (selNodesFor w sel b).Sublist (selNodes w sel) := by
  unfold selNodesFor
  split
  · exact List.Sublist.refl _
  · exact List.filter_sublist _

theorem nim_keys (ns : List SceneNode) (ids : List NodeId)
    (hlen : ns.length = ids.length) :
    ((ns.zip ids).map fun p => (p.1.id, p.2)).map Prod.fst = ns.map fun n => n.id := by
  induction ns generalizing ids with
  | nil => simp
  | cons n t ih =>
    cases ids with
    | nil => simp at hlen
    | cons i it =>
      simp only [List.zip_cons_cons, List.map_cons, List.cons.injEq, true_and]
      exact ih it (by simpa using hlen)

theorem nim_lookup_none (ns : List SceneNode) (ids : List NodeId)
    (hlen : ns.length = ids.length) (x : NodeId)
    (hx : x ∉ ns.map fun n => n.id) :
    alookup ((ns.zip ids).map fun p => (p.1.id, p.2)) x = none := by
  apply alookup_eq_none_of_not_mem
  rw [nim_keys ns ids hlen]
  exact hx

theorem nim_lookup_self (ns : List SceneNode) (ids : List NodeId)
    (hnd : (ns.map fun n => n.id).Nodup) :
    ∀ n i, (n, i) ∈ ns.zip ids →
    alookup ((ns.zip ids).map fun p => (p.1.id, p.2)) n.id = some i := by
  induction ns generalizing ids with
  | nil => intro n i h; simp at h
  | cons n0 t ih =>
    intro n i h
    cases ids with
    | nil => simp at h
    | cons i0 it =>
      rw [List.zip_cons_cons] at h
      rcases List.mem_cons.mp h with heq | ht
      · cases heq
        simp
      · have hne : n0.id ≠ n.id := by
          intro he
          have : n.id ∈ t.map fun n => n.id :=
            List.mem_map_of_mem _ (List.of_mem_zip ht).1
          rw [← he] at this
          exact (List.nodup_cons.mp (by simpa using hnd)).1 this
        simp only [List.zip_cons_cons, List.map_cons, alookup_cons, if_neg hne]
        exact ih it (List.nodup_cons.mp (by simpa using hnd)).2 n i ht

theorem nim_lookup_mem {ns : List SceneNode} {ids : List NodeId} {x v : NodeId}
    (h : alookup ((ns.zip ids).map fun p => (p.1.id, p.2)) x = some v) :
    v ∈ ids ∧ x ∈ ns.map fun n => n.id := by
  have hmem := mem_of_lookup h
  rcases List.mem_map.mp hmem with ⟨p, hp, hpe⟩
  have h1 : p.1.id = x := congrArg Prod.fst hpe
  have h2 : p.2 = v := congrArg Prod.snd hpe
  obtain ⟨a, b⟩ := p
  exact ⟨h2 ▸ (List.of_mem_zip hp).2, h1 ▸ List.mem_map_of_mem _ (List.of_mem_zip hp).1⟩

theorem nim_inj (ns : List SceneNode) (ids : List NodeId)
    (hnd : (ns.map fun n => n.id).Nodup) (hids : ids.Nodup) :
    ∀ a b v, alookup ((ns.zip ids).map fun p => (p.1.id, p.2)) a = some v →
      alookup ((ns.zip ids).map fun p => (p.1.id, p.2)) b = some v → a = b := by
  induction ns generalizing ids with
  | nil => intro a b v ha; simp at ha
  | cons n0 t ih =>
    intro a b v ha hb
    cases ids with
    | nil => simp at ha
    | cons i0 it =>
      simp only [List.zip_cons_cons, List.map_cons, alookup_cons] at ha hb
      by_cases hae : n0.id = a
      · by_cases hbe : n0.id = b
        · rw [← hae, ← hbe]
        · rw [if_pos hae] at ha
          rw [if_neg hbe] at hb
          have hv : v = i0 := (Option.some.inj ha).symm
          rcases nim_lookup_mem hb with ⟨hvm, _⟩
          rw [hv] at hvm
          exact absurd hvm (List.nodup_cons.mp hids).1
      · by_cases hbe : n0.id = b
        · rw [if_neg hae] at ha
          rw [if_pos hbe] at hb
          have hv : v = i0 := (Option.some.inj hb).symm
          rcases nim_lookup_mem ha with ⟨hvm, _⟩
          rw [hv] at hvm
          exact absurd hvm (List.nodup_cons.mp hids).1
        · rw [if_neg hae] at ha
          rw [if_neg hbe] at hb
          exact ih it (List.nodup_cons.mp (by simpa using hnd)).2
            (List.nodup_cons.mp hids).2 a b v ha hb

theorem nim_values (ns : List SceneNode) (ids : List NodeId)
    (hlen : ns.length = ids.length) :
    ((ns.zip ids).map fun p => (p.1.id, p.2)).map Prod.snd = ids := by
  induction ns generalizing ids with
  | nil => cases ids with
    | nil => rfl
    | cons i it => simp at hlen
  | cons n t ih =>
    cases ids with
    | nil => simp at hlen
    | cons i it =>
      simp only [List.zip_cons_cons, List.map_cons, List.cons.injEq, true_and]
      exact ih it (by simpa using hlen)

theorem mem_ids_pair (ns : List SceneNode) (ids : List NodeId)
    (hlen : ns.length = ids.length) (i : NodeId) (hi : i ∈ ids) :
    ∃ n, (n, i) ∈ ns.zip ids := by
  induction ns generalizing ids with
  | nil =>
    cases ids with
    | nil => simp at hi
    | cons a t => simp at hlen
  | cons n t ih =>
    cases ids with
    | nil => simp at hi
    | cons i0 it =>
      rcases List.mem_cons.mp hi with rfl | hit
      · exact ⟨n, by simp⟩
      · rcases ih it (by simpa using hlen) hit with ⟨n', hn'⟩
        exact ⟨n', by simp [hn']⟩

theorem find_copy (f : SceneNode → NodeId → SceneNode)
    (hf : ∀ n i, (f n i).id = i) (ns : List SceneNode) (ids : List NodeId)
    (hids : ids.Nodup) :
    ∀ n i, (n, i) ∈ ns.zip ids →
    ((ns.zip ids).map fun p => f p.1 p.2).find? (fun x => x.id = i) = some (f n i) := by
  induction ns generalizing ids with
  | nil => intro n i h; simp at h
  | cons n0 t ih =>
    intro n i h
    cases ids with
    | nil => simp at h
    | cons i0 it =>
      rw [List.zip_cons_cons] at h
      rcases List.mem_cons.mp h with heq | ht
      · cases heq
        rw [List.zip_cons_cons, List.map_cons,
          List.find?_cons_of_pos _ (by simp [hf])]
      · have hne : i0 ≠ i := by
          intro he
          have : i ∈ it := (List.of_mem_zip ht).2
          rw [← he] at this
          exact (List.nodup_cons.mp hids).1 this

        rw [List.zip_cons_cons, List.map_cons,
          List.find?_cons_of_neg _ (by simp [hf, hne])]
        exact ih it (List.nodup_cons.mp hids).2 n i ht

end SelTable

/-! ### Glue lemmas towards the execute specification -/

section Glue

variable {α β : Type} [DecidableEq α]

theorem alookup_filter_self (l : List (α × β)) (k : α) :
    alookup (l.filter fun p => p.1 ≠ k) k = none := by
  induction l with
  | nil => rfl
  | cons x t ih =>
    by_cases hx : x.1 = k
    · rw [List.filter_cons_of_neg (by simpa using hx)]
      exact ih
    · rw [List.filter_cons_of_pos (by simpa using hx), alookup_cons, if_neg hx]
      exact ih

theorem alookup_filter_ne (l : List (α × β)) (k k' : α) (h : k' ≠ k) :
    alookup (l.filter fun p => p.1 ≠ k) k' = alookup l k' := by
  induction l with
  | nil => rfl
  | cons x t ih =>
    by_cases hx : x.1 = k
    · rw [List.filter_cons_of_neg (by simpa using hx), alookup_cons,
        if_neg (fun he => h (he.symm.trans hx)), ih]
    · rw [List.filter_cons_of_pos (by simpa using hx), alookup_cons, alookup_cons, ih]

theorem zip_map_ids (f : SceneNode → NodeId → SceneNode)
    (hf : ∀ n i, (f n i).id = i) (ns : List SceneNode) (ids : List NodeId)
    (hlen : ns.length = ids.length) :
    ((ns.zip ids).map fun p => f p.1 p.2).map (fun n => n.id) = ids := by
  induction ns generalizing ids with
  | nil =>
    cases ids with
    | nil => rfl
    | cons i it => simp at hlen
  | cons n t ih =>
    cases ids with
    | nil => simp at hlen
    | cons i it =>
      simp only [List.zip_cons_cons, List.map_cons, hf, List.cons.injEq, true_and]
      exact ih it (by simpa using hlen)

theorem nim_getD_eq (ns : List SceneNode) (ids : List NodeId)
    (hnd : (ns.map fun n => n.id).Nodup) (hlen : ns.length = ids.length) :
    ns.map (fun n => (alookup ((ns.zip ids).map fun p => (p.1.id, p.2)) n.id).getD 0)
      = ids := by
  induction ns generalizing ids with
  | nil =>
    cases ids with
    | nil => rfl
    | cons i it => simp at hlen
  | cons n0 t ih =>
    cases ids with
    | nil => simp at hlen
    | cons i0 it =>
      rw [List.map_cons] at hnd
      have hnd0 := List.nodup_cons.mp hnd
      have htail : ∀ n ∈ t,
          (alookup ((n0.id, i0) :: (t.zip it).map fun p => (p.1.id, p.2)) n.id).getD 0 =
          (alookup ((t.zip it).map fun p => (p.1.id, p.2)) n.id).getD 0 := by
        intro n hn
        rw [alookup_cons, if_neg (fun he => hnd0.1 (by
          rw [he]
          exact List.mem_map_of_mem _ hn))]
      rw [List.zip_cons_cons, List.map_cons, List.map_cons, alookup_cons, if_pos rfl,
        List.map_congr_left htail, ih it hnd0.2 (by simpa using hlen)]
      rfl

theorem filter_map_invariant (l : List SceneNode) (g : SceneNode → SceneNode)
    (q : SceneNode → Bool) (hq : ∀ n, q (g n) = q n)
    (hfix : ∀ n, q n = true → g n = n) :
    (l.map g).filter q = l.filter q := by
  induction l with
  | nil => rfl
  | cons x t ih =>
    by_cases hx : q x = true
    · rw [List.map_cons, List.filter_cons_of_pos (by rw [hq]; exact hx),
        List.filter_cons_of_pos hx, hfix x hx, ih]
    · rw [List.map_cons, List.filter_cons_of_neg (by rw [hq]; simpa using hx),
        List.filter_cons_of_neg (by simpa using hx), ih]

/-- Pointwise equality of the scene tables of two worlds. -/
def ScenesEq (w' w : World) : Prop :=
  ∀ sid, getScene w' sid = getScene w sid

theorem ScenesEq.nodeW {w' w : World} (h : ScenesEq w' w) (sid : SceneId)
    (nid : NodeId) : getNodeW w' sid nid = getNodeW w sid nid := by
  show (getScene w' sid).bind _ = (getScene w sid).bind _
  rw [h sid]

theorem ScenesEq.selNodesEq {w' w : World} (h : ScenesEq w' w) (sel : Selection) :
    selNodes w' sel = selNodes w sel := by
  apply selNodes_eq_of_getNodeW
  intro x _
  exact h.nodeW sel.sceneId x

theorem ScenesEq.displayEq {w' w : World} (h : ScenesEq w' w) (nid : NodeId)
    (sid : SceneId) : getNodeDisplay w' nid sid = getNodeDisplay w nid sid :=
  getNodeDisplay_eq_of_getNodeW _ _ _ _ (h.nodeW sid nid)

theorem selNodesFor_congr {w' w : World} (sel : Selection) (b : Bool)
    (hsel : selNodes w' sel = selNodes w sel)
    (hdisp : ∀ n ∈ selNodes w sel,
      getNodeDisplay w' n.id sel.sceneId = getNodeDisplay w n.id sel.sceneId)
    (hact : w'.activeDisplay = w.activeDisplay) :
    selNodesFor w' sel b = selNodesFor w sel b := by
  unfold selNodesFor
  cases b with
  | true => simpa using hsel
  | false =>
    simp only [Bool.false_eq_true, if_false]
    rw [hsel]
    apply List.filter_congr
    intro n hn
    rw [hdisp n hn, hact]

theorem selSources_congr {w' w : World} (sel : Selection)
    (hsel : selNodes w' sel = selNodes w sel)
    (hsrc : ∀ x, (getSource w x).isSome → getSource w' x = getSource w x)
    (hok : SelSourcesOk w sel) :
    selSources w' sel = selSources w sel := by
  unfold selSources
  rw [hsel]
  apply List.filterMap_congr
  intro x hx
  rcases List.mem_dedup.mp hx with hx'
  rcases List.mem_map.mp hx' with ⟨n, hn, rfl⟩
  have hnf : n.isFolder = false := by
    have := (List.mem_filter.mp hn).2
    simpa using this
  exact hsrc _ (hok n (List.mem_filter.mp hn).1 hnf)

theorem getSource_lt_of_isSome {w : World} (hWF : WF w) {x : SourceId}
    (h : (getSource w x).isSome) : x < w.nextId := by
  rcases Option.isSome_iff_exists.mp h with ⟨s, hs⟩
  have hid : s.id = x := by
    have := List.find?_some hs
    simpa using this
  have hmem : s ∈ w.sources := List.mem_of_find?_eq_some hs
  rw [← hid]
  exact hWF.2.2.2.1 s hmem

end Glue

/-! ### Node map bookkeeping of the migration and reorder passes -/

section MapGlue

theorem migMaps_lookup_ne (dest : SceneId) (ps : List (SceneNode × NodeId)) :
    ∀ (A : List (SceneId × NodeMap)) (sid : SceneId), sid ≠ dest →
    alookup (migMaps dest A ps) sid = alookup A sid := by
  induction ps with
  | nil => intro A sid _; rfl
  | cons p t ih =>
    intro A sid hs
    obtain ⟨n, i⟩ := p
    show alookup (migMaps dest (aset A dest _) t) sid = _
    rw [ih _ sid hs, alookup_aset_ne _ _ _ _ (fun he => hs he.symm)]

theorem migMaps_self (dest : SceneId) (ps : List (SceneNode × NodeId)) :
    ∀ A : List (SceneId × NodeMap),
    (alookup (migMaps dest A ps) dest).getD [] =
      ps.foldl (fun m p => aset m (some p.1.id) (some p.2)) ((alookup A dest).getD []) := by
  induction ps with
  | nil => intro A; rfl
  | cons p t ih =>
    intro A
    obtain ⟨n, i⟩ := p
    show (alookup (migMaps dest (aset A dest _) t) dest).getD [] = _
    rw [ih, alookup_aset_self, Option.getD_some]
    rfl

theorem asetFold_keep (ps : List (SceneNode × NodeId)) (k : Option NodeId) :
    ∀ m0 : NodeMap, (∀ p ∈ ps, some p.1.id ≠ k) →
    alookup (ps.foldl (fun m p => aset m (some p.1.id) (some p.2)) m0) k =
      alookup m0 k := by
  induction ps with
  | nil => intro m0 _; rfl
  | cons p t ih =>
    intro m0 hk
    rw [List.foldl_cons, ih _ (fun q hq => hk q (List.mem_cons_of_mem _ hq)),
      alookup_aset_ne _ _ _ _ (hk p (List.mem_cons_self p t))]

theorem asetFold_self (ps : List (SceneNode × NodeId))
    (hnd : (ps.map fun p => p.1.id).Nodup) :
    ∀ (m0 : NodeMap) (n : SceneNode) (i : NodeId), (n, i) ∈ ps →
    alookup (ps.foldl (fun m p => aset m (some p.1.id) (some p.2)) m0) (some n.id) =
      some (some i) := by
  induction ps with
  | nil => intro m0 n i h; cases h
  | cons p t ih =>
    intro m0 n i h
    rw [List.map_cons] at hnd
    have hnd0 := List.nodup_cons.mp hnd
    rcases List.mem_cons.mp h with rfl | ht
    · rw [List.foldl_cons,
        asetFold_keep t _ _ (fun q hq he => hnd0.1 (by
          rw [← Option.some.inj he]
          exact List.mem_map_of_mem _ hq)),
        alookup_aset_self]
    · rw [List.foldl_cons]
      exact ih hnd0.2 _ n i ht

theorem reorderMapPass_keepK (nim : List (NodeId × NodeId)) (dest srcSid : SceneId)
    (order : List NodeId) (k : Option NodeId) :
    ∀ (w : World) (acc0 : List (Option NodeId)),
    (∀ oid ∈ order, alookup nim oid ≠ k) →
    alookup (nodeMapOf
      (order.foldl (reorderMapStep nim dest srcSid) (w, acc0)).1 dest) k =
    alookup (nodeMapOf w dest) k := by
  induction order with
  | nil => intro w acc0 _; rfl
  | cons o t ih =>
    intro w acc0 hK
    rw [List.foldl_cons, reorderMapStep_eq]
    split
    · rw [ih _ _ (fun oid ho => hK oid (List.mem_cons_of_mem _ ho)),
        nodeMapOf_createNodeMapEntry_self]
      exact alookup_aset_ne _ _ _ _ (hK o (List.mem_cons_self o t))
    · exact ih _ _ (fun oid ho => hK oid (List.mem_cons_of_mem _ ho))

end MapGlue

/-! ### Further relinking pass lemmas -/

section RelinkGlue

/-- A copy is untouched by the relinking pass when every node translating to it
has a recorded parent that does not translate. -/
theorem relinkPass_untouched₂ {nim : List (NodeId × NodeId)} {dest : SceneId}
    (ms : List SceneNode) :
    ∀ w w', relinkPass nim dest w ms = some w' →
    ∀ cn, (∀ n ∈ ms, alookup nim n.id = some cn →
      n.parentId.bind (alookup nim) = none) →
    getNodeW w' dest cn = getNodeW w dest cn := by
  induction ms with
  | nil =>
    intro w w' hrun cn _
    cases hrun
    rfl
  | cons n0 t ih =>
    intro w w' hrun cn hno
    have hrun' : (relinkStep nim dest w n0 >>= fun b =>
        t.foldlM (relinkStep nim dest) b) = some w' := hrun
    rcases Option.bind_eq_some.mp hrun' with ⟨w1, hw1, hrest⟩
    have h1 : getNodeW w1 dest cn = getNodeW w dest cn := by
      rcases relinkStep_cases hw1 with ⟨rfl, _⟩ | ⟨p, cn0, hp0, _, hcn0, _, rfl⟩
      · rfl
      · rw [setParent]
        rw [getNodeW_modifyNode_ne]
        · intro y
          rfl
        · intro hc
          have hpn := hno n0 (List.mem_cons_self n0 t) (by rw [hcn0, hc.2])
          rw [hpn] at hp0
          cases hp0
    rw [ih w1 w' hrest cn (fun n hn => hno n (List.mem_cons_of_mem _ hn)), h1]

/-- The relinking pass keeps the destination scene record up to parent
references: same id, same order, same id pool, and the sublist of nodes whose
id no relinked node translates to is kept verbatim. -/
theorem relinkPass_scene_filter {nim : List (NodeId × NodeId)} {dest : SceneId}
    (q : NodeId → Bool) (ms : List SceneNode)
    (hq : ∀ n ∈ ms, ∀ cn, alookup nim n.id = some cn → q cn = false) :
    ∀ w w' s, relinkPass nim dest w ms = some w' → getScene w dest = some s →
    ∃ s2, getScene w' dest = some s2 ∧ s2.id = s.id ∧ s2.order = s.order ∧
      s2.nodes.filter (fun n => q n.id) = s.nodes.filter (fun n => q n.id) ∧
      s2.nodes.map (fun n => n.id) = s.nodes.map (fun n => n.id) := by
  induction ms with
  | nil =>
    intro w w' s hrun hs
    cases hrun
    exact ⟨s, hs, rfl, rfl, rfl, rfl⟩
  | cons n0 t ih =>
    intro w w' s hrun hs
    have hrun' : (relinkStep nim dest w n0 >>= fun b =>
        t.foldlM (relinkStep nim dest) b) = some w' := hrun
    rcases Option.bind_eq_some.mp hrun' with ⟨w1, hw1, hrest⟩
    have hstep : ∃ s1, getScene w1 dest = some s1 ∧ s1.id = s.id ∧
        s1.order = s.order ∧
        s1.nodes.filter (fun n => q n.id) = s.nodes.filter (fun n => q n.id) ∧
        s1.nodes.map (fun n => n.id) = s.nodes.map (fun n => n.id) := by
      rcases relinkStep_cases hw1 with ⟨rfl, _⟩ | ⟨p, cn0, _, _, hcn0, _, rfl⟩
      · exact ⟨s, hs, rfl, rfl, rfl, rfl⟩
      · rw [setParent]
        refine ⟨{ s with nodes := s.nodes.map fun n =>
            if n.id = cn0 then { n with parentId := some p } else n }, ?_, rfl, rfl,
            ?_, ?_⟩
        · rw [getScene_modifyNode, if_pos rfl, hs]
          rfl
        · apply filter_map_invariant
          · intro n
            by_cases hn : n.id = cn0 <;> simp [hn]
          · intro n hqn
            have hne : n.id ≠ cn0 := by
              intro he
              have hq0 := hq n0 (List.mem_cons_self n0 t) cn0 hcn0
              rw [← he] at hq0
              rw [hqn] at hq0
              cases hq0
            simp [hne]
        · rw [List.map_map]
          apply List.map_congr_left
          intro n _
          by_cases hn : n.id = cn0 <;> simp [hn]
    rcases hstep with ⟨s1, hs1, hid1, hord1, hfil1, hids1⟩
    rcases ih (fun n hn => hq n (List.mem_cons_of_mem _ hn)) w1 w' s1 hrest hs1 with
      ⟨s2, hs2, hid2, hord2, hfil2, hids2⟩
    exact ⟨s2, hs2, hid2.trans hid1, hord2.trans hord1, hfil2.trans hfil1,
      hids2.trans hids1⟩

/-- Displays are unchanged by a relink-preserving world step. -/
theorem RelinkPres.displayPres {dest : SceneId} {w w' : World}
    (h : RelinkPres dest w w') (nid : NodeId) (sid : SceneId) :
    getNodeDisplay w' nid sid = getNodeDisplay w nid sid := by
  have h8 := h.2.2.2.2.2.2.2.1 sid nid
  unfold getNodeDisplay
  cases hx : getNodeW w' sid nid with
  | none =>
    cases hy : getNodeW w sid nid with
    | none => rfl
    | some m =>
      rw [hx, hy] at h8
      simp at h8
  | some m =>
    cases hy : getNodeW w sid nid with
    | none =>
      rw [hx, hy] at h8
      simp at h8
    | some m' =>
      rw [hx, hy] at h8
      simp only [Option.map_some'] at h8
      have hmm := Option.some.inj h8
      have hd : (eraseParent m).display = (eraseParent m').display :=
        congrArg SceneNode.display hmm
      show m.display = m'.display
      exact hd

end RelinkGlue

/-! ### The run of execute on a fresh command -/

section ExecuteRun

theorem getSource_eq_of_sources {w w' : World} (h : w'.sources = w.sources)
    (x : SourceId) : getSource w' x = getSource w x := by
  unfold getSource
  rw [h]

theorem getNodeW_congr {w w' : World} {sid : SceneId}
    (h : getScene w' sid = getScene w sid) (nid : NodeId) :
    getNodeW w' sid nid = getNodeW w sid nid := by
  unfold getNodeW
  rw [h]

theorem copyOf_parent_none (mig : Bool) (srcSid : SceneId) (disp : Option TDisplayType)
    (smap : Option (List (SourceId × SourceId))) (w0 : World) (n : SceneNode)
    (i : NodeId) :
    { copyOf mig srcSid disp smap w0 n i with parentId := none } =
    copyOf mig srcSid disp smap w0 n i := by
  unfold copyOf
  cases hf : n.isFolder <;> rfl

/-- The complete effect of one successful run of execute on a command with
fresh translation tables: the result triple, the creation pass outcome, the
relinking pass outcome, the final destination scene, the preservation facts
and the shape of every copied node. -/
theorem execute_run (c : CopyNodesCommand) (w : World) (sd ss : Scene)
    (hWF : WF w) (hsel : SelWF w c.selection)
    (hnim0 : c.nodeIdsMap = []) (hsmap0 : c.sourceIdsMap = none)
    (hsd : getScene w c.destSceneId = some sd)
    (hss : getScene w c.selection.sceneId = some ss)
    (hok : SelSourcesOk w c.selection)
    (hsafe : RelinkSafe c w) :
    ∃ st w2 wF nodesF,
      execute c w = some
        ({ c with
            sourceIdsMap := smapOf c w
            nodeIdsMap := nimOf c w
            hasNodeMap := c.hasNodeMap || migOf c w }, wF, idsOf c w) ∧
      (nsOf c w).foldlM
        (createStep (migOf c w) c.destSceneId c.selection.sceneId c.display
          (smapOf c w)) ⟨baseWorldOf c w, c.nodeIdsMap, []⟩ = some st ∧
      st.nim = nimOf c w ∧
      st.inserted = idsOf c w ∧
      getScene st.world c.destSceneId = some
        { sd with
            nodes := sd.nodes ++ (((nsOf c w).zip (idsOf c w)).map fun p =>
              copyOf (migOf c w) c.selection.sceneId c.display (smapOf c w)
                (baseWorldOf c w) p.1 p.2)
            order := sd.order ++ idsOf c w } ∧
      st.world.nodeMaps = (if migOf c w ∧ c.display = some .vertical then
          migMaps c.destSceneId w.nodeMaps ((nsOf c w).zip (idsOf c w))
        else w.nodeMaps) ∧
      relinkPass (nimOf c w) c.destSceneId st.world (selNodes w c.selection) =
        some w2 ∧
      RelinkPres c.destSceneId st.world w2 ∧
      w2.nodeMaps = st.world.nodeMaps ∧
      sceneOrderOf w2 c.selection.sceneId = liveOrderOf c w ss.order ∧
      (∀ sid x, x < w.nextId → getNodeW w2 sid x = getNodeW w sid x) ∧
      getScene wF c.destSceneId = some
        { id := sd.id, nodes := nodesF,
          order := ss.order.filterMap (alookup (nimOf c w)) ++ sd.order } ∧
      nodesF.map (fun n => n.id) = sd.nodes.map (fun n => n.id) ++ idsOf c w ∧
      nodesF.filter (fun n => n.id ∉ (nimOf c w).map Prod.snd) = sd.nodes ∧
      (ss.order.filterMap (alookup (nimOf c w)) ++ sd.order).filter
        (fun i => i ∉ (nimOf c w).map Prod.snd) = sd.order ∧
      (∀ i ∈ ss.order.filterMap (alookup (nimOf c w)) ++ sd.order,
        i ∈ nodesF.map fun n => n.id) ∧
      (∀ sid, sid ≠ c.destSceneId → getScene wF sid = getScene w sid) ∧
      wF.sources = (baseWorldOf c w).sources ∧
      wF.nextId = (baseWorldOf c w).nextId + (nsOf c w).length ∧
      flagsOf wF = flagsOf w ∧
      w.nextId ≤ (baseWorldOf c w).nextId ∧
      (∀ x, (getSource w x).isSome → getSource wF x = getSource w x) ∧
      (∀ n i, (n, i) ∈ (nsOf c w).zip (idsOf c w) →
        getNodeW wF c.destSceneId i = some
          { copyOf (migOf c w) c.selection.sceneId c.display (smapOf c w)
              (baseWorldOf c w) n i with
            parentId := n.parentId.bind (alookup (nimOf c w)) }) ∧
      wF.nodeMaps = (if c.hasNodeMap || migOf c w then
          ((liveOrderOf c w ss.order).foldl
            (reorderMapStep (nimOf c w) c.destSceneId c.selection.sceneId)
            (w2, [])).1.nodeMaps
        else w2.nodeMaps) ∧
      ((nsOf c w).map fun n => n.id).Nodup ∧
      (∀ n ∈ nsOf c w, n.id < w.nextId) ∧
      (∀ n ∈ nsOf c w, n ∈ selNodes w c.selection) := by
  have hWFsd := hWF.2.1 sd (List.mem_of_find?_eq_some hsd)
  have hWFss := hWF.2.1 ss (List.mem_of_find?_eq_some hss)
  obtain ⟨d1, d2, d3, d4, d5, d6, d7, d8, d9⟩ :=
    dupFold_spec (selSources w c.selection) w [] [] w.nextId
      (selSources_nodup w c.selection).1 (fun s _ => rfl) (Nat.le_refl _)
  have hB1 : (baseWorldOf c w).scenes = w.scenes := by
    unfold baseWorldOf dupPass
    split
    · exact d4
    · rfl
  have hB2 : w.nextId ≤ (baseWorldOf c w).nextId := by
    unfold baseWorldOf dupPass
    split
    · exact d7
    · exact Nat.le_refl _
  have hB3 : (baseWorldOf c w).nodeMaps = w.nodeMaps := by
    unfold baseWorldOf dupPass
    split
    · exact d5
    · rfl
  have hB4 : flagsOf (baseWorldOf c w) = flagsOf w := by
    unfold baseWorldOf dupPass
    split
    · exact d6
    · rfl
  have hB5 : ∀ x, x < w.nextId → getSource (baseWorldOf c w) x = getSource w x := by
    intro x hx
    unfold baseWorldOf dupPass
    split
    · exact d8 x hx
    · rfl
  have hB6 : ∀ n ∈ selNodes w c.selection, n.isFolder = false →
      (resolveSourceId (smapOf c w) n.sourceId).isSome := by
    intro n hn hnf
    unfold smapOf
    split
    · rcases Option.isSome_iff_exists.mp (hok n hn hnf) with ⟨s, hs⟩
      have hsid : s.id = n.sourceId := by
        have := List.find?_some hs
        simpa using this
      have hmem : s ∈ selSources w c.selection := by
        unfold selSources
        apply List.mem_filterMap.mpr
        refine ⟨n.sourceId, ?_, hs⟩
        apply List.mem_dedup.mpr
        apply List.mem_map_of_mem
        apply List.mem_filter.mpr
        exact ⟨hn, by simp [hnf]⟩
      rcases d2 s hmem with ⟨v, hv, _⟩
      rw [hsid] at hv
      show (alookup (dupPass w c.selection).map n.sourceId).isSome
      unfold dupPass
      rw [hv]
      rfl
    · rw [hsmap0]
      rfl
  have hSE : ScenesEq (baseWorldOf c w) w := fun sid => getScene_eq_of_scenes hB1 sid
  have hsel_nodes : ∀ n ∈ selNodes w c.selection,
      getNodeW w c.selection.sceneId n.id = some n :=
    fun n hn => (selNodes_mem hn).2
  have hsel_lt : ∀ n ∈ selNodes w c.selection, n.id < w.nextId := by
    intro n hn
    have h2 := (selNodes_mem hn).2
    have hmem : n ∈ ss.nodes := by
      unfold getNodeW at h2
      rw [hss] at h2
      simp only [Option.some_bind] at h2
      exact List.mem_of_find?_eq_some h2
    exact hWFss.2.2.1 n hmem
  have hns_sel : ∀ n ∈ nsOf c w, n ∈ selNodes w c.selection := by
    intro n hn
    unfold nsOf at hn
    split at hn
    · rw [hSE.selNodesEq] at hn
      exact hn
    · have hsub := (selNodesFor_sublist (baseWorldOf c w) c.selection
        w.dualOutputMode).subset hn
      rw [hSE.selNodesEq] at hsub
      exact hsub
  have hbase_nodup : ((selNodes w c.selection).map fun n => n.id).Nodup :=
    hsel.1.sublist (selNodes_ids_sublist w c.selection)
  have hns_nodup : ((nsOf c w).map fun n => n.id).Nodup := by
    unfold nsOf
    split
    · rw [hSE.selNodesEq]
      exact hbase_nodup
    · have h1 := (selNodesFor_sublist (baseWorldOf c w) c.selection
        w.dualOutputMode).map (fun n => n.id)
      rw [hSE.selNodesEq] at h1
      exact hbase_nodup.sublist h1
  have hns_lt : ∀ n ∈ nsOf c w, n.id < w.nextId :=
    fun n hn => hsel_lt n (hns_sel n hn)
  have hns_src : ∀ n ∈ nsOf c w,
      n.isFolder = true ∨ (resolveSourceId (smapOf c w) n.sourceId).isSome := by
    intro n hn
    cases hf : n.isFolder
    · exact Or.inr (hB6 n (hns_sel n hn) hf)
    · exact Or.inl rfl
  have hsdB : getScene (baseWorldOf c w) c.destSceneId = some sd := by
    rw [getScene_eq_of_scenes hB1]
    exact hsd
  obtain ⟨st, hrun_cre, hst_nim0, hst_ins0, hst_next, hst_srcs, hst_flags,
      hst_ne, hst_scene0, hst_maps0, hst_pres⟩ :=
    createPass_fresh (migOf c w) c.destSceneId c.selection.sceneId c.display
      (smapOf c w) (nsOf c w) (baseWorldOf c w) c.nodeIdsMap [] sd hsdB hns_nodup
      (fun n hn => lt_of_lt_of_le (hns_lt n hn) hB2)
      (fun n hn => by rw [hnim0]; rfl)
      (fun m hm => lt_of_lt_of_le (hWFsd.2.2.1 m hm) hB2)
      hns_src
  have hst_nim : st.nim = nimOf c w := by
    rw [hst_nim0, hnim0, List.nil_append]
    rfl
  have hst_ins : st.inserted = idsOf c w := by
    rw [hst_ins0, List.nil_append]
    rfl
  have hst_scene : getScene st.world c.destSceneId = some
      { sd with
          nodes := sd.nodes ++ (((nsOf c w).zip (idsOf c w)).map fun p =>
            copyOf (migOf c w) c.selection.sceneId c.display (smapOf c w)
              (baseWorldOf c w) p.1 p.2)
          order := sd.order ++ idsOf c w } := hst_scene0
  have hst_maps : st.world.nodeMaps = (if migOf c w ∧ c.display = some .vertical then
      migMaps c.destSceneId w.nodeMaps ((nsOf c w).zip (idsOf c w))
    else w.nodeMaps) := by
    rw [hst_maps0, hB3]
    rfl
  have hlen : (nsOf c w).length = (idsOf c w).length := (newIds_length _ _).symm
  have hvals : (nimOf c w).map Prod.snd = idsOf c w := nim_values _ _ hlen
  have hid_lb : ∀ i ∈ idsOf c w, (baseWorldOf c w).nextId ≤ i :=
    fun i hi => (mem_newIds hi).1
  have hlookup_none_new : ∀ i ∈ idsOf c w, alookup (nimOf c w) i = none := by
    intro i hi
    apply nim_lookup_none _ _ hlen
    intro hmem
    rcases List.mem_map.mp hmem with ⟨n, hn, hni⟩
    have hni2 : n.id = i := hni
    have h1 : n.id < w.nextId := hns_lt n hn
    have h2 : (baseWorldOf c w).nextId ≤ i := hid_lb i hi
    have h3 : w.nextId ≤ (baseWorldOf c w).nextId := hB2
    rw [hni2] at h1
    exact absurd h1 (Nat.not_lt.mpr (h3.trans h2))
  have hlookup_self : ∀ n i, (n, i) ∈ (nsOf c w).zip (idsOf c w) →
      alookup (nimOf c w) n.id = some i := nim_lookup_self _ _ hns_nodup
  have hinj : ∀ a b v, alookup (nimOf c w) a = some v →
      alookup (nimOf c w) b = some v → a = b :=
    nim_inj _ _ hns_nodup (newIds_nodup _ _)
  have hfind : ∀ n i, (n, i) ∈ (nsOf c w).zip (idsOf c w) →
      getNodeW st.world c.destSceneId i =
      some (copyOf (migOf c w) c.selection.sceneId c.display (smapOf c w)
        (baseWorldOf c w) n i) := by
    intro n i hni
    unfold getNodeW
    rw [hst_scene]
    simp only [Option.some_bind]
    show (sd.nodes ++ _).find? _ = _
    rw [List.find?_append]
    have hnone : sd.nodes.find? (fun m => m.id = i) = none := by
      apply List.find?_eq_none.mpr
      intro m hm
      have h1 : m.id < w.nextId := hWFsd.2.2.1 m hm
      have h2 : (baseWorldOf c w).nextId ≤ i := hid_lb i (List.of_mem_zip hni).2
      have h3 : w.nextId ≤ (baseWorldOf c w).nextId := hB2
      simp only [decide_eq_true_eq]
      intro he
      rw [he] at h1
      exact absurd h1 (Nat.not_lt.mpr (h3.trans h2))
    rw [hnone]
    exact find_copy _ (fun n i => copyOf_id _ _ _ _ _ n i) _ _ (newIds_nodup _ _) n i hni
  have hcopyW : ∀ i ∈ idsOf c w, (getNodeW st.world c.destSceneId i).isSome := by
    intro i hi
    rcases mem_ids_pair (nsOf c w) (idsOf c w) hlen i hi with ⟨n, hn⟩
    rw [hfind n i hn]
    rfl
  have hms : selNodes st.world c.selection = selNodes w c.selection := by
    apply selNodes_eq_of_getNodeW
    intro x hx
    rw [hst_pres _ x (lt_of_lt_of_le (hsel.2 x hx) hB2), hSE.nodeW]
  have hsafe2 : ∀ n ∈ selNodes w c.selection, ∀ p,
      n.parentId.bind (alookup (nimOf c w)) = some p →
      (getNodeW st.world c.destSceneId p).isSome →
      ((alookup (nimOf c w) n.id).bind (getNodeW st.world c.destSceneId)).isSome := by
    intro n hn p hp _
    have h1 : (n.parentId.bind (alookup (nimOf c w))).isSome := by
      rw [hp]
      rfl
    have h2 := hsafe n hn h1
    rcases Option.isSome_iff_exists.mp h2 with ⟨cn, hcn⟩
    rw [hcn]
    simp only [Option.some_bind]
    exact hcopyW cn (nim_lookup_mem hcn).1
  obtain ⟨w2, hrel, hpres⟩ := relinkPass_run (selNodes w c.selection) st.world hsafe2
  have hold2 : ∀ sid x, x < w.nextId → getNodeW w2 sid x = getNodeW w sid x := by
    intro sid x hx
    by_cases hsid : sid = c.destSceneId
    · subst hsid
      have hunt := relinkPass_untouched (selNodes w c.selection) st.world w2 hrel x
        (fun n hn hcn => by
          have h1 := (nim_lookup_mem hcn).1
          have h2 := hid_lb x h1
          have h3 := hB2
          omega)
      rw [hunt, hst_pres _ x (lt_of_lt_of_le hx hB2), hSE.nodeW]
    · have hgs : getScene w2 sid = getScene st.world sid := hpres.2.2.2.2.1 sid hsid
      rw [getNodeW_congr hgs, hst_pres _ x (lt_of_lt_of_le hx hB2), hSE.nodeW]
  have hq : ∀ n ∈ selNodes w c.selection, ∀ cn,
      alookup (nimOf c w) n.id = some cn →
      (fun x => decide (x ∉ (nimOf c w).map Prod.snd)) cn = false := by
    intro n hn cn hcn
    simp only [decide_eq_false_iff_not, not_not]
    rw [hvals]
    exact (nim_lookup_mem hcn).1
  obtain ⟨s2, hs2, hs2id0, hs2order0, hs2filter, hs2ids⟩ :=
    relinkPass_scene_filter _ (selNodes w c.selection) hq st.world w2 _ hrel hst_scene
  have hs2id : s2.id = sd.id := hs2id0
  have hs2order : s2.order = sd.order ++ idsOf c w := hs2order0
  have hcopies_ids : (((nsOf c w).zip (idsOf c w)).map fun p =>
      copyOf (migOf c w) c.selection.sceneId c.display (smapOf c w)
        (baseWorldOf c w) p.1 p.2).map (fun n => n.id) = idsOf c w :=
    zip_map_ids _ (fun n i => copyOf_id _ _ _ _ _ n i) _ _ hlen
  have hsd_not_vals : ∀ m ∈ sd.nodes, m.id ∉ (nimOf c w).map Prod.snd := by
    intro m hm hmem
    rw [hvals] at hmem
    have h1 : (baseWorldOf c w).nextId ≤ m.id := hid_lb m.id hmem
    have h2 : m.id < w.nextId := hWFsd.2.2.1 m hm
    have h3 : w.nextId ≤ (baseWorldOf c w).nextId := hB2
    exact absurd h2 (Nat.not_lt.mpr (h3.trans h1))
  have hfil : s2.nodes.filter (fun n => n.id ∉ (nimOf c w).map Prod.snd) = sd.nodes := by
    have h : s2.nodes.filter (fun n => decide (n.id ∉ (nimOf c w).map Prod.snd)) =
        (sd.nodes ++ (((nsOf c w).zip (idsOf c w)).map fun p =>
          copyOf (migOf c w) c.selection.sceneId c.display (smapOf c w)
            (baseWorldOf c w) p.1 p.2)).filter
          (fun n => decide (n.id ∉ (nimOf c w).map Prod.snd)) := hs2filter
    have hfilter_sd : sd.nodes.filter
        (fun n => decide (n.id ∉ (nimOf c w).map Prod.snd)) = sd.nodes :=
      List.filter_eq_self.mpr (fun m hm => by
        simp only [decide_eq_true_eq]
        exact hsd_not_vals m hm)
    have hfilter_copies : ((((nsOf c w).zip (idsOf c w)).map fun p =>
        copyOf (migOf c w) c.selection.sceneId c.display (smapOf c w)
          (baseWorldOf c w) p.1 p.2).filter
        (fun n => decide (n.id ∉ (nimOf c w).map Prod.snd))) = [] :=
      List.filter_eq_nil_iff.mpr (fun x hx => by
        simp only [decide_eq_true_eq]
        intro hcon
        apply hcon
        rw [hvals, ← hcopies_ids]
        exact List.mem_map_of_mem _ hx)
    have hRHS : (sd.nodes ++ (((nsOf c w).zip (idsOf c w)).map fun p =>
        copyOf (migOf c w) c.selection.sceneId c.display (smapOf c w)
          (baseWorldOf c w) p.1 p.2)).filter
          (fun n => decide (n.id ∉ (nimOf c w).map Prod.snd)) = sd.nodes := by
      rw [List.filter_append, hfilter_sd, hfilter_copies, List.append_nil]
    exact h.trans hRHS
  have hids2 : s2.nodes.map (fun n => n.id) =
      sd.nodes.map (fun n => n.id) ++ idsOf c w := by
    have h : s2.nodes.map (fun n => n.id) =
        (sd.nodes ++ (((nsOf c w).zip (idsOf c w)).map fun p =>
          copyOf (migOf c w) c.selection.sceneId c.display (smapOf c w)
            (baseWorldOf c w) p.1 p.2)).map (fun n => n.id) := hs2ids
    rw [List.map_append, hcopies_ids] at h
    exact h
  have hss2E : ∃ ss2, getScene w2 c.selection.sceneId = some ss2 ∧
      ss2.order = liveOrderOf c w ss.order := by
    by_cases hds : c.destSceneId = c.selection.sceneId
    · refine ⟨s2, ?_, ?_⟩
      · rw [← hds]
        exact hs2
      · have hsdss : sd = ss := by
          rw [hds] at hsd
          rw [hsd] at hss
          exact Option.some.inj hss
        rw [hs2order, hsdss]
        unfold liveOrderOf
        rw [if_pos hds]
    · refine ⟨ss, ?_, ?_⟩
      · have h1 : getScene w2 c.selection.sceneId =
            getScene st.world c.selection.sceneId :=
          hpres.2.2.2.2.1 _ (fun he => hds he.symm)
        rw [h1, hst_ne _ (fun he => hds he.symm), getScene_eq_of_scenes hB1]
        exact hss
      · unfold liveOrderOf
        rw [if_neg hds, List.append_nil]
  obtain ⟨ss2, hss2, hss2order⟩ := hss2E
  have horder2 : sceneOrderOf w2 c.selection.sceneId = liveOrderOf c w ss.order := by
    unfold sceneOrderOf
    rw [hss2]
    exact hss2order
  have hNO : ss2.order.filterMap (alookup (nimOf c w)) =
      ss.order.filterMap (alookup (nimOf c w)) := by
    rw [hss2order]
    unfold liveOrderOf
    rw [List.filterMap_append]
    have hnil : (if c.destSceneId = c.selection.sceneId then idsOf c w
        else []).filterMap (alookup (nimOf c w)) = [] := by
      split
      · exact List.filterMap_eq_nil.mpr (fun i hi => hlookup_none_new i hi)
      · rfl
    rw [hnil, List.append_nil]
  have hnewOrder_vals : ∀ i ∈ ss.order.filterMap (alookup (nimOf c w)),
      i ∈ (nimOf c w).map Prod.snd := by
    intro i hi
    rcases List.mem_filterMap.mp hi with ⟨oid, _, hlk⟩
    rw [hvals]
    exact (nim_lookup_mem hlk).1
  have hsd_order_not : ∀ i ∈ sd.order, i ∉ (nimOf c w).map Prod.snd := by
    intro i hi hmem
    rw [hvals] at hmem
    have h1 : (baseWorldOf c w).nextId ≤ i := hid_lb i hmem
    have h2 : i < w.nextId := hWFsd.2.2.2.1 i hi
    have h3 : w.nextId ≤ (baseWorldOf c w).nextId := hB2
    exact absurd h2 (Nat.not_lt.mpr (h3.trans h1))
  have hA7 : (ss.order.filterMap (alookup (nimOf c w)) ++ sd.order).filter
      (fun i => i ∉ (nimOf c w).map Prod.snd) = sd.order := by
    rw [List.filter_append]
    rw [List.filter_eq_nil_iff.mpr (fun i hi => by
      simp only [decide_eq_true_eq]
      intro hcon
      exact hcon (hnewOrder_vals i hi)), List.nil_append]
    exact List.filter_eq_self.mpr (fun i hi => by
      simp only [decide_eq_true_eq]
      exact hsd_order_not i hi)
  have hA8 : ∀ i ∈ ss.order.filterMap (alookup (nimOf c w)) ++ sd.order,
      i ∈ s2.nodes.map fun n => n.id := by
    intro i hi
    rw [hids2]
    rcases List.mem_append.mp hi with hi | hi
    · apply List.mem_append_right
      have h1 := hnewOrder_vals i hi
      rw [hvals] at h1
      exact h1
    · exact List.mem_append_left _ (hWFsd.2.2.2.2 i hi)
  set wF : World := (if c.hasNodeMap || migOf c w then
      setNodesOrder (reorderMapPass (nimOf c w) c.destSceneId c.selection.sceneId
        w2 ss2.order).1 c.destSceneId
        ((reorderMapPass (nimOf c w) c.destSceneId c.selection.sceneId
          w2 ss2.order).2 ++ sd.order)
    else setNodesOrder w2 c.destSceneId
      (ss2.order.filterMap (alookup (nimOf c w)) ++ sd.order)) with hwFdef
  have hrw := reorderMapPass_world (nimOf c w) c.destSceneId c.selection.sceneId
    ss2.order w2 []
  have hrw_scenes : (reorderMapPass (nimOf c w) c.destSceneId c.selection.sceneId
      w2 ss2.order).1.scenes = w2.scenes := hrw.1
  have hrw_sources : (reorderMapPass (nimOf c w) c.destSceneId c.selection.sceneId
      w2 ss2.order).1.sources = w2.sources := hrw.2.1
  have hrw_next : (reorderMapPass (nimOf c w) c.destSceneId c.selection.sceneId
      w2 ss2.order).1.nextId = w2.nextId := hrw.2.2.1
  have hrw_flags : flagsOf (reorderMapPass (nimOf c w) c.destSceneId
      c.selection.sceneId w2 ss2.order).1 = flagsOf w2 := hrw.2.2.2.1
  have hpr2 : (reorderMapPass (nimOf c w) c.destSceneId c.selection.sceneId
      w2 ss2.order).2 = ss.order.filterMap (alookup (nimOf c w)) :=
    (reorderMapPass_order _ _ _ _ _).trans hNO
  have hsceneF : getScene wF c.destSceneId = some
      { id := sd.id, nodes := s2.nodes,
        order := ss.order.filterMap (alookup (nimOf c w)) ++ sd.order } := by
    rw [hwFdef]
    by_cases hbm : (c.hasNodeMap || migOf c w) = true
    · rw [if_pos hbm, getScene_setNodesOrder, if_pos rfl,
        getScene_eq_of_scenes hrw_scenes, hs2]
      simp only [Option.map_some']
      rw [hpr2, hs2id]
    · rw [if_neg hbm, getScene_setNodesOrder, if_pos rfl, hs2]
      simp only [Option.map_some']
      rw [hNO, hs2id]
  have hNe : ∀ sid, sid ≠ c.destSceneId → getScene wF sid = getScene w sid := by
    intro sid hsid
    have hbase2 : getScene w2 sid = getScene w sid := by
      rw [hpres.2.2.2.2.1 sid hsid, hst_ne sid hsid, getScene_eq_of_scenes hB1]
    rw [hwFdef]
    by_cases hbm : (c.hasNodeMap || migOf c w) = true
    · rw [if_pos hbm, getScene_setNodesOrder, if_neg hsid,
        getScene_eq_of_scenes hrw_scenes, hbase2]
    · rw [if_neg hbm, getScene_setNodesOrder, if_neg hsid, hbase2]
  have hsourcesF : wF.sources = (baseWorldOf c w).sources := by
    rw [hwFdef]
    by_cases hbm : (c.hasNodeMap || migOf c w) = true
    · rw [if_pos hbm]
      show (reorderMapPass (nimOf c w) c.destSceneId c.selection.sceneId
        w2 ss2.order).1.sources = _
      rw [hrw_sources, hpres.2.1, hst_srcs]
    · rw [if_neg hbm]
      show w2.sources = _
      rw [hpres.2.1, hst_srcs]
  have hnextF : wF.nextId = (baseWorldOf c w).nextId + (nsOf c w).length := by
    rw [hwFdef]
    by_cases hbm : (c.hasNodeMap || migOf c w) = true
    · rw [if_pos hbm]
      show (reorderMapPass (nimOf c w) c.destSceneId c.selection.sceneId
        w2 ss2.order).1.nextId = _
      rw [hrw_next, hpres.2.2.1, hst_next]
    · rw [if_neg hbm]
      show w2.nextId = _
      rw [hpres.2.2.1, hst_next]
  have hflagsF : flagsOf wF = flagsOf w := by
    rw [hwFdef]
    by_cases hbm : (c.hasNodeMap || migOf c w) = true
    · rw [if_pos hbm]
      show flagsOf (reorderMapPass (nimOf c w) c.destSceneId c.selection.sceneId
        w2 ss2.order).1 = _
      rw [hrw_flags, hpres.2.2.2.1, hst_flags, hB4]
    · rw [if_neg hbm]
      show flagsOf w2 = _
      rw [hpres.2.2.2.1, hst_flags, hB4]
  have hgetSourceF : ∀ x, (getSource w x).isSome → getSource wF x = getSource w x := by
    intro x hx
    have hlt := getSource_lt_of_isSome hWF hx
    rw [getSource_eq_of_sources hsourcesF, hB5 x hlt]
  have hA13 : ∀ n i, (n, i) ∈ (nsOf c w).zip (idsOf c w) →
      getNodeW wF c.destSceneId i = some
        { copyOf (migOf c w) c.selection.sceneId c.display (smapOf c w)
            (baseWorldOf c w) n i with
          parentId := n.parentId.bind (alookup (nimOf c w)) } := by
    intro n i hni
    have htrans : getNodeW wF c.destSceneId i = getNodeW w2 c.destSceneId i := by
      unfold getNodeW
      rw [hsceneF, hs2]
      rfl
    rw [htrans]
    cases hpn : n.parentId.bind (alookup (nimOf c w)) with
    | none =>
      have hunt := relinkPass_untouched₂ (selNodes w c.selection) st.world w2 hrel i
        (fun n' hn' hcn' => by
          have hkey : n'.id = n.id :=
            hinj n'.id n.id i hcn' (hlookup_self n i hni)
          have e1 := hsel_nodes n' hn'
          have e2 := hsel_nodes n (hns_sel n (List.of_mem_zip hni).1)
          rw [hkey] at e1
          rw [e1] at e2
          have hrec : n' = n := Option.some.inj e2
          rw [hrec]
          exact hpn)
      rw [hunt, hfind n i hni, copyOf_parent_none]
    | some p =>
      have hpmem : p ∈ idsOf c w := by
        cases hpid : n.parentId with
        | none =>
          rw [hpid] at hpn
          cases hpn
        | some pid =>
          rw [hpid] at hpn
          simp only [Option.some_bind] at hpn
          exact (nim_lookup_mem hpn).1
      have hres : (getNodeW st.world c.destSceneId p).isSome := hcopyW p hpmem
      have hset := relinkPass_parent_set (selNodes w c.selection) hbase_nodup hinj
        st.world w2 hrel n (hns_sel n (List.of_mem_zip hni).1) i p
        (hlookup_self n i hni) hpn hres
      rw [hset, hfind n i hni]
      rfl
  have hMapsF : wF.nodeMaps = (if c.hasNodeMap || migOf c w then
      ((liveOrderOf c w ss.order).foldl (reorderMapStep (nimOf c w) c.destSceneId
        c.selection.sceneId) (w2, [])).1.nodeMaps else w2.nodeMaps) := by
    rw [hwFdef, ← hss2order]
    by_cases hbm : (c.hasNodeMap || migOf c w) = true
    · rw [if_pos hbm, if_pos hbm]
      rfl
    · rw [if_neg hbm, if_neg hbm]
      rfl
  have hdp1 : (if c.duplicateSources = true then
      ((some (dupPass w c.selection).map : Option (List (SourceId × SourceId))),
        (dupPass w c.selection).world)
    else (c.sourceIdsMap, w)).1 = smapOf c w := by
    unfold smapOf
    cases c.duplicateSources <;> rfl
  have hdp2 : (if c.duplicateSources = true then
      ((some (dupPass w c.selection).map : Option (List (SourceId × SourceId))),
        (dupPass w c.selection).world)
    else (c.sourceIdsMap, w)).2 = baseWorldOf c w := by
    unfold baseWorldOf
    cases c.duplicateSources <;> rfl
  have hns_eq : (if migOf c w = true then selNodes (baseWorldOf c w) c.selection
      else selNodesFor (baseWorldOf c w) c.selection w.dualOutputMode) = nsOf c w := rfl
  have hmig_eq : (w.dualOutputMode && !c.hasNodeMap) = migOf c w := rfl
  have hEXEC : execute c w = some
      ({ c with
          sourceIdsMap := smapOf c w
          nodeIdsMap := nimOf c w
          hasNodeMap := c.hasNodeMap || migOf c w }, wF, idsOf c w) := by
    unfold execute
    rw [hsd]
    dsimp only
    rw [hmig_eq, hdp1, hdp2, hns_eq, hrun_cre]
    dsimp only
    rw [hst_nim, hms, hrel]
    dsimp only
    rw [hss2]
    dsimp only
    rw [hst_ins, hwFdef]
    split <;> rfl
  exact ⟨st, w2, wF, s2.nodes, hEXEC, hrun_cre, hst_nim, hst_ins, hst_scene,
    hst_maps, hrel, hpres, hpres.1, horder2, hold2, hsceneF, hids2, hfil, hA7, hA8,
    hNe, hsourcesF, hnextF, hflagsF, hB2, hgetSourceF, hA13, hMapsF, hns_nodup,
    hns_lt, hns_sel⟩

end ExecuteRun

/-! ### Execute followed by rollback -/

section ExecRoll

theorem mem_zip_of_mem_left {ns : List SceneNode} {ids : List NodeId}
    (hlen : ns.length = ids.length) {n : SceneNode} (hn : n ∈ ns) :
    ∃ i, (n, i) ∈ ns.zip ids := by
  induction ns generalizing ids with
  | nil => cases hn
  | cons n0 t ih =>
    cases ids with
    | nil => simp at hlen
    | cons i0 it =>
      rcases List.mem_cons.mp hn with rfl | ht
      · exact ⟨i0, by simp⟩
      · rcases ih (by simpa using hlen) ht with ⟨i, hi⟩
        exact ⟨i, by simp [hi]⟩

/-- Execute on a fresh command followed by rollback restores every scene of
the world exactly; sources, counter and flags are those left by execute. -/
theorem execRoll_spec (c : CopyNodesCommand) (w : World) (sd ss : Scene)
    (hWF : WF w) (hsel : SelWF w c.selection)
    (hnim0 : c.nodeIdsMap = []) (hsmap0 : c.sourceIdsMap = none)
    (hsd : getScene w c.destSceneId = some sd)
    (hss : getScene w c.selection.sceneId = some ss)
    (hok : SelSourcesOk w c.selection)
    (hsafe : RelinkSafe c w) :
    ∃ wF w', execute c w = some
      ({ c with
          sourceIdsMap := smapOf c w
          nodeIdsMap := nimOf c w
          hasNodeMap := c.hasNodeMap || migOf c w }, wF, idsOf c w) ∧
      rollback { c with
          sourceIdsMap := smapOf c w
          nodeIdsMap := nimOf c w
          hasNodeMap := c.hasNodeMap || migOf c w } wF = some w' ∧
      execRoll c w = some w' ∧
      (∀ sid, getScene w' sid = getScene w sid) ∧
      w'.sources = (baseWorldOf c w).sources ∧
      flagsOf w' = flagsOf w ∧
      w.nextId ≤ w'.nextId ∧
      (∀ x, (getSource w x).isSome → getSource w' x = getSource w x) := by
  obtain ⟨st, w2, wF, nodesF, hEXEC, _, _, _, _, _, _, _, _, _, _, hsceneF, _,
      hfil, hA7, hA8, hNe, hsourcesF, hnextF, hflagsF, hB2, hgetSourceF, _, _,
      _, _, _⟩ :=
    execute_run c w sd ss hWF hsel hnim0 hsmap0 hsd hss hok hsafe
  obtain ⟨w', hroll, hscene', hne', hsources', hnext', hflags', _⟩ :=
    rollback_spec { c with
        sourceIdsMap := smapOf c w
        nodeIdsMap := nimOf c w
        hasNodeMap := c.hasNodeMap || migOf c w } wF
      { id := sd.id, nodes := nodesF,
        order := ss.order.filterMap (alookup (nimOf c w)) ++ sd.order }
      hsceneF hA8
  have hdest' : getScene w' c.destSceneId = some sd := by
    rw [hscene']
    have h1 : nodesF.filter
        (fun n => n.id ∉ (nimOf c w).map Prod.snd) = sd.nodes := hfil
    have h2 : (ss.order.filterMap (alookup (nimOf c w)) ++ sd.order).filter
        (fun i => i ∉ (nimOf c w).map Prod.snd) = sd.order := hA7
    show some ({
        id := sd.id
        nodes := nodesF.filter (fun n => n.id ∉ (nimOf c w).map Prod.snd)
        order := (ss.order.filterMap (alookup (nimOf c w)) ++ sd.order).filter
          (fun i => i ∉ (nimOf c w).map Prod.snd) } : Scene) = some sd
    rw [h1, h2]
  refine ⟨wF, w', hEXEC, hroll, ?_, ?_, ?_, ?_, ?_, ?_⟩
  · unfold execRoll
    rw [hEXEC]
    simpa using hroll
  · intro sid
    by_cases hsid : sid = c.destSceneId
    · rw [hsid, hdest', hsd]
    · rw [hne' sid hsid, hNe sid hsid]
  · rw [hsources', hsourcesF]
  · rw [hflags', hflagsF]
  · rw [hnext', hnextF]
    calc w.nextId ≤ (baseWorldOf c w).nextId := hB2
    _ ≤ (baseWorldOf c w).nextId + (nsOf c w).length := Nat.le_add_right _ _
  · intro x hx
    have h1 : getSource w' x = getSource wF x :=
      getSource_eq_of_sources hsources' x
    rw [h1, hgetSourceF x hx]

end ExecRoll

/-! ### The second run of execute after rollback -/

section Rerun

/-- A second run of execute on the same command instance against a world in
which every scene reads as before the first run: the persisted node id table
is honored as creation hints, so the run succeeds, assigns exactly the same
new node ids as the first run and leaves the table unchanged. -/
theorem execute_rerun (c : CopyNodesCommand) (w w' : World) (sd ss : Scene)
    (hWF : WF w) (hsel : SelWF w c.selection)
    (hnim0 : c.nodeIdsMap = []) (hsmap0 : c.sourceIdsMap = none)
    (hsd : getScene w c.destSceneId = some sd)
    (hss : getScene w c.selection.sceneId = some ss)
    (hok : SelSourcesOk w c.selection)
    (hsafe : RelinkSafe c w)
    (hSEr : ∀ sid, getScene w' sid = getScene w sid)
    (hsrcr : ∀ x, (getSource w x).isSome → getSource w' x = getSource w x)
    (hflagsr : flagsOf w' = flagsOf w)
    (hnextr : w.nextId ≤ w'.nextId) :
    ∃ wF2, execute { c with
        sourceIdsMap := smapOf c w
        nodeIdsMap := nimOf c w
        hasNodeMap := c.hasNodeMap || migOf c w } w' = some
      ({ c with
          sourceIdsMap := (if c.duplicateSources = true then
              some (dupPass w' c.selection).map else smapOf c w)
          nodeIdsMap := nimOf c w
          hasNodeMap := c.hasNodeMap || migOf c w }, wF2, idsOf c w) := by
  have hWFsd := hWF.2.1 sd (List.mem_of_find?_eq_some hsd)
  have hWFss := hWF.2.1 ss (List.mem_of_find?_eq_some hss)
  have hselw' : selNodes w' c.selection = selNodes w c.selection :=
    ScenesEq.selNodesEq hSEr c.selection
  have hselSrc : selSources w' c.selection = selSources w c.selection :=
    selSources_congr c.selection hselw' hsrcr hok
  obtain ⟨d1, d2, d3, d4, d5, d6, d7, d8, d9⟩ :=
    dupFold_spec (selSources w c.selection) w [] [] w.nextId
      (selSources_nodup w c.selection).1 (fun s _ => rfl) (Nat.le_refl _)
  obtain ⟨e1, e2, e3, e4, e5, e6, e7, e8, e9⟩ :=
    dupFold_spec (selSources w' c.selection) w' [] [] w'.nextId
      (by rw [hselSrc]; exact (selSources_nodup w c.selection).1)
      (fun s _ => rfl) (Nat.le_refl _)
  set wB2 : World := (if c.duplicateSources = true then
      (dupPass w' c.selection).world else w') with hwB2def
  set smap2 : Option (List (SourceId × SourceId)) :=
    (if c.duplicateSources = true then
      some (dupPass w' c.selection).map else smapOf c w) with hsmap2def
  have hB1 : (baseWorldOf c w).scenes = w.scenes := by
    unfold baseWorldOf dupPass
    split
    · exact d4
    · rfl
  have hB2 : w.nextId ≤ (baseWorldOf c w).nextId := by
    unfold baseWorldOf dupPass
    split
    · exact d7
    · exact Nat.le_refl _
  have hB4 : flagsOf (baseWorldOf c w) = flagsOf w := by
    unfold baseWorldOf dupPass
    split
    · exact d6
    · rfl
  have hSE1 : ScenesEq (baseWorldOf c w) w := fun sid => getScene_eq_of_scenes hB1 sid
  have hB1' : wB2.scenes = w'.scenes := by
    rw [hwB2def]
    unfold dupPass
    split
    · exact e4
    · rfl
  have hB2' : w'.nextId ≤ wB2.nextId := by
    rw [hwB2def]
    unfold dupPass
    split
    · exact e7
    · exact Nat.le_refl _
  have hB4' : flagsOf wB2 = flagsOf w' := by
    rw [hwB2def]
    unfold dupPass
    split
    · exact e6
    · rfl
  have hSE2 : ScenesEq wB2 w := fun sid =>
    (getScene_eq_of_scenes hB1' sid).trans (hSEr sid)
  have hdm' : w'.dualOutputMode = w.dualOutputMode :=
    congrArg (fun p => p.1) hflagsr
  have hact1 : (baseWorldOf c w).activeDisplay = w.activeDisplay :=
    congrArg (fun p => p.2.1) hB4
  have hact2 : wB2.activeDisplay = w.activeDisplay :=
    congrArg (fun p => p.2.1) (hB4'.trans hflagsr)
  have hnsFor1 : ∀ b, selNodesFor (baseWorldOf c w) c.selection b =
      selNodesFor w c.selection b := fun b =>
    selNodesFor_congr c.selection b (hSE1.selNodesEq c.selection)
      (fun n _ => hSE1.displayEq n.id c.selection.sceneId) hact1
  have hnsFor2 : ∀ b, selNodesFor wB2 c.selection b =
      selNodesFor w c.selection b := fun b =>
    selNodesFor_congr c.selection b (hSE2.selNodesEq c.selection)
      (fun n _ => hSE2.displayEq n.id c.selection.sceneId) hact2
  have hmigE : (w'.dualOutputMode && !(c.hasNodeMap || migOf c w)) = false := by
    rw [hdm']
    unfold migOf
    cases w.dualOutputMode <;> cases c.hasNodeMap <;> rfl
  have hns2 : selNodesFor wB2 c.selection w'.dualOutputMode = nsOf c w := by
    rw [hdm', hnsFor2 w.dualOutputMode]
    unfold nsOf
    by_cases hmg : migOf c w = true
    · rw [if_pos hmg]
      have hdual : w.dualOutputMode = true := by
        have h : (w.dualOutputMode && !c.hasNodeMap) = true := hmg
        cases hw : w.dualOutputMode
        · rw [hw] at h
          cases h
        · rfl
      rw [hdual, hSE1.selNodesEq]
      rfl
    · rw [if_neg hmg]
      exact (hnsFor1 w.dualOutputMode).symm
  have hns_sel : ∀ n ∈ nsOf c w, n ∈ selNodes w c.selection := by
    intro n hn
    unfold nsOf at hn
    split at hn
    · rw [hSE1.selNodesEq] at hn
      exact hn
    · have hsub := (selNodesFor_sublist (baseWorldOf c w) c.selection
        w.dualOutputMode).subset hn
      rw [hSE1.selNodesEq] at hsub
      exact hsub
  have hbase_nodup : ((selNodes w c.selection).map fun n => n.id).Nodup :=
    hsel.1.sublist (selNodes_ids_sublist w c.selection)
  have hns_nodup : ((nsOf c w).map fun n => n.id).Nodup := by
    unfold nsOf
    split
    · rw [hSE1.selNodesEq]
      exact hbase_nodup
    · have h1 := (selNodesFor_sublist (baseWorldOf c w) c.selection
        w.dualOutputMode).map (fun n => n.id)
      rw [hSE1.selNodesEq] at h1
      exact hbase_nodup.sublist h1
  have hsel_lt : ∀ n ∈ selNodes w c.selection, n.id < w.nextId := by
    intro n hn
    have h2 := (selNodes_mem hn).2
    have hmem : n ∈ ss.nodes := by
      unfold getNodeW at h2
      rw [hss] at h2
      simp only [Option.some_bind] at h2
      exact List.mem_of_find?_eq_some h2
    exact hWFss.2.2.1 n hmem
  have hns_lt : ∀ n ∈ nsOf c w, n.id < w.nextId :=
    fun n hn => hsel_lt n (hns_sel n hn)
  have hlen : (nsOf c w).length = (idsOf c w).length := (newIds_length _ _).symm
  have hid_lb : ∀ i ∈ idsOf c w, w.nextId ≤ i := by
    intro i hi
    have h1 := (mem_newIds hi).1
    exact hB2.trans h1
  have hlookup_self : ∀ n i, (n, i) ∈ (nsOf c w).zip (idsOf c w) →
      alookup (nimOf c w) n.id = some i := nim_lookup_self _ _ hns_nodup
  have hinj : ∀ a b v, alookup (nimOf c w) a = some v →
      alookup (nimOf c w) b = some v → a = b :=
    nim_inj _ _ hns_nodup (newIds_nodup _ _)
  have hsdB2 : getScene wB2 c.destSceneId = some sd := by
    rw [hSE2 c.destSceneId]
    exact hsd
  have hhint : ∀ n ∈ nsOf c w, (alookup (nimOf c w) n.id).isSome := by
    intro n hn
    rcases mem_zip_of_mem_left hlen hn with ⟨i, hi⟩
    rw [hlookup_self n i hi]
    rfl
  have hvp : ∀ n ∈ nsOf c w, ∀ h, alookup (nimOf c w) n.id = some h →
      ∀ m ∈ sd.nodes, m.id ≠ h := by
    intro n _ h hh m hm he
    have h1 : h ∈ idsOf c w := (nim_lookup_mem hh).1
    have h2 : w.nextId ≤ h := hid_lb h h1
    have h3 : m.id < w.nextId := hWFsd.2.2.1 m hm
    rw [he] at h3
    exact absurd h3 (Nat.not_lt.mpr h2)
  have hvn : ∀ n ∈ nsOf c w, ∀ h, alookup (nimOf c w) n.id = some h →
      ∀ n' ∈ nsOf c w, n'.id ≠ h := by
    intro n _ h hh n' hn' he
    have h1 : h ∈ idsOf c w := (nim_lookup_mem hh).1
    have h2 : w.nextId ≤ h := hid_lb h h1
    have h3 : n'.id < w.nextId := hns_lt n' hn'
    rw [he] at h3
    exact absurd h3 (Nat.not_lt.mpr h2)
  have hsrc2 : ∀ n ∈ nsOf c w,
      n.isFolder = true ∨ (resolveSourceId smap2 n.sourceId).isSome := by
    intro n hn
    cases hf : n.isFolder
    · refine Or.inr ?_
      rw [hsmap2def]
      split
      · rcases Option.isSome_iff_exists.mp (hok n (hns_sel n hn) hf) with ⟨s, hs⟩
        have hsid : s.id = n.sourceId := by
          have := List.find?_some hs
          simpa using this
        have hmem : s ∈ selSources w' c.selection := by
          rw [hselSrc]
          unfold selSources
          apply List.mem_filterMap.mpr
          refine ⟨n.sourceId, ?_, hs⟩
          apply List.mem_dedup.mpr
          apply List.mem_map_of_mem
          apply List.mem_filter.mpr
          exact ⟨hns_sel n hn, by simp [hf]⟩
        rcases e2 s hmem with ⟨v, hv, _⟩
        rw [hsid] at hv
        show (alookup (dupPass w' c.selection).map n.sourceId).isSome
        unfold dupPass
        rw [hv]
        rfl
      · show (resolveSourceId (smapOf c w) n.sourceId).isSome
        unfold smapOf
        rename_i hneg
        rw [if_neg hneg, hsmap0]
        rfl
    · exact Or.inl rfl
  obtain ⟨st2, hrun2, hst2_nim, hst2_ins0, hst2_next, hst2_srcs, hst2_flags,
      hst2_ne, hst2_scene0, hst2_pres0⟩ :=
    createPass_hinted false c.destSceneId c.selection.sceneId c.display
      smap2 (nsOf c w) wB2 (nimOf c w) [] sd
      hsdB2 hns_nodup hhint hinj hvp hvn hsrc2
  have hgetD : (nsOf c w).map (fun n => (alookup (nimOf c w) n.id).getD 0) =
      idsOf c w := nim_getD_eq (nsOf c w) (idsOf c w) hns_nodup hlen
  have hst2_ins : st2.inserted = idsOf c w := by
    rw [hst2_ins0, List.nil_append, hgetD]
  rw [hgetD] at hst2_scene0 hst2_pres0
  have hfind2 : ∀ n i, (n, i) ∈ (nsOf c w).zip (idsOf c w) →
      getNodeW st2.world c.destSceneId i =
      some (copyOf false c.selection.sceneId c.display smap2 wB2 n i) := by
    intro n i hni
    unfold getNodeW
    rw [hst2_scene0]
    simp only [Option.some_bind]
    show (sd.nodes ++ _).find? _ = _
    rw [List.find?_append]
    have hnone : sd.nodes.find? (fun m => m.id = i) = none := by
      apply List.find?_eq_none.mpr
      intro m hm
      have h1 : m.id < w.nextId := hWFsd.2.2.1 m hm
      have h2 : w.nextId ≤ i := hid_lb i (List.of_mem_zip hni).2
      simp only [decide_eq_true_eq]
      intro he
      rw [he] at h1
      exact absurd h1 (Nat.not_lt.mpr h2)
    rw [hnone]
    exact find_copy _ (fun n i => copyOf_id _ _ _ _ _ n i) _ _ (newIds_nodup _ _) n i hni
  have hcopyW2 : ∀ i ∈ idsOf c w, (getNodeW st2.world c.destSceneId i).isSome := by
    intro i hi
    rcases mem_ids_pair (nsOf c w) (idsOf c w) hlen i hi with ⟨n, hn⟩
    rw [hfind2 n i hn]
    rfl
  have hms2 : selNodes st2.world c.selection = selNodes w c.selection := by
    apply selNodes_eq_of_getNodeW
    intro x hx
    have hxlt : x < w.nextId := hsel.2 x hx
    have hnotin : x ∉ idsOf c w := by
      intro hmem
      exact absurd hxlt (Nat.not_lt.mpr (hid_lb x hmem))
    rw [hst2_pres0 _ x hnotin, hSE2.nodeW]
  have hsafe2 : ∀ n ∈ selNodes w c.selection, ∀ p,
      n.parentId.bind (alookup (nimOf c w)) = some p →
      (getNodeW st2.world c.destSceneId p).isSome →
      ((alookup (nimOf c w) n.id).bind (getNodeW st2.world c.destSceneId)).isSome := by
    intro n hn p hp _
    have h1 : (n.parentId.bind (alookup (nimOf c w))).isSome := by
      rw [hp]
      rfl
    have h2 := hsafe n hn h1
    rcases Option.isSome_iff_exists.mp h2 with ⟨cn, hcn⟩
    rw [hcn]
    simp only [Option.some_bind]
    exact hcopyW2 cn (nim_lookup_mem hcn).1
  obtain ⟨w2b, hrel2, hpres2⟩ := relinkPass_run (selNodes w c.selection) st2.world hsafe2
  have hsrcScene2 : ∃ ss2b, getScene w2b c.selection.sceneId = some ss2b := by
    by_cases hds : c.destSceneId = c.selection.sceneId
    · have h1 : (getScene st2.world c.selection.sceneId).isSome := by
        rw [← hds, hst2_scene0]
        rfl
      have hiso := hpres2.2.2.2.2.2.2.2.2 c.selection.sceneId
      rw [h1] at hiso
      exact Option.isSome_iff_exists.mp hiso
    · have h2 : getScene w2b c.selection.sceneId =
          getScene st2.world c.selection.sceneId :=
        hpres2.2.2.2.2.1 _ (fun he => hds he.symm)
      rw [h2, hst2_ne _ (fun he => hds he.symm), hSE2 c.selection.sceneId]
      exact ⟨ss, hss⟩
  obtain ⟨ss2b, hss2b⟩ := hsrcScene2
  have hsdw' : getScene w' c.destSceneId = some sd := by
    rw [hSEr]
    exact hsd
  have hdp1' : (if c.duplicateSources = true then
      ((some (dupPass w' c.selection).map : Option (List (SourceId × SourceId))),
        (dupPass w' c.selection).world)
    else (smapOf c w, w')).1 = smap2 := by
    rw [hsmap2def]
    cases c.duplicateSources <;> rfl
  have hdp2' : (if c.duplicateSources = true then
      ((some (dupPass w' c.selection).map : Option (List (SourceId × SourceId))),
        (dupPass w' c.selection).world)
    else (smapOf c w, w')).2 = wB2 := by
    rw [hwB2def]
    cases c.duplicateSources <;> rfl
  refine ⟨(if (c.hasNodeMap || migOf c w) = true then
      setNodesOrder (reorderMapPass (nimOf c w) c.destSceneId c.selection.sceneId
        w2b ss2b.order).1 c.destSceneId
        ((reorderMapPass (nimOf c w) c.destSceneId c.selection.sceneId
          w2b ss2b.order).2 ++ sd.order)
    else setNodesOrder w2b c.destSceneId
      (ss2b.order.filterMap (alookup (nimOf c w)) ++ sd.order)), ?_⟩
  unfold execute
  rw [hsdw']
  dsimp only
  rw [hmigE, hdp1', hdp2']
  rw [show (if (false : Bool) = true then selNodes wB2 c.selection
      else selNodesFor wB2 c.selection w'.dualOutputMode) = nsOf c w from by
    rw [if_neg Bool.false_ne_true]
    exact hns2]
  rw [hrun2]
  dsimp only
  rw [hst2_nim, hms2, hrel2]
  dsimp only
  rw [hss2b]
  dsimp only
  rw [hst2_ins, Bool.or_false]
  split <;> rfl

end Rerun

/-! ### Concrete worlds used by the claim instances -/

section Worlds

/-- An item under a folder in the source scene of the sample world. -/
def nA : SceneNode :=
  { id := 1, name := "a", parentId := some 2, isFolder := false, sourceId := 7,
    display := .horizontal, posX := 3, posY := 4, output := 0, payload := 9 }

/-- The folder of the sample world. -/
def nF : SceneNode :=
  { id := 2, name := "f", parentId := none, isFolder := true, sourceId := 0,
    display := .horizontal, posX := 0, posY := 0, output := 0, payload := 0 }

/-- A pre-existing node of the destination scene of the sample world. -/
def nD : SceneNode :=
  { id := 9, name := "d", parentId := none, isFolder := false, sourceId := 8,
    display := .horizontal, posX := 0, posY := 0, output := 0, payload := 0 }

/-- The source scene of the sample world. -/
def ssW : Scene := { id := 0, nodes := [nA, nF], order := [1, 2] }

/-- The destination scene of the sample world. -/
def sdW : Scene := { id := 5, nodes := [nD], order := [9] }

/-- The sample world: a vanilla two-scene setup outside dual output mode. -/
def wW : World :=
  { scenes := [ssW, sdW], sources := [⟨7, false⟩, ⟨8, false⟩], nodeMaps := [],
    dualOutputMode := false, activeDisplay := .horizontal,
    ctxHorizontal := 100, ctxVertical := 200, nextId := 10 }

/-- The selection of both source-scene nodes. -/
def selW : Selection := { sceneId := 0, nodeIds := [1, 2] }

/-- A fresh copy command on the sample world, without source duplication. -/
def cW : CopyNodesCommand := mkCopyNodesCommand wW selW 5 false none

/-- A fresh copy command on the sample world, with source duplication. -/
def cW9 : CopyNodesCommand := mkCopyNodesCommand wW selW 5 true none

/-- The sample world with the selected source marked non-duplicable. -/
def wW7 : World :=
  { scenes := [ssW, sdW], sources := [⟨7, true⟩, ⟨8, false⟩], nodeMaps := [],
    dualOutputMode := false, activeDisplay := .horizontal,
    ctxHorizontal := 100, ctxVertical := 200, nextId := 10 }

/-- A duplicating copy command over the non-duplicable source. -/
def cW7 : CopyNodesCommand := mkCopyNodesCommand wW7 selW 5 true none

/-- The single source-scene item of the migration scenario world. -/
def n3a : SceneNode :=
  { id := 1, name := "a", parentId := none, isFolder := false, sourceId := 7,
    display := .horizontal, posX := 3, posY := 4, output := 0, payload := 9 }

/-- A dual-output world whose source scene has no node map yet. -/
def w3C : World :=
  { scenes := [⟨0, [n3a], [1]⟩, ⟨2, [], []⟩], sources := [⟨7, false⟩],
    nodeMaps := [],
    dualOutputMode := true, activeDisplay := .horizontal,
    ctxHorizontal := 100, ctxVertical := 200, nextId := 10 }

/-- The migration copy command: forced display vertical. -/
def c3C : CopyNodesCommand := mkCopyNodesCommand w3C ⟨0, [1]⟩ 2 false (some .vertical)

/-- A horizontal folder whose vertical twin exists but is not selected. -/
def n5h : SceneNode :=
  { id := 1, name := "h", parentId := none, isFolder := true, sourceId := 0,
    display := .horizontal, posX := 0, posY := 0, output := 0, payload := 0 }

/-- The vertical twin, not part of the selection. -/
def n5v : SceneNode :=
  { id := 2, name := "v", parentId := none, isFolder := true, sourceId := 0,
    display := .vertical, posX := 0, posY := 0, output := 0, payload := 0 }

/-- A dual-output world with a node map on the source scene. -/
def w5C : World :=
  { scenes := [⟨0, [n5h, n5v], [1, 2]⟩, ⟨5, [], []⟩], sources := [],
    nodeMaps := [(0, [(some 1, some 2)])],
    dualOutputMode := true, activeDisplay := .horizontal,
    ctxHorizontal := 100, ctxVertical := 200, nextId := 10 }

/-- A copy of only the horizontal node, leaving its twin behind. -/
def c5C : CopyNodesCommand := mkCopyNodesCommand w5C ⟨0, [1]⟩ 5 false none

/-- The single source-scene node of the rollback map scenario. -/
def n6a : SceneNode :=
  { id := 1, name := "a", parentId := none, isFolder := true, sourceId := 0,
    display := .horizontal, posX := 0, posY := 0, output := 0, payload := 0 }

/-- A world whose destination scene carries a pre-existing node map. -/
def w6C : World :=
  { scenes := [⟨0, [n6a], [1]⟩, ⟨5, [], []⟩], sources := [],
    nodeMaps := [(5, [(some 3, some 4)])],
    dualOutputMode := false, activeDisplay := .horizontal,
    ctxHorizontal := 100, ctxVertical := 200, nextId := 10 }

/-- A vanilla copy into the mapped destination scene. -/
def c6C : CopyNodesCommand := mkCopyNodesCommand w6C ⟨0, [1]⟩ 5 false none

/-- The horizontal item of the dual-output reorder scenario. -/
def n4h : SceneNode :=
  { id := 1, name := "x", parentId := none, isFolder := false, sourceId := 7,
    display := .horizontal, posX := 1, posY := 1, output := 0, payload := 0 }

/-- Its vertical twin, also selected. -/
def n4v : SceneNode :=
  { id := 3, name := "y", parentId := none, isFolder := false, sourceId := 7,
    display := .vertical, posX := 2, posY := 2, output := 0, payload := 0 }

/-- The source scene of the reorder scenario. -/
def ss4 : Scene := { id := 0, nodes := [n4h, n4v], order := [1, 3] }

/-- The empty destination scene of the reorder scenario. -/
def sd4 : Scene := { id := 5, nodes := [], order := [] }

/-- A dual-output world whose source scene maps node 1 to its twin 3. -/
def w4 : World :=
  { scenes := [ss4, sd4], sources := [⟨7, false⟩],
    nodeMaps := [(0, [(some 1, some 3)])], dualOutputMode := true,
    activeDisplay := .horizontal, ctxHorizontal := 100, ctxVertical := 200,
    nextId := 10 }

/-- The selection of the node and its twin. -/
def sel4 : Selection := ⟨0, [1, 3]⟩

/-- A fresh copy command on the reorder scenario. -/
def c4 : CopyNodesCommand := mkCopyNodesCommand w4 sel4 5 false none

end Worlds

/-! ### Last glue facts about node maps -/

section MapFacts

theorem nodeMapOf_eq_of_maps {w w' : World} (h : w'.nodeMaps = w.nodeMaps)
    (sid : SceneId) : nodeMapOf w' sid = nodeMapOf w sid := by
  unfold nodeMapOf getNodeMap
  rw [h]

theorem zip_map_fst_ids (ns : List SceneNode) (ids : List NodeId)
    (hlen : ns.length = ids.length) :
    ((ns.zip ids).map fun p => p.1.id) = ns.map fun n => n.id := by
  have h := nim_keys ns ids hlen
  rw [List.map_map] at h
  exact h

end MapFacts

/-! ### The claims -/

section Claims

/-- C1: On every successful run of execute on a fresh command, the destination
scene's final node order is the source scene's authoritative order filtered
through the old-to-new node id table (ids absent from the table are dropped),
followed by the destination's pre-execute order as a suffix — so all new node
ids appear before all pre-existing destination ids. -/
theorem C1_final_order (c : CopyNodesCommand) (w : World) (sd ss : Scene)
    (hWF : WF w) (hsel : SelWF w c.selection)
    (hnim0 : c.nodeIdsMap = []) (hsmap0 : c.sourceIdsMap = none)
    (hsd : getScene w c.destSceneId = some sd)
    (hss : getScene w c.selection.sceneId = some ss)
    (hok : SelSourcesOk w c.selection)
    (hsafe : RelinkSafe c w) :
    (execute c w).map (fun t => sceneOrderOf t.2.1 c.destSceneId) =
      some (ss.order.filterMap (alookup (nimOf c w)) ++ sd.order) := by
  obtain ⟨st, w2, wF, nodesF, hEXEC, _, _, _, _, _, _, _, _, _, _, hsceneF, _,
      _, _, _, _, _, _, _, _, _, _, _, _, _, _⟩ :=
    execute_run c w sd ss hWF hsel hnim0 hsmap0 hsd hss hok hsafe
  rw [hEXEC]
  simp only [Option.map_some']
  unfold sceneOrderOf
  rw [hsceneF]
  rfl

/-- C1 witness: the sample world instance of the final order property. -/
theorem C1_final_order_witness :
    (execute cW wW).map (fun t => sceneOrderOf t.2.1 cW.destSceneId) =
      some (ssW.order.filterMap (alookup (nimOf cW wW)) ++ sdW.order) :=
  C1_final_order cW wW sdW ssW (by decide) (by decide) rfl rfl rfl rfl
    (by decide) (by decide)

/-- C2: Execute on a fresh command followed by rollback restores the
destination scene exactly: the same node pool and the same node order as
before execute — every node recorded in the id table is removed and no
others. -/
theorem C2_rollback_restores (c : CopyNodesCommand) (w : World) (sd ss : Scene)
    (hWF : WF w) (hsel : SelWF w c.selection)
    (hnim0 : c.nodeIdsMap = []) (hsmap0 : c.sourceIdsMap = none)
    (hsd : getScene w c.destSceneId = some sd)
    (hss : getScene w c.selection.sceneId = some ss)
    (hok : SelSourcesOk w c.selection)
    (hsafe : RelinkSafe c w) :
    (execRoll c w).map (fun w' => getScene w' c.destSceneId) = some (some sd) := by
  obtain ⟨wF, w', _, _, hexecroll, hscenes, _, _, _, _⟩ :=
    execRoll_spec c w sd ss hWF hsel hnim0 hsmap0 hsd hss hok hsafe
  rw [hexecroll]
  simp only [Option.map_some']
  rw [hscenes c.destSceneId, hsd]

/-- C2 witness: the sample world instance of the restore property. -/
theorem C2_rollback_restores_witness :
    (execRoll cW wW).map (fun w' => getScene w' cW.destSceneId) =
      some (some sdW) :=
  C2_rollback_restores cW wW sdW ssW (by decide) (by decide) rfl rfl rfl rfl
    (by decide) (by decide)

/-- C8: In the relinking pass of execute, every copied node's copy ends with
parent reference equal to the translation of the recorded parent through the
node id table: a node whose parent was not copied (no table entry) becomes a
root (parent none) with no error raised, and a node whose parent was copied is
attached under the copy of the parent. -/
theorem C8_relink_parents (c : CopyNodesCommand) (w : World) (sd ss : Scene)
    (hWF : WF w) (hsel : SelWF w c.selection)
    (hnim0 : c.nodeIdsMap = []) (hsmap0 : c.sourceIdsMap = none)
    (hsd : getScene w c.destSceneId = some sd)
    (hss : getScene w c.selection.sceneId = some ss)
    (hok : SelSourcesOk w c.selection)
    (hsafe : RelinkSafe c w) :
    ∀ n i, (n, i) ∈ (nsOf c w).zip (idsOf c w) →
    (execute c w).map (fun t =>
      (getNodeW t.2.1 c.destSceneId i).map fun m => m.parentId) =
      some (some (n.parentId.bind (alookup (nimOf c w)))) := by
  obtain ⟨st, w2, wF, nodesF, hEXEC, _, _, _, _, _, _, _, _, _, _, _, _,
      _, _, _, _, _, _, _, _, _, hA13, _, _, _, _⟩ :=
    execute_run c w sd ss hWF hsel hnim0 hsmap0 hsd hss hok hsafe
  intro n i hni
  rw [hEXEC]
  simp only [Option.map_some']
  rw [hA13 n i hni]
  rfl

/-- C8 witness: in the sample world the item is reattached under the copied
folder and the folder copy stays a root. -/
theorem C8_relink_parents_witness :
    (nA, 10) ∈ (nsOf cW wW).zip (idsOf cW wW) ∧
    (execute cW wW).map (fun t =>
      (getNodeW t.2.1 cW.destSceneId 10).map fun m => m.parentId) =
      some (some (nA.parentId.bind (alookup (nimOf cW wW)))) :=
  ⟨by decide,
   C8_relink_parents cW wW sdW ssW (by decide) (by decide) rfl rfl rfl rfl
     (by decide) (by decide) nA 10 (by decide)⟩

/-- C9: The command's id translation tables persist across rollback and are
passed as creation id hints, so execute-rollback-execute on one command
instance recreates every copied node with the same new node id as the first
run (the inserted id list is identical), keeps the node id table unchanged,
and — when duplicating sources — issues its duplicate calls with the same id
hint trace as the first run. -/
theorem C9_rerun_same_ids (c : CopyNodesCommand) (w : World) (sd ss : Scene)
    (hWF : WF w) (hsel : SelWF w c.selection)
    (hnim0 : c.nodeIdsMap = []) (hsmap0 : c.sourceIdsMap = none)
    (hsd : getScene w c.destSceneId = some sd)
    (hss : getScene w c.selection.sceneId = some ss)
    (hok : SelSourcesOk w c.selection)
    (hsafe : RelinkSafe c w) :
    ∃ c1 wF w' c2 wF2,
      execute c w = some (c1, wF, idsOf c w) ∧
      rollback c1 wF = some w' ∧
      execute c1 w' = some (c2, wF2, idsOf c w) ∧
      execRollExec c w = some (c2, wF2, idsOf c w) ∧
      c1.nodeIdsMap = nimOf c w ∧
      c2.nodeIdsMap = nimOf c w ∧
      (c.duplicateSources = true →
        (dupPass w' c.selection).hints = (dupPass w c.selection).hints) := by
  obtain ⟨wF, w', hEXEC, hroll, _, hscenes, hsources, hflags, hnext, hsrc⟩ :=
    execRoll_spec c w sd ss hWF hsel hnim0 hsmap0 hsd hss hok hsafe
  obtain ⟨wF2, hEXEC2⟩ :=
    execute_rerun c w w' sd ss hWF hsel hnim0 hsmap0 hsd hss hok hsafe
      hscenes hsrc hflags hnext
  refine ⟨_, wF, w', _, wF2, hEXEC, hroll, hEXEC2, ?_, rfl, rfl, ?_⟩
  · unfold execRollExec
    rw [hEXEC]
    simp only [Option.some_bind]
    rw [hroll]
    simp only [Option.some_bind]
    exact hEXEC2
  · intro _
    have hselw' : selNodes w' c.selection = selNodes w c.selection :=
      ScenesEq.selNodesEq hscenes c.selection
    have hselSrc : selSources w' c.selection = selSources w c.selection :=
      selSources_congr c.selection hselw' hsrc hok
    obtain ⟨_, _, _, _, _, _, _, _, d9⟩ :=
      dupFold_spec (selSources w c.selection) w [] [] w.nextId
        (selSources_nodup w c.selection).1 (fun s _ => rfl) (Nat.le_refl _)
    obtain ⟨_, _, _, _, _, _, _, _, e9⟩ :=
      dupFold_spec (selSources w' c.selection) w' [] [] w'.nextId
        (by rw [hselSrc]; exact (selSources_nodup w c.selection).1)
        (fun s _ => rfl) (Nat.le_refl _)
    show ((selSources w' c.selection).foldl dupStep ⟨[], w', []⟩).hints =
      ((selSources w c.selection).foldl dupStep ⟨[], w, []⟩).hints
    rw [e9, d9, hselSrc]

/-- C9 witness: the duplicating sample command re-executed after rollback
reassigns the same inserted ids and keeps the same table and hints. -/
theorem C9_rerun_same_ids_witness :
    ∃ c1 wF w' c2 wF2,
      execute cW9 wW = some (c1, wF, idsOf cW9 wW) ∧
      rollback c1 wF = some w' ∧
      execute c1 w' = some (c2, wF2, idsOf cW9 wW) ∧
      execRollExec cW9 wW = some (c2, wF2, idsOf cW9 wW) ∧
      c1.nodeIdsMap = nimOf cW9 wW ∧
      c2.nodeIdsMap = nimOf cW9 wW ∧
      (cW9.duplicateSources = true →
        (dupPass w' cW9.selection).hints = (dupPass wW cW9.selection).hints) :=
  C9_rerun_same_ids cW9 wW sdW ssW (by decide) (by decide) rfl rfl rfl rfl
    (by decide) (by decide)

/-- C10: rollback is total over missing nodes: a recorded id that no longer
resolves in the destination scene is skipped without error while the remaining
ids are still processed, and rollback of a command whose execute never ran
(fresh tables) removes no nodes from any scene. -/
theorem C10_rollback_total :
    (∀ (dest : SceneId) (w : World) (nid : NodeId),
      getNodeW w dest nid = none → removeStep dest w nid = w) ∧
    (∀ (w : World) (sel : Selection) (dest : SceneId) (dup : Bool)
      (disp : Option TDisplayType) (sd : Scene),
      getScene w dest = some sd →
      ∃ w', rollback (mkCopyNodesCommand w sel dest dup disp) w = some w' ∧
        ∀ sid, getScene w' sid = getScene w sid) := by
  constructor
  · intro dest w nid h
    exact removeStep_none h
  · intro w sel dest dup disp sd hdest
    unfold rollback mkCopyNodesCommand
    dsimp only
    rw [hdest]
    refine ⟨_, rfl, ?_⟩
    intro sid
    show getScene (if hasNodeMapW w dest = true then removeNodeMap w dest else w)
      sid = getScene w sid
    split
    · exact getScene_removeNodeMap w dest sid
    · rfl

/-- C7: With source duplication requested, the source id table holds exactly
one entry per distinct selected source id, a non-duplicable source (whose
duplicate call returns nothing) maps to its own id, and the copied item of a
non-duplicable source references the original source id in the destination. -/
theorem C7_duplicate_sources (c : CopyNodesCommand) (w : World) (sd ss : Scene)
    (hWF : WF w) (hsel : SelWF w c.selection)
    (hnim0 : c.nodeIdsMap = []) (hsmap0 : c.sourceIdsMap = none)
    (hsd : getScene w c.destSceneId = some sd)
    (hss : getScene w c.selection.sceneId = some ss)
    (hok : SelSourcesOk w c.selection)
    (hsafe : RelinkSafe c w)
    (hdup : c.duplicateSources = true) :
    ((dupPass w c.selection).map.map Prod.fst =
      (selSources w c.selection).map fun s => s.id) ∧
    (∀ s ∈ selSources w c.selection, s.doNotDuplicate = true →
      alookup (dupPass w c.selection).map s.id = some s.id) ∧
    (∀ n i, (n, i) ∈ (nsOf c w).zip (idsOf c w) → n.isFolder = false →
      ∀ s, getSource w n.sourceId = some s → s.doNotDuplicate = true →
      (execute c w).map (fun t =>
        (getNodeW t.2.1 c.destSceneId i).map fun m => m.sourceId) =
      some (some n.sourceId)) := by
  obtain ⟨d1, d2, d3, d4, d5, d6, d7, d8, d9⟩ :=
    dupFold_spec (selSources w c.selection) w [] [] w.nextId
      (selSources_nodup w c.selection).1 (fun s _ => rfl) (Nat.le_refl _)
  obtain ⟨st, w2, wF, nodesF, hEXEC, _, _, _, _, _, _, _, _, _, _, _, _,
      _, _, _, _, _, _, _, _, _, hA13, _, _, _, hns_sel⟩ :=
    execute_run c w sd ss hWF hsel hnim0 hsmap0 hsd hss hok hsafe
  refine ⟨?_, ?_, ?_⟩
  · show ((selSources w c.selection).foldl dupStep ⟨[], w, []⟩).map.map Prod.fst = _
    rw [d1]
    rfl
  · intro s hmem hdnd
    rcases d2 s hmem with ⟨v, hv, himp⟩
    rw [himp hdnd] at hv
    exact hv
  · intro n i hni hnf s hs hdnd
    have hsid : s.id = n.sourceId := by
      have := List.find?_some hs
      simpa using this
    have hmemS : s ∈ selSources w c.selection := by
      unfold selSources
      apply List.mem_filterMap.mpr
      refine ⟨n.sourceId, ?_, hs⟩
      apply List.mem_dedup.mpr
      apply List.mem_map_of_mem
      apply List.mem_filter.mpr
      exact ⟨hns_sel n (List.of_mem_zip hni).1, by simp [hnf]⟩
    rcases d2 s hmemS with ⟨v, hv, himp⟩
    rw [himp hdnd, hsid] at hv
    rw [hEXEC]
    simp only [Option.map_some']
    rw [hA13 n i hni]
    show some (some ((copyOf (migOf c w) c.selection.sceneId c.display
      (smapOf c w) (baseWorldOf c w) n i).sourceId)) = _
    have hcs : (copyOf (migOf c w) c.selection.sceneId c.display (smapOf c w)
        (baseWorldOf c w) n i).sourceId =
        (resolveSourceId (smapOf c w) n.sourceId).getD 0 := by
      unfold copyOf
      rw [hnf]
      rfl
    rw [hcs]
    have hres : resolveSourceId (smapOf c w) n.sourceId = some n.sourceId := by
      unfold smapOf
      rw [if_pos hdup]
      show alookup (dupPass w c.selection).map n.sourceId = some n.sourceId
      unfold dupPass
      exact hv
    rw [hres]
    rfl

/-- C7 witness: in the non-duplicable sample the table maps the source to
itself and the copied item still references source 7. -/
theorem C7_duplicate_sources_witness :
    (⟨7, true⟩ : Source) ∈ selSources wW7 selW ∧
    alookup (dupPass wW7 selW).map 7 = some 7 ∧
    (nA, 10) ∈ (nsOf cW7 wW7).zip (idsOf cW7 wW7) ∧
    (execute cW7 wW7).map (fun t =>
      (getNodeW t.2.1 cW7.destSceneId 10).map fun m => m.sourceId) =
      some (some nA.sourceId) := by
  have h := C7_duplicate_sources cW7 wW7 sdW ssW (by decide) (by decide) rfl rfl
    rfl rfl (by decide) (by decide) rfl
  exact ⟨by decide, h.2.1 ⟨7, true⟩ (by decide) rfl,
    by decide,
    h.2.2 nA 10 (by decide) rfl ⟨7, true⟩ (by decide) rfl⟩

/-- C3 counterexample: in the migration scenario (dual output on, no prior
node map, forced display vertical) one node is copied, yet the destination
node map ends with two entries — the reorder pass adds a second entry keyed by
the new node id whose vertical component is undefined — falsifying the claim
that exactly one node-map entry is created per copied node. -/
theorem C3_counterexample :
    (execute c3C w3C).map (fun t => t.2.2) = some [10] ∧
    (execute c3C w3C).map (fun t => getNodeMap t.2.1 2) =
      some (some [(some 1, some 10), (some 10, none)]) := by
  constructor <;> rfl

/-- C3 (amended): in the migration scenario every selected node is copied,
and for every copied node the destination node map maps the original node id
to the new node id while every copied node's transform position is reset to
the origin; the reorder pass may however add further entries keyed by new
node ids, so the map need not hold exactly one entry per copied node. -/
theorem C3_migration_amended (c : CopyNodesCommand) (w : World) (sd ss : Scene)
    (hWF : WF w) (hsel : SelWF w c.selection)
    (hnim0 : c.nodeIdsMap = []) (hsmap0 : c.sourceIdsMap = none)
    (hsd : getScene w c.destSceneId = some sd)
    (hss : getScene w c.selection.sceneId = some ss)
    (hok : SelSourcesOk w c.selection)
    (hsafe : RelinkSafe c w)
    (hdual : w.dualOutputMode = true) (hhas : c.hasNodeMap = false)
    (hdisp : c.display = some .vertical) :
    nsOf c w = selNodes (baseWorldOf c w) c.selection ∧
    ∀ n i, (n, i) ∈ (nsOf c w).zip (idsOf c w) →
      (execute c w).map (fun t =>
        alookup (nodeMapOf t.2.1 c.destSceneId) (some n.id)) =
        some (some (some i)) ∧
      (execute c w).map (fun t =>
        (getNodeW t.2.1 c.destSceneId i).map fun m => (m.posX, m.posY)) =
        some (some ((0 : Int), (0 : Int))) := by
  have hmigT : migOf c w = true := by
    unfold migOf
    rw [hdual, hhas]
    rfl
  obtain ⟨st, w2, wF, nodesF, hEXEC, _, _, _, _, hst_maps, _, _, hw2maps, _,
      _, _, _, _, _, _, _, _, _, _, hB2, _, hA13, hMapsF, hns_nodup, hns_lt,
      _⟩ :=
    execute_run c w sd ss hWF hsel hnim0 hsmap0 hsd hss hok hsafe
  have hlen : (nsOf c w).length = (idsOf c w).length := (newIds_length _ _).symm
  constructor
  · unfold nsOf
    rw [if_pos hmigT]
  · intro n i hni
    have hbm : (c.hasNodeMap || migOf c w) = true := by
      rw [hhas, hmigT]
      rfl
    rw [if_pos hbm] at hMapsF
    have hkeep : alookup (nodeMapOf wF c.destSceneId) (some n.id) =
        alookup (nodeMapOf w2 c.destSceneId) (some n.id) := by
      rw [nodeMapOf_eq_of_maps hMapsF]
      apply reorderMapPass_keepK
      intro oid _ hcon
      have h2 := (nim_lookup_mem hcon).1
      have h3 : w.nextId ≤ n.id := hB2.trans (mem_newIds h2).1
      have h4 : n.id < w.nextId := hns_lt n (List.of_mem_zip hni).1
      exact absurd h4 (Nat.not_lt.mpr h3)
    have hw2look : alookup (nodeMapOf w2 c.destSceneId) (some n.id) =
        some (some i) := by
      rw [nodeMapOf_eq_of_maps hw2maps]
      have hstm : nodeMapOf st.world c.destSceneId =
          ((nsOf c w).zip (idsOf c w)).foldl
            (fun m p => aset m (some p.1.id) (some p.2))
            (nodeMapOf w c.destSceneId) := by
        unfold nodeMapOf getNodeMap
        rw [hst_maps, if_pos ⟨hmigT, hdisp⟩]
        exact migMaps_self _ _ _
      rw [hstm]
      apply asetFold_self
      · rw [zip_map_fst_ids _ _ hlen]
        exact hns_nodup
      · exact hni
    have hxy : ((copyOf (migOf c w) c.selection.sceneId c.display (smapOf c w)
        (baseWorldOf c w) n i).posX,
        (copyOf (migOf c w) c.selection.sceneId c.display (smapOf c w)
          (baseWorldOf c w) n i).posY) = ((0 : Int), (0 : Int)) := by
      unfold copyOf
      rw [hmigT, hdisp]
      cases n.isFolder <;> rfl
    constructor
    · rw [hEXEC]
      simp only [Option.map_some']
      rw [hkeep, hw2look]
    · rw [hEXEC]
      simp only [Option.map_some']
      rw [hA13 n i hni]
      show some (some ((copyOf (migOf c w) c.selection.sceneId c.display
        (smapOf c w) (baseWorldOf c w) n i).posX,
        (copyOf (migOf c w) c.selection.sceneId c.display
          (smapOf c w) (baseWorldOf c w) n i).posY)) = _
      rw [hxy]

/-- C3 amended witness: the migration scenario instance, checked on the
single copied item. -/
theorem C3_migration_amended_witness :
    (n3a, 10) ∈ (nsOf c3C w3C).zip (idsOf c3C w3C) ∧
    (execute c3C w3C).map (fun t =>
      alookup (nodeMapOf t.2.1 c3C.destSceneId) (some n3a.id)) =
      some (some (some 10)) ∧
    (execute c3C w3C).map (fun t =>
      (getNodeW t.2.1 c3C.destSceneId 10).map fun m => (m.posX, m.posY)) =
      some (some ((0 : Int), (0 : Int))) := by
  have h := C3_migration_amended c3C w3C ⟨2, [], []⟩ ⟨0, [n3a], [1]⟩
    (by decide) (by decide) rfl rfl rfl rfl (by decide) (by decide)
    rfl rfl rfl
  exact ⟨by decide, (h.2 n3a 10 (by decide)).1, (h.2 n3a 10 (by decide)).2⟩

/-- C4: When the command state carries a node map (non-migration) in dual
output mode, copying a source-scene node classified horizontal whose vertical
twin was also copied registers a destination node-map entry pairing the two
new ids obtained through the id table — not the old ids. -/
theorem C4_reorder_map_entry (c : CopyNodesCommand) (w : World) (sd ss : Scene)
    (hWF : WF w) (hsel : SelWF w c.selection)
    (hnim0 : c.nodeIdsMap = []) (hsmap0 : c.sourceIdsMap = none)
    (hsd : getScene w c.destSceneId = some sd)
    (hss : getScene w c.selection.sceneId = some ss)
    (hok : SelSourcesOk w c.selection)
    (hsafe : RelinkSafe c w)
    (hdual : w.dualOutputMode = true) (hhas : c.hasNodeMap = true)
    (n : SceneNode) (vid : NodeId) (m : SceneNode)
    (hn : n ∈ nsOf c w) (hnord : n.id ∈ ss.order)
    (hdispn : getNodeDisplay w n.id c.selection.sceneId = .horizontal)
    (hvert : getVerticalNodeId w n.id c.selection.sceneId = some vid)
    (hm : m ∈ nsOf c w) (hmid : m.id = vid) :
    ∃ hNew vNew, alookup (nimOf c w) n.id = some hNew ∧
      alookup (nimOf c w) vid = some vNew ∧
      (execute c w).map (fun t =>
        alookup (nodeMapOf t.2.1 c.destSceneId) (some hNew)) =
        some (some (some vNew)) := by
  have hmigF : migOf c w = false := by
    unfold migOf
    rw [hhas]
    cases w.dualOutputMode <;> rfl
  obtain ⟨st, w2, wF, nodesF, hEXEC, _, _, _, _, hst_maps, _, _, hw2maps, _,
      hold2, _, _, _, _, _, _, _, _, _, hB2, _, _, hMapsF, hns_nodup, hns_lt,
      _⟩ :=
    execute_run c w sd ss hWF hsel hnim0 hsmap0 hsd hss hok hsafe
  have hWFss := hWF.2.1 ss (List.mem_of_find?_eq_some hss)
  have hlen : (nsOf c w).length = (idsOf c w).length := (newIds_length _ _).symm
  have hlookup_self : ∀ n i, (n, i) ∈ (nsOf c w).zip (idsOf c w) →
      alookup (nimOf c w) n.id = some i := nim_lookup_self _ _ hns_nodup
  have hinj : ∀ a b v, alookup (nimOf c w) a = some v →
      alookup (nimOf c w) b = some v → a = b :=
    nim_inj _ _ hns_nodup (newIds_nodup _ _)
  rcases mem_zip_of_mem_left hlen hn with ⟨hNew, hpn⟩
  rcases mem_zip_of_mem_left hlen hm with ⟨vNew, hpm⟩
  have hK : alookup (nimOf c w) n.id = some hNew := hlookup_self n hNew hpn
  have hV : alookup (nimOf c w) vid = some vNew := by
    rw [← hmid]
    exact hlookup_self m vNew hpm
  refine ⟨hNew, vNew, hK, hV, ?_⟩
  have hstmapsW : st.world.nodeMaps = w.nodeMaps := by
    rw [hst_maps, if_neg]
    intro hc
    rw [hmigF] at hc
    exact Bool.false_ne_true hc.1
  have hbm : (c.hasNodeMap || migOf c w) = true := by
    rw [hhas]
    rfl
  rw [if_pos hbm] at hMapsF
  have hlive_nodup : (liveOrderOf c w ss.order).Nodup := by
    unfold liveOrderOf
    refine List.Nodup.append hWFss.2.1 ?_ ?_
    · split
      · exact newIds_nodup _ _
      · exact List.nodup_nil
    · intro a ha hb
      split at hb
      · have h3 : w.nextId ≤ a := hB2.trans (mem_newIds hb).1
        exact absurd (hWFss.2.2.2.1 a ha) (Nat.not_lt.mpr h3)
      · cases hb
  have hnord' : n.id ∈ liveOrderOf c w ss.order := by
    unfold liveOrderOf
    exact List.mem_append_left _ hnord
  have hdisp2 : getNodeDisplay w2 n.id c.selection.sceneId = .horizontal := by
    rw [getNodeDisplay_eq_of_getNodeW w w2 n.id c.selection.sceneId
      (hold2 _ n.id (hns_lt n hn))]
    exact hdispn
  have hm2 : getNodeMap w2 c.selection.sceneId =
      getNodeMap w c.selection.sceneId := by
    unfold getNodeMap
    rw [hw2maps, hstmapsW]
  have hvert2 : getVerticalNodeId w2 n.id c.selection.sceneId = some vid := by
    rw [getVerticalNodeId_eq_of_map c.selection.sceneId hm2]
    exact hvert
  have hentry := reorderMapPass_entry (nimOf c w) c.destSceneId
    c.selection.sceneId (liveOrderOf c w ss.order) w2 [] n.id hNew
    hlive_nodup hnord' hdisp2 hK
    (fun x hcon => by
      have h2 := (nim_lookup_mem hcon).1
      have h3 : w.nextId ≤ n.id := hB2.trans (mem_newIds h2).1
      exact absurd (hns_lt n hn) (Nat.not_lt.mpr h3))
    (fun x hx hcon => hx (hinj x n.id hNew hcon hK))
  rw [hEXEC]
  simp only [Option.map_some']
  rw [nodeMapOf_eq_of_maps hMapsF, hentry, hvert2]
  show some (some (alookup (nimOf c w) vid)) = some (some (some vNew))
  rw [hV]

/-- C4 witness: the dual-output sample where node 1 and its twin 3 are both
copied; the new entry pairs their new ids 10 and 11. -/
theorem C4_reorder_map_entry_witness :
    ∃ hNew vNew, alookup (nimOf c4 w4) n4h.id = some hNew ∧
      alookup (nimOf c4 w4) 3 = some vNew ∧
      (execute c4 w4).map (fun t =>
        alookup (nodeMapOf t.2.1 c4.destSceneId) (some hNew)) =
        some (some (some vNew)) :=
  C4_reorder_map_entry c4 w4 sd4 ss4 (by decide) (by decide) rfl rfl rfl rfl
    (by decide) (by decide) rfl rfl n4h 3 n4v (by decide)
    (by decide) rfl rfl (by decide) rfl

/-- C5 counterexample: copying only the horizontal node of a mapped pair
creates a destination node-map entry linking the new horizontal id 10 to an
undefined id (the twin was not copied, so its translation is absent),
falsifying the claim that every created entry links two defined ids. -/
theorem C5_counterexample :
    (execute c5C w5C).map (fun t => getNodeMap t.2.1 5) =
      some (some [(some 10, none)]) := by
  rfl

/-- C5 (amended): every node-map entry present after a non-migration run of
execute is a pre-existing entry of the destination map, or is keyed by the
id-table translation of a pre-order source-scene node currently classified
horizontal, or has an undefined key (the reorder pass walks the live order,
which in a same-scene paste also contains the freshly inserted copies, absent
from the id table); the translations of the node or its twin may be absent,
so an entry may link to an undefined id. -/
theorem C5_map_entries_amended (c : CopyNodesCommand) (w : World) (sd ss : Scene)
    (hWF : WF w) (hsel : SelWF w c.selection)
    (hnim0 : c.nodeIdsMap = []) (hsmap0 : c.sourceIdsMap = none)
    (hsd : getScene w c.destSceneId = some sd)
    (hss : getScene w c.selection.sceneId = some ss)
    (hok : SelSourcesOk w c.selection)
    (hsafe : RelinkSafe c w)
    (hhas : c.hasNodeMap = true) :
    ∀ t, execute c w = some t →
    ∀ pr ∈ nodeMapOf t.2.1 c.destSceneId,
      pr ∈ nodeMapOf w c.destSceneId ∨
      (∃ oid, oid ∈ ss.order ∧
        getNodeDisplay w oid c.selection.sceneId = .horizontal ∧
        pr.1 = alookup (nimOf c w) oid) ∨
      pr.1 = none := by
  have hmigF : migOf c w = false := by
    unfold migOf
    rw [hhas]
    cases w.dualOutputMode <;> rfl
  obtain ⟨st, w2, wF, nodesF, hEXEC, _, _, _, _, hst_maps, _, _, hw2maps, _,
      hold2, _, _, _, _, _, _, _, _, _, hB2, _, _, hMapsF, _, hns_lt, _⟩ :=
    execute_run c w sd ss hWF hsel hnim0 hsmap0 hsd hss hok hsafe
  have hWFss := hWF.2.1 ss (List.mem_of_find?_eq_some hss)
  have hlen : (nsOf c w).length = (idsOf c w).length := (newIds_length _ _).symm
  intro t ht pr hpr
  rw [hEXEC] at ht
  have hteq := Option.some.inj ht
  subst hteq
  have hpr2 : pr ∈ nodeMapOf wF c.destSceneId := hpr
  have hbm : (c.hasNodeMap || migOf c w) = true := by
    rw [hhas]
    rfl
  rw [if_pos hbm] at hMapsF
  rw [nodeMapOf_eq_of_maps hMapsF] at hpr2
  have hstmapsW : st.world.nodeMaps = w.nodeMaps := by
    rw [hst_maps, if_neg]
    intro hc
    rw [hmigF] at hc
    exact Bool.false_ne_true hc.1
  rcases reorderMapPass_sound (nimOf c w) c.destSceneId c.selection.sceneId
      (liveOrderOf c w ss.order) w2 [] pr hpr2 with h | ⟨oid, hoid, hdisp2, hkey⟩
  · left
    rw [nodeMapOf_eq_of_maps (hw2maps.trans hstmapsW)] at h
    exact h
  · unfold liveOrderOf at hoid
    rcases List.mem_append.mp hoid with hL | hR
    · refine Or.inr (Or.inl ⟨oid, hL, ?_, hkey⟩)
      rw [← getNodeDisplay_eq_of_getNodeW w w2 oid c.selection.sceneId
        (hold2 _ oid (hWFss.2.2.2.1 oid hL))]
      exact hdisp2
    · refine Or.inr (Or.inr ?_)
      split at hR
      · rw [hkey]
        apply nim_lookup_none _ _ hlen
        intro hmem
        rcases List.mem_map.mp hmem with ⟨n, hn, hni⟩
        have hni2 : n.id = oid := hni
        have h1 : n.id < w.nextId := hns_lt n hn
        have h2 : w.nextId ≤ oid := hB2.trans (mem_newIds hR).1
        rw [hni2] at h1
        exact absurd h1 (Nat.not_lt.mpr h2)
      · cases hR

/-- C5 amended witness: the counterexample scenario's single map entry is
keyed by the translation of the horizontal node 1. -/
theorem C5_map_entries_amended_witness :
    ((some 10 : Option NodeId), (none : Option NodeId)) ∈
      nodeMapOf w5C c5C.destSceneId ∨
    (∃ oid, oid ∈ ([1, 2] : List NodeId) ∧
      getNodeDisplay w5C oid c5C.selection.sceneId = .horizontal ∧
      ((some 10 : Option NodeId), (none : Option NodeId)).1 =
        alookup (nimOf c5C w5C) oid) ∨
    ((some 10 : Option NodeId), (none : Option NodeId)).1 =
      (none : Option NodeId) := by
  have h := C5_map_entries_amended c5C w5C ⟨5, [], []⟩ ⟨0, [n5h, n5v], [1, 2]⟩
    (by decide) (by decide) rfl rfl rfl rfl (by decide) (by decide) rfl
  exact h _ rfl (some 10, none) (by decide)

/-- C6 counterexample: the destination scene owns a pre-existing node map and
the command adds no entries to it, yet rollback after execute removes the
whole map — falsifying the claim that a map the command did not touch is left
in place. -/
theorem C6_counterexample :
    getNodeMap w6C 5 = some [(some 3, some 4)] ∧
    (execute c6C w6C).map (fun t => getNodeMap t.2.1 5) =
      some (some [(some 3, some 4)]) ∧
    (execRoll c6C w6C).map (fun wr => getNodeMap wr 5) = some none := by
  exact ⟨rfl, rfl, rfl⟩

/-- C6 (amended): rollback removes the destination scene's node map in its
entirety whenever the destination scene has a node map at rollback time —
including entries that pre-existed the command — while the node maps of all
other scenes are left untouched. -/
theorem C6_rollback_map_amended (c : CopyNodesCommand) (w : World) (sd : Scene)
    (hdest : getScene w c.destSceneId = some sd)
    (hcover : ∀ i ∈ sd.order, i ∈ sd.nodes.map fun n => n.id)
    (hmap : hasNodeMapW w c.destSceneId = true) :
    ∃ w', rollback c w = some w' ∧ getNodeMap w' c.destSceneId = none ∧
      ∀ sid, sid ≠ c.destSceneId → getNodeMap w' sid = getNodeMap w sid := by
  obtain ⟨w', hroll, _, _, _, _, _, hmaps⟩ := rollback_spec c w sd hdest hcover
  rw [if_pos hmap] at hmaps
  refine ⟨w', hroll, ?_, ?_⟩
  · unfold getNodeMap
    rw [hmaps]
    exact alookup_filter_self _ _
  · intro sid hsid
    unfold getNodeMap
    rw [hmaps]
    exact alookup_filter_ne _ _ _ hsid

/-- C6 amended witness: the pre-existing map of the counterexample scenario is
removed wholesale by a plain rollback. -/
theorem C6_rollback_map_amended_witness :
    ∃ w', rollback c6C w6C = some w' ∧ getNodeMap w' c6C.destSceneId = none ∧
      ∀ sid, sid ≠ c6C.destSceneId → getNodeMap w' sid = getNodeMap w6C sid :=
  C6_rollback_map_amended c6C w6C ⟨5, [], []⟩ rfl (by decide) (by decide)

/-- C10 witness: a concrete skip of an unresolvable id and a concrete no-op
rollback of a never-executed command. -/
theorem C10_rollback_total_witness :
    removeStep 5 wW 99 = wW ∧
    ∃ w', rollback (mkCopyNodesCommand wW selW 5 false none) wW = some w' ∧
      ∀ sid, getScene w' sid = getScene wW sid :=
  ⟨C10_rollback_total.1 5 wW 99 (by decide),
   C10_rollback_total.2 wW selW 5 false none sdW rfl⟩

end Claims

end Desktop
